import Mathlib

/-!
# DualHPGe_NuDEX: event accumulation, histogramming and run merge

A shallow embedding of `Run` (src/src/Run.cc), `EventAction`
(src/src/EventAction.cc) and the accumulable part of `RunAction`
(src/src/RunAction.cc).

Conventions of the embedding:

* `G4double` values are exact rationals (`ℚ`): sums are exact, there is no
  rounding.
* `G4int` values are integers (`Int`).  Signed overflow is undefined behaviour
  in C++, so the embedding describes the executions in which no counter
  overflows.
* `std::map<G4int, G4int>` is an association list whose keys are strictly
  increasing, which is what in-order iteration over the map observes.
  `operator[]` on an absent key inserts the key with value `0`.
-/

namespace DualHPGe

/-! ## std::map<G4int, G4int> -/

/-- Entries of a map in iteration order: (key, value) pairs. -/
abbrev Entries := List (Int × Int)

/-- Keys are strictly increasing along the list. -/
def Entries.Ascending (l : Entries) : Prop :=
  List.Pairwise (fun a b => a.1 < b.1) l

/-- Map lookup (`std::map::find`): the value stored under `k`, if any. -/
def Entries.find (k : Int) : Entries → Option Int
  | [] => none
  | (k', v') :: t => if k = k' then some v' else Entries.find k t

/-- The statement `m[k] += v`: an absent key is first inserted with value 0. -/
def Entries.addAt (k v : Int) : Entries → Entries
  | [] => [(k, 0 + v)]
  | (k', v') :: t =>
    if k < k' then (k, 0 + v) :: (k', v') :: t
    else if k = k' then (k', v' + v) :: t
    else (k', v') :: Entries.addAt k v t

/-- The loop `for (const auto& bin : other) m[bin.first] += bin.second;`. -/
def Entries.mergeFrom (self other : Entries) : Entries :=
  other.foldl (fun acc bin => Entries.addAt bin.1 bin.2 acc) self

theorem Entries.mem_addAt (k v : Int) (l : Entries) (x : Int × Int)
    (hx : x ∈ Entries.addAt k v l) : x.1 = k ∨ x ∈ l := by
  induction l with
  | nil =>
    simp only [Entries.addAt, List.mem_singleton] at hx
    left; rw [hx]
  | cons hd t ih =>
    obtain ⟨k', v'⟩ := hd
    simp only [Entries.addAt] at hx
    split_ifs at hx with h1 h2
    · rcases List.mem_cons.1 hx with h | h
      · left; rw [h]
      · right; exact h
    · rcases List.mem_cons.1 hx with h | h
      · left; rw [h]; exact h2.symm
      · right; exact List.mem_cons_of_mem _ h
    · rcases List.mem_cons.1 hx with h | h
      · right; rw [h]; exact List.mem_cons_self _ _
      · rcases ih h with h' | h'
        · left; exact h'
        · right; exact List.mem_cons_of_mem _ h'

theorem Entries.ascending_addAt (k v : Int) (l : Entries) (hl : l.Ascending) :
    (Entries.addAt k v l).Ascending := by
  induction l with
  | nil => simp [Entries.addAt, Entries.Ascending]
  | cons hd t ih =>
    obtain ⟨k', v'⟩ := hd
    unfold Entries.Ascending at hl ih ⊢
    rw [List.pairwise_cons] at hl
    obtain ⟨hhd, htl⟩ := hl
    simp only [Entries.addAt]
    split_ifs with h1 h2
    · refine List.pairwise_cons.2 ⟨?_, List.pairwise_cons.2 ⟨hhd, htl⟩⟩
      intro a ha
      rcases List.mem_cons.1 ha with h | h
      · rw [h]; exact h1
      · exact lt_trans h1 (hhd a h)
    · exact List.pairwise_cons.2 ⟨hhd, htl⟩
    · refine List.pairwise_cons.2 ⟨?_, ih htl⟩
      intro a ha
      rcases Entries.mem_addAt k v t a ha with h | h
      · rw [h]
        exact lt_of_le_of_ne (not_lt.1 h1) (fun e => h2 e.symm)
      · exact hhd a h

theorem Entries.ascending_mergeFrom (self other : Entries) (hs : self.Ascending) :
    (Entries.mergeFrom self other).Ascending := by
  unfold Entries.mergeFrom
  induction other generalizing self with
  | nil => exact hs
  | cons hd t ih => exact ih _ (Entries.ascending_addAt _ _ _ hs)

/-- The histogram type `std::map<G4int, G4int>` of `Run`. -/
structure EnergyHistogram where
  /-- Entries in iteration order. -/
  bins : Entries
  /-- Keys are unique and ordered. -/
  ordered : bins.Ascending

/-- A default-constructed (empty) map. -/
def EnergyHistogram.empty : EnergyHistogram := ⟨[], List.Pairwise.nil⟩

/-- Count stored in bin `b`, an absent bin counting as 0. -/
def EnergyHistogram.count (h : EnergyHistogram) (b : Int) : Int :=
  (Entries.find b h.bins).getD 0

/-- The statement `h[k] += v`; `h[k]++` is `h.addAt k 1`. -/
def EnergyHistogram.addAt (h : EnergyHistogram) (k v : Int) : EnergyHistogram :=
  ⟨Entries.addAt k v h.bins, Entries.ascending_addAt k v h.bins h.ordered⟩

/-- The loop `for (const auto& bin : other) h[bin.first] += bin.second;`. -/
def EnergyHistogram.mergeFrom (self other : EnergyHistogram) : EnergyHistogram :=
  ⟨Entries.mergeFrom self.bins other.bins,
    Entries.ascending_mergeFrom self.bins other.bins self.ordered⟩

/-! ## Units (G4SystemOfUnits.hh) -/

/-- Modelled from the spec: the energy unit constant `MeV` of the Geant4 system
of units (G4SystemOfUnits.hh is not part of the sources); energies are held in MeV. -/
def MeV : ℚ := 1

/-- Modelled from the spec: the unit constant `keV` of the Geant4 system of
units (not part of the sources): 1 keV = 0.001 MeV. -/
def keV : ℚ := 1 / 1000 * MeV

/-- Modelled from the spec: the time unit constant `ns` of the Geant4 system of
units (not part of the sources). -/
def ns : ℚ := 1

/-- The conversion `static_cast<G4int>(x)` of a double: truncation toward zero. -/
def castToInt (x : ℚ) : Int := Int.tdiv x.num x.den

/-! ## G4double arithmetic (IEEE 754 binary64) -/

/-- Nearest integer, a tie going to the even neighbour. -/
def roundHalfEven (y : ℚ) : Int :=
  if y - ⌊y⌋ < 1 / 2 then ⌊y⌋
  else if 1 / 2 < y - ⌊y⌋ then ⌊y⌋ + 1
  else if ⌊y⌋ % 2 = 0 then ⌊y⌋ else ⌊y⌋ + 1

/-- The double nearest to a positive `x`: with `j` the binary exponent of `x`
(`2^j ≤ x < 2^(j+1)`), the multiple of `2^(j-52)` nearest to `x`, so that the
significand has 53 bits; a tie goes to the even significand. -/
def G4double.nearestPos (x : ℚ) : ℚ :=
  (roundHalfEven (x / 2 ^ (Int.log 2 x - 52)) : ℚ) * 2 ^ (Int.log 2 x - 52)

/-- The value a `G4double` holds for the exact value `x`: rounding to nearest,
ties to even, as applied to the exact result of an arithmetic operation on
doubles and to a decimal literal.  A value it leaves unchanged is a double.  The
exponent is not bounded: every finite double is left unchanged; a result beyond
the largest double stands for the infinity the program holds and compares with
the finite constants as that infinity does; a non-zero result below the normal
range keeps its sign and stays below the smallest normal double, as the
subnormal result of the program does. -/
def G4double.nearest (x : ℚ) : ℚ :=
  if x = 0 then 0
  else if x < 0 then -G4double.nearestPos (-x)
  else G4double.nearestPos x

/-- The operation `a / b` on `G4double`: the double nearest to the exact quotient
of the doubles that `a` and `b` denote. -/
def G4double.div (a b : ℚ) : ℚ :=
  G4double.nearest (G4double.nearest a / G4double.nearest b)

/-! ## Run (src/src/Run.cc, src/include/Run.hh) -/

/-- Data members of `Run` (the base class `G4Run` belongs to the toolkit and is
not represented). -/
structure Run where
  fEnergyHistogramDet1 : EnergyHistogram
  fEnergyHistogramDet2 : EnergyHistogram
  fTotalEnergyDepositDet1 : ℚ
  fTotalEnergyDepositDet2 : ℚ
  fTotalEventsDet1 : Int
  fTotalEventsDet2 : Int

/-- Constant `static constexpr G4int fNbins = 10000`. -/
def Run.fNbins : Int := 10000

/-- Constant `static constexpr G4double fEmax = 10.0` (MeV). -/
def Run.fEmax : ℚ := 10.0

/-- The constructor `Run::Run()`. -/
def Run.new : Run :=
  { fEnergyHistogramDet1 := EnergyHistogram.empty
    fEnergyHistogramDet2 := EnergyHistogram.empty
    fTotalEnergyDepositDet1 := 0
    fTotalEnergyDepositDet2 := 0
    fTotalEventsDet1 := 0
    fTotalEventsDet2 := 0 }

/-- Source function `Run::EnergyToBin`, for a finite `energy`.  The quotient is the
division of doubles; the product `fEmax * 1000` is exactly 10000. -/
def Run.EnergyToBin (energy : ℚ) : Int :=
  let energy_keV := G4double.div energy keV
  if energy_keV < 0 ∨ energy_keV ≥ Run.fEmax * 1000 then
    -1
  else
    castToInt energy_keV

/-- Source function `Run::AddEnergySpectrumDet1`. -/
def Run.AddEnergySpectrumDet1 (self : Run) (energy : ℚ) : Run :=
  let bin := Run.EnergyToBin energy
  let self₁ :=
    if bin ≥ 0 ∧ bin < Run.fNbins then
      { self with fEnergyHistogramDet1 := self.fEnergyHistogramDet1.addAt bin 1 }
    else self
  let self₂ := { self₁ with fTotalEnergyDepositDet1 := self₁.fTotalEnergyDepositDet1 + energy }
  { self₂ with fTotalEventsDet1 := self₂.fTotalEventsDet1 + 1 }

/-- Source function `Run::AddEnergySpectrumDet2`. -/
def Run.AddEnergySpectrumDet2 (self : Run) (energy : ℚ) : Run :=
  let bin := Run.EnergyToBin energy
  let self₁ :=
    if bin ≥ 0 ∧ bin < Run.fNbins then
      { self with fEnergyHistogramDet2 := self.fEnergyHistogramDet2.addAt bin 1 }
    else self
  let self₂ := { self₁ with fTotalEnergyDepositDet2 := self₁.fTotalEnergyDepositDet2 + energy }
  { self₂ with fTotalEventsDet2 := self₂.fTotalEventsDet2 + 1 }

/-- Source function `Run::Merge`: `self` is the object merged into, `localRun` the argument. -/
def Run.Merge (self localRun : Run) : Run :=
  { fEnergyHistogramDet1 := self.fEnergyHistogramDet1.mergeFrom localRun.fEnergyHistogramDet1
    fEnergyHistogramDet2 := self.fEnergyHistogramDet2.mergeFrom localRun.fEnergyHistogramDet2
    fTotalEnergyDepositDet1 := self.fTotalEnergyDepositDet1 + localRun.fTotalEnergyDepositDet1
    fTotalEnergyDepositDet2 := self.fTotalEnergyDepositDet2 + localRun.fTotalEnergyDepositDet2
    fTotalEventsDet1 := self.fTotalEventsDet1 + localRun.fTotalEventsDet1
    fTotalEventsDet2 := self.fTotalEventsDet2 + localRun.fTotalEventsDet2 }

/-- The call `master.Merge(&other)` on two distinct objects, as a step on the
pair (master, other): the argument is a pointer to const and is only read. -/
def Run.MergeStep (s : Run × Run) : Run × Run :=
  (Run.Merge s.1 s.2, s.2)

/-! ## RunAction accumulables (src/src/RunAction.cc) -/

/-- The four `G4Accumulable` members of `RunAction`. -/
structure RunAction where
  fEnergyDepositDet1 : ℚ
  fEnergyDepositDet2 : ℚ
  fEventCountDet1 : Int
  fEventCountDet2 : Int

/-- Accumulables after construction, and after `G4AccumulableManager::Reset`
in `BeginOfRunAction`: every accumulable holds its initial value. -/
def RunAction.new : RunAction :=
  { fEnergyDepositDet1 := 0
    fEnergyDepositDet2 := 0
    fEventCountDet1 := 0
    fEventCountDet2 := 0 }

/-- Source function `RunAction::AddEnergyDepositDet1`. -/
def RunAction.AddEnergyDepositDet1 (self : RunAction) (edep : ℚ) : RunAction :=
  let self₁ := { self with fEnergyDepositDet1 := self.fEnergyDepositDet1 + edep }
  if edep > 0 then { self₁ with fEventCountDet1 := self₁.fEventCountDet1 + 1 } else self₁

/-- Source function `RunAction::AddEnergyDepositDet2`. -/
def RunAction.AddEnergyDepositDet2 (self : RunAction) (edep : ℚ) : RunAction :=
  let self₁ := { self with fEnergyDepositDet2 := self.fEnergyDepositDet2 + edep }
  if edep > 0 then { self₁ with fEventCountDet2 := self₁.fEventCountDet2 + 1 } else self₁

/-- The value `rmsDet1` computed in `RunAction::EndOfRunAction` from the merged
accumulables.  `sqrt` stands for `std::sqrt`. -/
def RunAction.rmsDet1 (sqrt : ℚ → ℚ) (self : RunAction) : ℚ :=
  let energyDepositDet1 := self.fEnergyDepositDet1
  let energyDepositDet12 := energyDepositDet1 * energyDepositDet1
  let eventCountDet1 := self.fEventCountDet1
  if eventCountDet1 > 0 then
    let rmsDet1 := energyDepositDet12 - energyDepositDet1 * energyDepositDet1 / eventCountDet1
    if rmsDet1 > 0 then sqrt rmsDet1 else rmsDet1
  else 0

/-- The value `rmsDet2` computed in `RunAction::EndOfRunAction`. -/
def RunAction.rmsDet2 (sqrt : ℚ → ℚ) (self : RunAction) : ℚ :=
  let energyDepositDet2 := self.fEnergyDepositDet2
  let energyDepositDet22 := energyDepositDet2 * energyDepositDet2
  let eventCountDet2 := self.fEventCountDet2
  if eventCountDet2 > 0 then
    let rmsDet2 := energyDepositDet22 - energyDepositDet2 * energyDepositDet2 / eventCountDet2
    if rmsDet2 > 0 then sqrt rmsDet2 else rmsDet2
  else 0

/-- The values `RunAction::EndOfRunAction` derives and prints for the two
detectors. -/
structure RunSummary where
  eventCountDet1 : Int
  energyDepositDet1 : ℚ
  rmsDet1 : ℚ
  doseDet1 : ℚ
  rmsDoseDet1 : ℚ
  eventCountDet2 : Int
  energyDepositDet2 : ℚ
  rmsDet2 : ℚ
  doseDet2 : ℚ
  rmsDoseDet2 : ℚ

/-- Source function `RunAction::EndOfRunAction`, on the merged accumulables: `none`
when the run has no event (the function returns at once), else the derived
values.  `mass1` and `mass2` are the masses of the two scoring volumes. -/
def RunAction.EndOfRunAction (sqrt : ℚ → ℚ) (self : RunAction) (nofEvents : Int)
    (mass1 mass2 : ℚ) : Option RunSummary :=
  if nofEvents = 0 then none
  else
    let energyDepositDet1 := self.fEnergyDepositDet1
    let eventCountDet1 := self.fEventCountDet1
    let rmsDet1 := RunAction.rmsDet1 sqrt self
    let energyDepositDet2 := self.fEnergyDepositDet2
    let eventCountDet2 := self.fEventCountDet2
    let rmsDet2 := RunAction.rmsDet2 sqrt self
    let doseDet1 := if eventCountDet1 > 0 then energyDepositDet1 / mass1 else 0
    let rmsDoseDet1 := if eventCountDet1 > 0 then rmsDet1 / mass1 else 0
    let doseDet2 := if eventCountDet2 > 0 then energyDepositDet2 / mass2 else 0
    let rmsDoseDet2 := if eventCountDet2 > 0 then rmsDet2 / mass2 else 0
    some
      { eventCountDet1 := eventCountDet1
        energyDepositDet1 := energyDepositDet1
        rmsDet1 := rmsDet1
        doseDet1 := doseDet1
        rmsDoseDet1 := rmsDoseDet1
        eventCountDet2 := eventCountDet2
        energyDepositDet2 := energyDepositDet2
        rmsDet2 := rmsDet2
        doseDet2 := doseDet2
        rmsDoseDet2 := rmsDoseDet2 }

/-! ## EventAction (src/src/EventAction.cc) -/

/-- Data members of `EventAction` that the code reads or writes.  The hit
collections (`fAllHits`, `fHitsDet1`, `fHitsDet2`, `fCoincidences`) are never
filled by the sources and stay empty. -/
structure EventAction where
  fEnergyDepositDet1 : ℚ
  fEnergyDepositDet2 : ℚ
  fCoincidenceWindow : ℚ
  fMinimumEnergy : ℚ

/-- The constructor `EventAction::EventAction`. -/
def EventAction.new : EventAction :=
  { fEnergyDepositDet1 := 0
    fEnergyDepositDet2 := 0
    fCoincidenceWindow := 20.0 * ns
    fMinimumEnergy := 0.010 * MeV }

/-- Source function `EventAction::BeginOfEventAction`. -/
def EventAction.BeginOfEventAction (self : EventAction) : EventAction :=
  { self with fEnergyDepositDet1 := 0, fEnergyDepositDet2 := 0 }

/-- Source function `EventAction::AddEnergyDeposit`. -/
def EventAction.AddEnergyDeposit (self : EventAction) (energy : ℚ) (detectorID : Int) :
    EventAction :=
  if detectorID = 1 then
    { self with fEnergyDepositDet1 := self.fEnergyDepositDet1 + energy }
  else if detectorID = 2 then
    { self with fEnergyDepositDet2 := self.fEnergyDepositDet2 + energy }
  else self

/-- What `EndOfEventAction` reads and writes outside the `EventAction` object:
the rows committed to the analysis manager's ntuple (column 0, column 1), the
current run returned by the run manager (a null pointer is `none`), the
`RunAction` accumulables and the function's static `eventCounter`. -/
structure Context where
  ntuple : List (ℚ × ℚ)
  currentRun : Option Run
  runAction : RunAction
  eventCounter : Int

/-- Source function `EventAction::EndOfEventAction` (the diagnostic printing is left out). -/
def EventAction.EndOfEventAction (self : EventAction) (ctx : Context) : Context :=
  let det1Hit : Bool := decide (self.fEnergyDepositDet1 ≥ self.fMinimumEnergy)
  let det2Hit : Bool := decide (self.fEnergyDepositDet2 ≥ self.fMinimumEnergy)
  let ntuple :=
    if det1Hit || det2Hit then
      ctx.ntuple ++ [(self.fEnergyDepositDet1 / keV, self.fEnergyDepositDet2 / keV)]
    else ctx.ntuple
  let currentRun :=
    match ctx.currentRun with
    | some run =>
      let run₁ := if det1Hit then run.AddEnergySpectrumDet1 self.fEnergyDepositDet1 else run
      let run₂ := if det2Hit then run₁.AddEnergySpectrumDet2 self.fEnergyDepositDet2 else run₁
      some run₂
    | none => none
  let runAction₁ := ctx.runAction.AddEnergyDepositDet1 self.fEnergyDepositDet1
  let runAction₂ := runAction₁.AddEnergyDepositDet2 self.fEnergyDepositDet2
  { ntuple := ntuple
    currentRun := currentRun
    runAction := runAction₂
    eventCounter := ctx.eventCounter + 1 }

/-! ## PrimaryGeneratorAction (src/src/PrimaryGeneratorAction.cc) -/

/-- Modelled from the spec: the time unit constant `s` (second) of the Geant4
system of units (not part of the sources): one second is 10^9 ns. -/
def s : ℚ := 1000000000 * ns

/-- The enumeration `SourceMode`. -/
inductive SourceMode where
  | CO60_CASCADE
  | SINGLE_GAMMA
  | NUDEX_CAPTURE
  deriving DecidableEq

/-- A `G4ThreeVector`, by its three components. -/
abbrev G4ThreeVector := ℚ × ℚ × ℚ

/-- The settings of the `G4ParticleGun`: particle name, energy, position,
momentum direction and time. -/
structure G4ParticleGun where
  particle : String
  energy : ℚ
  position : G4ThreeVector
  direction : G4ThreeVector
  time : ℚ

/-- A primary vertex added to the event by `G4ParticleGun::GeneratePrimaryVertex`:
a copy of the gun settings at the time of the call. -/
structure PrimaryVertex where
  particle : String
  energy : ℚ
  position : G4ThreeVector
  direction : G4ThreeVector
  time : ℚ

/-- The struct `GammaData`. -/
structure GammaData where
  energy : ℚ
  intensity : ℚ
  time : ℚ
  cascadeIndex : Int
  sequenceOrder : Int

/-- A constructed `NuDEXStatisticalNucleus(Z, A)` object. -/
structure NuDEXStatisticalNucleus where
  Z : Int
  A : Int

/-- Library and operating-system behaviour the generator calls into, none of it
part of the sources: the mathematical functions, the successive values of
`G4UniformRand()` and of `dist(fRandomGenerator)`, whether a file can be opened,
the status returned by `NuDEXStatisticalNucleus::Init` for a nucleus and a
directory, and what `GenerateCascade` returns at its k-th call (count, types,
energies, times). -/
structure Toolkit where
  sqrt : ℚ → ℚ
  cos : ℚ → ℚ
  sin : ℚ → ℚ
  twopi : ℚ
  G4UniformRand : Nat → ℚ
  mtUniform : Nat → ℚ
  fileGood : String → Bool
  nudexInit : Int → Int → String → Int
  nudexGenerateCascade : Int → Int → Nat → Int × List Char × List ℚ × List ℚ

/-- State outside the generator object that `GeneratePrimaries` reads and
writes: the vertices of the event in order, the number of `G4UniformRand()`
draws taken, the lines written to `G4cerr`, the nuclei constructed, the
directories `Init` was invoked with, and the number of `GenerateCascade` calls. -/
structure Session where
  event : List PrimaryVertex
  randomDraws : Nat
  cerr : List String
  nudexConstructed : List (Int × Int)
  nudexInitCalls : List String
  cascadeCalls : Nat

/-- Data members of `PrimaryGeneratorAction` (`fRandomGenerator` is the number
of draws taken from the `std::mt19937`; a null `fNuDEX` is `none`). -/
structure PrimaryGeneratorAction where
  fParticleGun : G4ParticleGun
  fRandomGenerator : Nat
  fGenerateCascades : Bool
  fSourceMode : SourceMode
  fNuDEX : Option NuDEXStatisticalNucleus
  fNuDEX_ZA : Int
  fNuDEXLibDir : String

/-- The constructor `PrimaryGeneratorAction::PrimaryGeneratorAction`, with the
default member initialisers of the header. -/
def PrimaryGeneratorAction.new (generateCascades : Bool) (initialMode : SourceMode) :
    PrimaryGeneratorAction :=
  { fParticleGun :=
      { particle := "gamma", energy := 1 * MeV, position := (0, 0, 0),
        direction := (0, 0, 1), time := 0 }
    fRandomGenerator := 0
    fGenerateCascades := generateCascades
    fSourceMode := initialMode
    fNuDEX := none
    fNuDEX_ZA := -1
    fNuDEXLibDir := "" }

/-- The inline setter `SetNuDEXConfig`. -/
def PrimaryGeneratorAction.SetNuDEXConfig (self : PrimaryGeneratorAction) (za : Int)
    (libdir : String) : PrimaryGeneratorAction :=
  { self with fNuDEX_ZA := za, fNuDEXLibDir := libdir }

/-- Source function `PrimaryGeneratorAction::SetSourceMode`. -/
def PrimaryGeneratorAction.SetSourceMode (self : PrimaryGeneratorAction) (mode : SourceMode) :
    PrimaryGeneratorAction :=
  if self.fSourceMode = mode then self else { self with fSourceMode := mode }

/-- The call `fParticleGun->GeneratePrimaryVertex(anEvent)`. -/
def G4ParticleGun.GeneratePrimaryVertex (gun : G4ParticleGun) (w : Session) : Session :=
  { w with event := w.event ++
      [{ particle := gun.particle, energy := gun.energy, position := gun.position,
         direction := gun.direction, time := gun.time }] }

/-- Source function `PrimaryGeneratorAction::SampleSourcePosition`. -/
def PrimaryGeneratorAction.SampleSourcePosition : G4ThreeVector := (0, 0, 0)

/-- Source function `PrimaryGeneratorAction::SampleDirection`: two uniform draws. -/
def PrimaryGeneratorAction.SampleDirection (env : Toolkit) (w : Session) :
    G4ThreeVector × Session :=
  let cosTheta := 2 * env.G4UniformRand w.randomDraws - 1
  let sinTheta := env.sqrt (1 - cosTheta * cosTheta)
  let phi := env.twopi * env.G4UniformRand (w.randomDraws + 1)
  ((sinTheta * env.cos phi, sinTheta * env.sin phi, cosTheta),
    { w with randomDraws := w.randomDraws + 2 })

/-- Source function `PrimaryGeneratorAction::SampleGamma`: one draw of the
`std::mt19937`. -/
def PrimaryGeneratorAction.SampleGamma (env : Toolkit) (self : PrimaryGeneratorAction) :
    GammaData × PrimaryGeneratorAction :=
  let u := env.mtUniform self.fRandomGenerator
  let energy : ℚ := if u < 0.5 then 1.173 else 1.332
  ({ energy := energy, intensity := 100.0, time := 0.0, cascadeIndex := -1,
     sequenceOrder := 1 },
    { self with fRandomGenerator := self.fRandomGenerator + 1 })

/-- Source function `PrimaryGeneratorAction::GenerateSingleGammaEvent`. -/
def PrimaryGeneratorAction.GenerateSingleGammaEvent (env : Toolkit)
    (self : PrimaryGeneratorAction) (w : Session) : PrimaryGeneratorAction × Session :=
  let (gamma, self₁) := PrimaryGeneratorAction.SampleGamma env self
  let gun₁ := { self₁.fParticleGun with energy := gamma.energy * MeV }
  let sourcePos := PrimaryGeneratorAction.SampleSourcePosition
  let gun₂ := { gun₁ with position := sourcePos }
  let (direction, w₁) := PrimaryGeneratorAction.SampleDirection env w
  let gun₃ := { gun₂ with direction := direction }
  let gun₄ := { gun₃ with time := 0.0 }
  ({ self₁ with fParticleGun := gun₄ }, gun₄.GeneratePrimaryVertex w₁)

/-- Source function `PrimaryGeneratorAction::GenerateCo60Cascade`. -/
def PrimaryGeneratorAction.GenerateCo60Cascade (env : Toolkit)
    (self : PrimaryGeneratorAction) (w : Session) : PrimaryGeneratorAction × Session :=
  let sourcePos := PrimaryGeneratorAction.SampleSourcePosition
  -- First gamma: 1.173 MeV
  let (direction₁, w₁) := PrimaryGeneratorAction.SampleDirection env w
  let gun₁ : G4ParticleGun :=
    { self.fParticleGun with
      energy := 1.173 * MeV, position := sourcePos, direction := direction₁, time := 0.0 }
  let w₂ := gun₁.GeneratePrimaryVertex w₁
  -- Second gamma: 1.332 MeV
  let (direction₂, w₃) := PrimaryGeneratorAction.SampleDirection env w₂
  let gun₂ : G4ParticleGun :=
    { gun₁ with
      energy := 1.332 * MeV, position := sourcePos, direction := direction₂, time := 0.0 }
  ({ self with fParticleGun := gun₂ }, gun₂.GeneratePrimaryVertex w₃)

/-- The directory handed to `Init`: the first candidate under which the file
GeneralStatNuclParameters.dat can be opened, else the configured directory. -/
def PrimaryGeneratorAction.resolveLibDir (env : Toolkit) (fNuDEXLibDir : String) : String :=
  let candidates : List String :=
    [fNuDEXLibDir, "NuDEX/NuDEXlib/", "./NuDEX/NuDEXlib/", "../NuDEX/NuDEXlib/",
      "/Users/namtran/Project/DualHPGe_NuDEX/NuDEX/NuDEXlib/"]
  let resolved : String :=
    match candidates.find? (fun c => env.fileGood (c ++ "GeneralStatNuclParameters.dat")) with
    | some c => c
    | none => ""
  if resolved = "" then fNuDEXLibDir else resolved

/-- One iteration of the emission loop of `GenerateNuDEXCascade`, for index `i`.
Reading a vector past its end is undefined in the source; the embedding reads a
blank type and zeros there. -/
def PrimaryGeneratorAction.cascadeStep (env : Toolkit) (sourcePos : G4ThreeVector)
    (types : List Char) (energies times : List ℚ)
    (st : G4ParticleGun × Session) (i : Nat) : G4ParticleGun × Session :=
  let t := types.getD i ' '
  let E := energies.getD i 0
  let T := times.getD i 0
  if t = 'g' then
    let (direction, w₁) := PrimaryGeneratorAction.SampleDirection env st.2
    let gun : G4ParticleGun :=
      { particle := "gamma", energy := E * MeV, position := sourcePos,
        direction := direction, time := T * s }
    (gun, gun.GeneratePrimaryVertex w₁)
  else if t = 'e' then
    let (direction, w₁) := PrimaryGeneratorAction.SampleDirection env st.2
    let gun : G4ParticleGun :=
      { particle := "e-", energy := E * MeV, position := sourcePos,
        direction := direction, time := T * s }
    (gun, gun.GeneratePrimaryVertex w₁)
  else st

/-- The second part of `GenerateNuDEXCascade`, run with a non-null `fNuDEX`:
the call to `GenerateCascade` and the emission loop. -/
def PrimaryGeneratorAction.emitCascade (env : Toolkit) (self : PrimaryGeneratorAction)
    (nucleus : NuDEXStatisticalNucleus) (w : Session) : PrimaryGeneratorAction × Session :=
  let (npar, types, energies, times) :=
    env.nudexGenerateCascade nucleus.Z nucleus.A w.cascadeCalls
  let w₁ := { w with cascadeCalls := w.cascadeCalls + 1 }
  if npar ≤ 0 then (self, w₁)
  else
    let sourcePos := PrimaryGeneratorAction.SampleSourcePosition
    let (gun, w₂) :=
      (List.range npar.toNat).foldl
        (PrimaryGeneratorAction.cascadeStep env sourcePos types energies times)
        (self.fParticleGun, w₁)
    ({ self with fParticleGun := gun }, w₂)

/-- Source function `PrimaryGeneratorAction::GenerateNuDEXCascade`. -/
def PrimaryGeneratorAction.GenerateNuDEXCascade (env : Toolkit)
    (self : PrimaryGeneratorAction) (w : Session) : PrimaryGeneratorAction × Session :=
  match self.fNuDEX with
  | some nucleus => PrimaryGeneratorAction.emitCascade env self nucleus w
  | none =>
    if self.fNuDEX_ZA ≤ 0 ∨ self.fNuDEXLibDir = "" then
      (self, { w with cerr := w.cerr ++ ["ERROR: NuDEX configuration missing (ZA/libdir)."] })
    else
      let Z := Int.tdiv self.fNuDEX_ZA 1000
      let A := Int.tmod self.fNuDEX_ZA 1000
      let nucleus : NuDEXStatisticalNucleus := { Z := Z, A := A }
      let w₁ := { w with nudexConstructed := w.nudexConstructed ++ [(Z, A)] }
      let resolved := PrimaryGeneratorAction.resolveLibDir env self.fNuDEXLibDir
      let w₂ := { w₁ with nudexInitCalls := w₁.nudexInitCalls ++ [resolved] }
      if env.nudexInit Z A resolved < 0 then
        ({ self with fNuDEX := none },
          { w₂ with cerr := w₂.cerr ++ ["ERROR: NuDEX initialization failed"] })
      else
        PrimaryGeneratorAction.emitCascade env { self with fNuDEX := some nucleus } nucleus w₂

/-- Source function `PrimaryGeneratorAction::GeneratePrimaries`. -/
def PrimaryGeneratorAction.GeneratePrimaries (env : Toolkit)
    (self : PrimaryGeneratorAction) (w : Session) : PrimaryGeneratorAction × Session :=
  match self.fSourceMode with
  | SourceMode.CO60_CASCADE => PrimaryGeneratorAction.GenerateCo60Cascade env self w
  | SourceMode.SINGLE_GAMMA => PrimaryGeneratorAction.GenerateSingleGammaEvent env self w
  | SourceMode.NUDEX_CAPTURE => PrimaryGeneratorAction.GenerateNuDEXCascade env self w

/-- A run of `n` events: each call of `GeneratePrimaries` receives a new, empty
event; the vertex lists of the events are returned in order. -/
def PrimaryGeneratorAction.generateEvents (env : Toolkit) :
    Nat → PrimaryGeneratorAction → Session →
      PrimaryGeneratorAction × Session × List (List PrimaryVertex)
  | 0, self, w => (self, w, [])
  | n + 1, self, w =>
    let (self₁, w₁) := PrimaryGeneratorAction.GeneratePrimaries env self { w with event := [] }
    let (self₂, w₂, events) := PrimaryGeneratorAction.generateEvents env n self₁ w₁
    (self₂, w₂, w₁.event :: events)

/-! ## main (src/HPGeDual.cc) -/

/-- C and C++ library behaviour used by the option loop of `main`, none of it
part of the sources: `strtol s` is the `long` value returned when `strtol`
consumes the whole of `s` (the end pointer is at the terminator) and `none`
otherwise; `readInt` and `readDouble` are the stream extractions `ss >> nThreads`
and `ss >> detector2Angle`, `none` when the extraction fails; and the value of
`std::thread::hardware_concurrency()`. -/
structure CRuntime where
  strtol : String → Option Int
  readInt : String → Option Int
  readDouble : String → Option ℚ
  hardware_concurrency : Nat

/-- The local variables of `main` set by the option loop. -/
structure Options where
  quietMode : Bool
  cascadeMode : Bool
  sourceMode : SourceMode
  detector2Angle : ℚ
  macroFile : String
  nudexZA : Int
  nudexLibDir : String
  nThreads : Int

/-- The initial values of the local variables of `main`. -/
def Options.initial : Options :=
  { quietMode := false
    cascadeMode := true
    sourceMode := SourceMode.CO60_CASCADE
    detector2Angle := 180.0
    macroFile := ""
    nudexZA := 17035
    nudexLibDir := "../NuDEX/NuDEXlib/"
    nThreads := 1 }

/-- The value an `int` (32 bits, two's complement) holds for the integer `v`: the
representative of `v` modulo 2^32 in [-2^31, 2^31).  It is the conversion
`static_cast<int>(v)` of a `long`, and the result the compiled program leaves in
an `int` after `int` arithmetic whose exact result is `v` (signed overflow is
undefined in C++; the program wraps). -/
def toInt32 (v : Int) : Int := (v + 2147483648) % 4294967296 - 2147483648

/-- The lambda `parseInt` of `main`: the value stored in `out`, or `none` for
`false`. -/
def parseInt (lib : CRuntime) (str : String) : Option Int :=
  if str = "" then none else (lib.strtol str).map toInt32

/-- The value `-threads` stores in `nThreads` for the argument `threadArg`. -/
def threadsValue (lib : CRuntime) (threadArg : String) : Int :=
  if threadArg = "auto" ∨ threadArg = "0" then
    (lib.hardware_concurrency : Int)
  else
    match lib.readInt threadArg with
    | some v => if v < 1 then 1 else v
    | none => 1

/-- One iteration of the option loop of `main`, for `argv[i] = arg` followed by the
arguments `rest` (`i + 1 < argc` holds when `rest` is non-empty, `i + 2 < argc`
when it has two entries).  The result is `Except.error code` when `main` returns
`code`, and otherwise the number of following arguments consumed (the amount
added to `i` in the body) with the updated variables. -/
def optionStep (lib : CRuntime) (arg : String) (rest : List String) (o : Options) :
    Except Int (Nat × Options) :=
  if arg = "-h" ∨ arg = "--help" then
    Except.error 0
  else if arg = "-quiet" ∨ arg = "-q" then
    Except.ok (0, { o with quietMode := true })
  else if arg = "-coin" then
    Except.ok (0, { o with cascadeMode := true, sourceMode := SourceMode.CO60_CASCADE })
  else if arg = "-single" then
    Except.ok (0, { o with cascadeMode := false, sourceMode := SourceMode.SINGLE_GAMMA })
  else if arg = "-nudex-libdir" then
    match rest with
    | path :: _ => Except.ok (1, { o with nudexLibDir := path })
    | [] => Except.error 1
  else if arg = "-nudex" then
    let o₁ := { o with sourceMode := SourceMode.NUDEX_CAPTURE }
    match rest with
    | a₁ :: a₂ :: _ =>
      -- i + 2 < argc
      match parseInt lib a₁, parseInt lib a₂ with
      | some z, some a =>
        if z > 0 ∧ a > 0 then
          Except.ok (2, { o₁ with nudexZA := toInt32 (toInt32 (z * 1000) + a) })
        else if z > 0 then Except.ok (1, { o₁ with nudexZA := z })
        else Except.ok (0, o₁)
      | some tmpZA, none =>
        if tmpZA > 0 then Except.ok (1, { o₁ with nudexZA := tmpZA })
        else Except.ok (0, o₁)
      | none, _ => Except.ok (0, o₁)
    | [a₁] =>
      -- i + 1 < argc only
      match parseInt lib a₁ with
      | some tmpZA =>
        if tmpZA > 0 then Except.ok (1, { o₁ with nudexZA := tmpZA })
        else Except.ok (0, o₁)
      | none => Except.ok (0, o₁)
    | [] => Except.ok (0, o₁)
  else if arg = "-angle" then
    match rest with
    | value :: _ =>
      match lib.readDouble value with
      | some angle => Except.ok (1, { o with detector2Angle := angle })
      | none => Except.ok (1, { o with detector2Angle := 180.0 })
    | [] => Except.ok (0, o)
  else if arg = "-threads" then
    match rest with
    | threadArg :: _ => Except.ok (1, { o with nThreads := threadsValue lib threadArg })
    | [] => Except.ok (0, o)
  else if ".mac".toList <:+: arg.toList then
    Except.ok (0, { o with macroFile := arg })
  else if o.macroFile = "" then
    Except.ok (0, { o with macroFile := arg })
  else
    Except.ok (0, o)

/-- The option loop of `main` over the arguments not yet read.  The result is
`Except.error code` when `main` returns `code` from inside the loop and
`Except.ok` of the variables when the loop ends. -/
def parseArgs (lib : CRuntime) : List String → Options → Except Int Options
  | [], o => Except.ok o
  | arg :: rest, o =>
    match optionStep lib arg rest o with
    | Except.error code => Except.error code
    | Except.ok (consumed, o₁) => parseArgs lib (rest.drop consumed) o₁
termination_by args => args.length
decreasing_by
  simp_wf
  omega

/-- The run manager created by `main`: `G4MTRunManager` with its number of
threads, or the single-threaded `G4RunManager`. -/
inductive RunManager where
  | G4MTRunManager (numberOfThreads : Int)
  | G4RunManager
  deriving DecidableEq

/-- Number of workers of a run manager. -/
def RunManager.workers : RunManager → Int
  | RunManager.G4MTRunManager n => n
  | RunManager.G4RunManager => 1

/-- What `main` has set up when the run manager has been created. -/
structure Setup where
  options : Options
  runManager : RunManager

/-- The function `main` from its start to the creation of the run manager:
`Except.error code` when it returns `code` during option processing. -/
def main (lib : CRuntime) (argv : List String) : Except Int Setup :=
  match parseArgs lib argv.tail Options.initial with
  | Except.error code => Except.error code
  | Except.ok o =>
    -- NuDEX currently runs safest in single-threaded mode
    let nThreads : Int :=
      if o.sourceMode = SourceMode.NUDEX_CAPTURE ∧ o.nThreads > 1 then 1 else o.nThreads
    let runManager :=
      if nThreads > 1 then RunManager.G4MTRunManager nThreads else RunManager.G4RunManager
    Except.ok { options := { o with nThreads := nThreads }, runManager := runManager }

/-- Source function `PrintUsage`: what it writes to `G4cout`, one entry for each
statement ended by `G4endl`. -/
def PrintUsage : List String :=
  ["\nUsage: ",
    "  ./DualHPGe_NuDEX [options] [macro_file]",
    "\nOptions:",
    "  -angle <degrees>    : Angle for second detector (default: 180.0)",
    "  -coin               : Generate Co-60 coincidences (2 gammas per event)",
    "  -single             : Generate single gammas (1 gamma per event)",
    "  -nudex [Z A|ZA]     : NuDEX thermal capture cascades",
    "                        Z,A integers (e.g., 24 53 for Cr-53) or ZA=1000*Z+A",
    "                        Default if omitted: 17 35 (Cl-35)",
    "  -nudex-libdir <path>: Override NuDEX library directory (default: ../NuDEX/NuDEXlib/)",
    "  -threads <N>        : Number of threads for parallel execution (default: 1)",
    "                        Use \'auto\' or 0 to use all available CPU cores",
    "  -quiet              : Suppress all non-essential output",
    "  -h, --help          : Show this help message",
    "\nArguments:",
    "  macro_file          : Optional Geant4 macro file (.mac extension)",
    "\nExamples:",
    "  ./DualHPGe_NuDEX -quiet                    # Silent mode with Co-60 test data",
    "  ./DualHPGe_NuDEX -angle 45 -quiet          # Silent mode, 45° detector angle",
    "  ./DualHPGe_NuDEX -coin -quiet              # Silent mode with Co-60 coincidences",
    "  ./DualHPGe_NuDEX -single -quiet            # Silent mode with single gammas",
    "\n"]

/-- What one iteration of the option loop of `main` writes to `G4cout`, one entry
for each statement ended by `G4endl`; the arguments are those of `optionStep`. -/
def optionStepCout (lib : CRuntime) (arg : String) (rest : List String) (o : Options) :
    List String :=
  if arg = "-h" ∨ arg = "--help" then
    PrintUsage
  else if arg = "-quiet" ∨ arg = "-q" then
    []
  else if arg = "-coin" then
    []
  else if arg = "-single" then
    []
  else if arg = "-nudex-libdir" then
    match rest with
    | _ :: _ => []
    | [] =>
      if ¬ o.quietMode then ["Error: -nudex-libdir requires a path argument"] else []
  else if arg = "-nudex" then
    []
  else if arg = "-angle" then
    match rest with
    | value :: _ =>
      match lib.readDouble value with
      | some _ => []
      | none =>
        if ¬ o.quietMode then ["Error: Invalid angle value \'" ++ value ++ "\'"] else []
    | [] => []
  else if arg = "-threads" then
    match rest with
    | threadArg :: _ =>
      if threadArg = "auto" ∨ threadArg = "0" then
        []
      else
        match lib.readInt threadArg with
        | some v =>
          if v < 1 then
            if ¬ o.quietMode then ["Error: Invalid threads value \'" ++ threadArg ++ "\'"]
            else []
          else []
        | none =>
          if ¬ o.quietMode then ["Error: Invalid threads value \'" ++ threadArg ++ "\'"]
          else []
    | [] => []
  else if ".mac".toList <:+: arg.toList then
    []
  else if o.macroFile = "" then
    []
  else
    if ¬ o.quietMode then ["Warning: Ignoring unrecognized argument: " ++ arg] else []

/-- What the option loop of `main` writes to `G4cout` over the arguments not yet
read, up to the end of the loop or to the `return` that leaves it. -/
def parseArgsCout (lib : CRuntime) : List String → Options → List String
  | [], _ => []
  | arg :: rest, o =>
    optionStepCout lib arg rest o ++
      match optionStep lib arg rest o with
      | Except.error _ => []
      | Except.ok (consumed, o₁) => parseArgsCout lib (rest.drop consumed) o₁
termination_by args => args.length
decreasing_by
  simp_wf
  omega

/-- What `main` has written to `G4cout` when the option loop is left, by its end
or by a `return` inside it; nothing is written before the loop. -/
def mainCout (lib : CRuntime) (argv : List String) : List String :=
  parseArgsCout lib argv.tail Options.initial

/-! ## Definitions used to state the claims -/

/-- Lookup in a merged map, from the lookups in the two maps. -/
def Entries.combine (a b : Option Int) : Option Int :=
  match b with
  | none => a
  | some v => some (a.getD 0 + v)

/-- Detector 1's part of the Run state: histogram, running sum, event counter. -/
def Run.det1 (r : Run) : EnergyHistogram × ℚ × Int :=
  (r.fEnergyHistogramDet1, r.fTotalEnergyDepositDet1, r.fTotalEventsDet1)

/-- Detector 2's part of the Run state: histogram, running sum, event counter. -/
def Run.det2 (r : Run) : EnergyHistogram × ℚ × Int :=
  (r.fEnergyHistogramDet2, r.fTotalEnergyDepositDet2, r.fTotalEventsDet2)

/-- Ten event totals of one detector with sum 100 and sum of squares 1050. -/
def tenTotals : List ℚ := [15, 5, 10, 10, 10, 10, 10, 10, 10, 10]

/-- A sequence of `AddEnergyDeposit(amount, detectorID)` calls, in order. -/
def EventAction.deposits (s : EventAction) (calls : List (ℚ × Int)) : EventAction :=
  calls.foldl (fun acc c => acc.AddEnergyDeposit c.1 c.2) s

/-- Sum of the amounts of the calls that name detector `id`. -/
def amountFor (id : Int) (calls : List (ℚ × Int)) : ℚ :=
  ((calls.filter (fun c => decide (c.2 = id))).map Prod.fst).sum

/-- The empty session: no vertex, no draw, no diagnostic, no library call yet. -/
def Session.start : Session :=
  { event := [], randomDraws := 0, cerr := [], nudexConstructed := [],
    nudexInitCalls := [], cascadeCalls := 0 }

/-- A concrete toolkit used to instantiate the statements: constant draws, no
file can be opened, `Init` succeeds exactly for Cl-35, and every cascade is one
gamma, one entry of unknown type and one electron. -/
def Toolkit.sample : Toolkit :=
  { sqrt := fun x => x
    cos := fun _ => 1
    sin := fun _ => 0
    twopi := 6.283185307179586
    G4UniformRand := fun _ => 1 / 2
    mtUniform := fun _ => 1 / 4
    fileGood := fun _ => false
    nudexInit := fun Z A _ => if Z = 17 ∧ A = 35 then 0 else -1
    nudexGenerateCascade := fun _ _ _ => (3, ['g', 'x', 'e'], [6.1, 2.0, 0.5], [0, 1, 2]) }

/-- The particle, energy, position and time of a vertex (everything but the
sampled direction). -/
def PrimaryVertex.core (v : PrimaryVertex) : String × ℚ × G4ThreeVector × ℚ :=
  (v.particle, v.energy, v.position, v.time)

/-- The vertex data expected for a cascade entry (type, energy, time): a gamma
for type g, an electron for type e, nothing for any other type; the energy is
E MeV, the time T seconds, the position the source position. -/
def cascadeVertex (entry : Char × ℚ × ℚ) : Option (String × ℚ × G4ThreeVector × ℚ) :=
  if entry.1 = 'g' then some ("gamma", entry.2.1 * MeV, (0, 0, 0), entry.2.2 * s)
  else if entry.1 = 'e' then some ("e-", entry.2.1 * MeV, (0, 0, 0), entry.2.2 * s)
  else none

/-- The first `npar` entries of the three returned sequences, as triples. -/
def cascadeEntries (npar : Int) (types : List Char) (energies times : List ℚ) :
    List (Char × ℚ × ℚ) :=
  (types.zip (energies.zip times)).take npar.toNat

/-- Value of a string of decimal digits read from the left, `none` if a
character is not a digit. -/
def digitsValue : List Char → Int → Option Int
  | [], acc => some acc
  | c :: cs, acc =>
    if c.isDigit then digitsValue cs (acc * 10 + ((c.toNat : Int) - 48)) else none

/-- Value of a non-empty string of decimal digits. -/
def decimalValue (str : String) : Option Int :=
  match str.toList with
  | [] => none
  | cs => digitsValue cs 0

/-- A concrete runtime used to instantiate the statements: numbers are
non-empty strings of decimal digits, and the machine has 4 hardware threads. -/
def CRuntime.sample : CRuntime :=
  { strtol := decimalValue
    readInt := decimalValue
    readDouble := fun str => (decimalValue str).map (fun v => (v : ℚ))
    hardware_concurrency := 4 }

/-- A concrete square-root stand-in with non-negative values: the integer
square root of the integer part. -/
def floorSqrt (x : ℚ) : ℚ := (Nat.sqrt ⌊x⌋.toNat : ℚ)

/-- The body of `SampleDirection` for the two draws `u₁` and `u₂`, over any field
given with its square root, cosine and sine. -/
def PrimaryGeneratorAction.directionFrom {α : Type} [Field α] (sqrt cos sin : α → α)
    (twopi : α) (u₁ u₂ : α) : α × α × α :=
  let cosTheta := 2 * u₁ - 1
  let sinTheta := sqrt (1 - cosTheta * cosTheta)
  let phi := twopi * u₂
  (sinTheta * cos phi, sinTheta * sin phi, cosTheta)

/-- The integer an argument denotes when it is present and parses fully as an
integer. -/
def integerArg (lib : CRuntime) : Option String → Option Int
  | none => none
  | some str => if str = "" then none else lib.strtol str

/-- The value of an argument when it is present, parses fully as an integer and
is greater than 0. -/
def positiveArg (lib : CRuntime) (arg : Option String) : Option Int :=
  match integerArg lib arg with
  | some v => if v > 0 then some v else none
  | none => none

/-- The `-nudex` rule in the words of the specification: the mode becomes
NUDEX_CAPTURE; if the next two arguments are both positive integers z and a, the
nuclide is ZA = 1000 z + a and two arguments are consumed; otherwise, if the next
argument is a positive integer, it is the combined ZA and one argument is
consumed; otherwise nothing is consumed and ZA keeps its value. -/
def nudexRule (lib : CRuntime) (rest : List String) (o : Options) : Nat × Options :=
  match positiveArg lib rest.head?, positiveArg lib rest.tail.head? with
  | some z, some a =>
    (2, { o with sourceMode := SourceMode.NUDEX_CAPTURE, nudexZA := 1000 * z + a })
  | some za, none => (1, { o with sourceMode := SourceMode.NUDEX_CAPTURE, nudexZA := za })
  | none, _ => (0, { o with sourceMode := SourceMode.NUDEX_CAPTURE })

/-- The value of an argument as an `int` when the argument is present, parses
fully as an integer and its value as an `int` is greater than 0. -/
def positiveIntArg (lib : CRuntime) : Option String → Option Int
  | none => none
  | some str =>
    match parseInt lib str with
    | some v => if v > 0 then some v else none
    | none => none

/-- The `-nudex` rule with every number held in an `int`: the mode becomes
NUDEX_CAPTURE; if the next two arguments both parse fully and their `int` values
z and a are positive, the nuclide is the `int` value of 1000 z + a and two
arguments are consumed; otherwise, if the next argument parses fully and its
`int` value is positive, that value is the combined ZA and one argument is
consumed; otherwise nothing is consumed and ZA keeps its value. -/
def nudexRuleInt (lib : CRuntime) (rest : List String) (o : Options) : Nat × Options :=
  match positiveIntArg lib rest.head?, positiveIntArg lib rest.tail.head? with
  | some z, some a =>
    (2, { o with sourceMode := SourceMode.NUDEX_CAPTURE, nudexZA := toInt32 (1000 * z + a) })
  | some za, none => (1, { o with sourceMode := SourceMode.NUDEX_CAPTURE, nudexZA := za })
  | none, _ => (0, { o with sourceMode := SourceMode.NUDEX_CAPTURE })

/-- The ordered list of directories tried for the library directory `d`. -/
def libDirCandidates (d : String) : List String :=
  [d, "NuDEX/NuDEXlib/", "./NuDEX/NuDEXlib/", "../NuDEX/NuDEXlib/",
    "/Users/namtran/Project/DualHPGe_NuDEX/NuDEX/NuDEXlib/"]

/-- The local variable `energy_keV` of `Run::EnergyToBin`: the energy in keV as
the program computes it. -/
def Run.energy_keV (energy : ℚ) : ℚ := G4double.div energy keV

/-- Whether an energy lies in the histogram range: its keV value, as
`Run::EnergyToBin` computes it, is in [0, 10000). -/
def Run.energyInRange (e : ℚ) : Bool :=
  decide (0 ≤ Run.energy_keV e) && decide (Run.energy_keV e < 10000)

/-- The runs reachable from a freshly constructed `Run` by `AddEnergySpectrumDet1`,
`AddEnergySpectrumDet2` and `Merge` with another reachable run, each with the
energies recorded for detector 1 and for detector 2, in this run or in any run
merged into it. -/
inductive Run.Reachable : Run → List ℚ → List ℚ → Prop where
  | fresh : Run.Reachable Run.new [] []
  | addDet1 (r : Run) (es₁ es₂ : List ℚ) (e : ℚ) :
      Run.Reachable r es₁ es₂ → Run.Reachable (r.AddEnergySpectrumDet1 e) (es₁ ++ [e]) es₂
  | addDet2 (r : Run) (es₁ es₂ : List ℚ) (e : ℚ) :
      Run.Reachable r es₁ es₂ → Run.Reachable (r.AddEnergySpectrumDet2 e) es₁ (es₂ ++ [e])
  | merge (r r' : Run) (es₁ es₂ es₁' es₂' : List ℚ) :
      Run.Reachable r es₁ es₂ → Run.Reachable r' es₁' es₂' →
      Run.Reachable (Run.Merge r r') (es₁ ++ es₁') (es₂ ++ es₂')

/-- Every key lies in [0, 10000) and every stored count is positive. -/
def Entries.InRange (l : Entries) : Prop :=
  ∀ x ∈ l, 0 ≤ x.1 ∧ x.1 < 10000 ∧ 0 < x.2

/-- Sum of all stored counts. -/
def Entries.total (l : Entries) : Int := (l.map Prod.snd).sum

/-- Sum of all bin counts of a histogram. -/
def EnergyHistogram.total (h : EnergyHistogram) : Int := Entries.total h.bins

/-- One event of a worker: `BeginOfEventAction`, the `AddEnergyDeposit` calls of
the event in order, then `EndOfEventAction`. -/
def EventAction.processEvent (ea : EventAction) (ctx : Context) (calls : List (ℚ × Int)) :
    EventAction × Context :=
  let ea₁ := ea.BeginOfEventAction.deposits calls
  (ea₁, ea₁.EndOfEventAction ctx)

/-- A sequence of events processed by one worker, each given by its deposit calls. -/
def EventAction.processEvents (ea : EventAction) (ctx : Context)
    (events : List (List (ℚ × Int))) : EventAction × Context :=
  events.foldl (fun st calls => EventAction.processEvent st.1 st.2 calls) (ea, ctx)

/-- Number of events whose total for detector `id` satisfies `p`. -/
def countEvents (id : Int) (p : ℚ → Bool) (events : List (List (ℚ × Int))) : Int :=
  ((events.filter (fun calls => p (amountFor id calls))).length : Int)

/-! ## Auxiliary facts -/

theorem Entries.find_eq_none_of_lt (k : Int) (l : Entries)
    (h : ∀ a ∈ l, k < a.1) : Entries.find k l = none := by
  induction l with
  | nil => rfl
  | cons hd t ih =>
    obtain ⟨k', v'⟩ := hd
    have hk : k < k' := h (k', v') (List.mem_cons_self _ _)
    simp only [Entries.find, if_neg (ne_of_lt hk)]
    exact ih (fun a ha => h a (List.mem_cons_of_mem _ ha))

/-- Reading a bin after `m[k] += v`. -/
theorem Entries.find_addAt (k v b : Int) (l : Entries) (hl : l.Ascending) :
    Entries.find b (Entries.addAt k v l) =
      if b = k then some ((Entries.find k l).getD 0 + v) else Entries.find b l := by
  induction l with
  | nil =>
    by_cases hb : b = k
    · simp [Entries.addAt, Entries.find, hb]
    · simp [Entries.addAt, Entries.find, hb]
  | cons hd t ih =>
    obtain ⟨k', v'⟩ := hd
    unfold Entries.Ascending at hl ih
    rw [List.pairwise_cons] at hl
    obtain ⟨hhd, htl⟩ := hl
    by_cases h1 : k < k'
    · have hnone : Entries.find k t = none :=
        Entries.find_eq_none_of_lt k t (fun a ha => lt_trans h1 (hhd a ha))
      by_cases hb : b = k
      · simp [Entries.addAt, Entries.find, hb, h1, ne_of_lt h1, hnone]
      · simp [Entries.addAt, Entries.find, hb, h1]
    · by_cases h2 : k = k'
      · by_cases hb : b = k
        · simp [Entries.addAt, Entries.find, hb, h2]
        · have hb' : ¬ b = k' := fun e => hb (e.trans h2.symm)
          simp [Entries.addAt, Entries.find, hb, h2, hb']
      · simp only [Entries.addAt, if_neg h1, if_neg h2, Entries.find]
        by_cases hb : b = k
        · subst hb
          rw [if_neg h2, ih htl, if_pos rfl, if_pos rfl]
        · rw [ih htl, if_neg hb, if_neg hb]

/-- Reading a bin after the merge loop, the source map having distinct keys. -/
theorem Entries.find_mergeFrom (b : Int) (self other : Entries)
    (hs : self.Ascending) (ho : other.Ascending) :
    Entries.find b (Entries.mergeFrom self other) =
      match Entries.find b other with
      | none => Entries.find b self
      | some v => some ((Entries.find b self).getD 0 + v) := by
  unfold Entries.mergeFrom
  induction other generalizing self with
  | nil => rfl
  | cons hd t ih =>
    obtain ⟨k', v'⟩ := hd
    unfold Entries.Ascending at ho
    rw [List.pairwise_cons] at ho
    obtain ⟨hhd, htl⟩ := ho
    rw [List.foldl_cons, ih _ (Entries.ascending_addAt _ _ _ hs) htl]
    by_cases hb : b = k'
    · have hnone : Entries.find b t = none :=
        Entries.find_eq_none_of_lt b t (fun a ha => hb ▸ hhd a ha)
      simp only [Entries.find, if_pos hb, hnone]
      rw [Entries.find_addAt _ _ _ _ hs, if_pos hb, hb]
    · simp only [Entries.find, if_neg hb]
      cases hft : Entries.find b t with
      | none => simp only []; rw [Entries.find_addAt _ _ _ _ hs, if_neg hb]
      | some w => simp only []; rw [Entries.find_addAt _ _ _ _ hs, if_neg hb]

/-- Two key-ordered maps with the same lookups are the same list. -/
theorem Entries.ext_find (l₁ l₂ : Entries) (h₁ : l₁.Ascending) (h₂ : l₂.Ascending)
    (h : ∀ b, Entries.find b l₁ = Entries.find b l₂) : l₁ = l₂ := by
  induction l₁ generalizing l₂ with
  | nil =>
    cases l₂ with
    | nil => rfl
    | cons hd t =>
      have := h hd.1
      simp [Entries.find] at this
  | cons hd₁ t₁ ih =>
    obtain ⟨k₁, v₁⟩ := hd₁
    cases l₂ with
    | nil =>
      have := h k₁
      simp [Entries.find] at this
    | cons hd₂ t₂ =>
      obtain ⟨k₂, v₂⟩ := hd₂
      unfold Entries.Ascending at h₁ h₂
      rw [List.pairwise_cons] at h₁ h₂
      obtain ⟨hh₁, ht₁⟩ := h₁
      obtain ⟨hh₂, ht₂⟩ := h₂
      have n₁ : ∀ k, k ≤ k₁ → Entries.find k t₁ = none := fun k hk =>
        Entries.find_eq_none_of_lt k t₁ (fun a ha => lt_of_le_of_lt hk (hh₁ a ha))
      have n₂ : ∀ k, k ≤ k₂ → Entries.find k t₂ = none := fun k hk =>
        Entries.find_eq_none_of_lt k t₂ (fun a ha => lt_of_le_of_lt hk (hh₂ a ha))
      have hk : k₁ = k₂ := by
        rcases lt_trichotomy k₁ k₂ with hlt | heq | hgt
        · have := h k₁
          simp [Entries.find, ne_of_lt hlt, n₂ k₁ (le_of_lt hlt)] at this
        · exact heq
        · have := h k₂
          simp [Entries.find, ne_of_lt hgt, n₁ k₂ (le_of_lt hgt)] at this
      subst hk
      have hv : v₁ = v₂ := by
        have := h k₁
        simpa [Entries.find] using this
      subst hv
      have ht : t₁ = t₂ := by
        apply ih t₂ ht₁ ht₂
        intro b
        by_cases hb : b = k₁
        · rw [hb, n₁ k₁ le_rfl, n₂ k₁ le_rfl]
        · have := h b
          simpa [Entries.find, hb] using this
      rw [ht]

theorem castToInt_of_nonneg (x : ℚ) (hx : 0 ≤ x) : castToInt x = ⌊x⌋ := by
  unfold castToInt
  rw [Int.tdiv_eq_ediv (Rat.num_nonneg.2 hx) (Int.ofNat_nonneg _)]
  exact (Rat.floor_def' x).symm

theorem keV_eq : keV = 1 / 1000 := by
  norm_num [keV, MeV]

theorem roundHalfEven_intCast (n : Int) : roundHalfEven (n : ℚ) = n := by
  unfold roundHalfEven
  rw [Int.floor_intCast, sub_self, if_pos (by norm_num)]

theorem roundHalfEven_mono {a b : ℚ} (h : a ≤ b) : roundHalfEven a ≤ roundHalfEven b := by
  have hf : ⌊a⌋ ≤ ⌊b⌋ := Int.floor_mono h
  have ha1 := Int.floor_le a
  have hb2 := Int.lt_floor_add_one b
  unfold roundHalfEven
  split_ifs with h1 h2 h3 h4 h5 h6 h7 h8 h9 <;>
  first
  | omega
  | (have hlt : (⌊a⌋ : ℚ) < ⌊b⌋ := by linarith
     have hlt' : ⌊a⌋ < ⌊b⌋ := by exact_mod_cast hlt
     omega)

theorem roundHalfEven_eq_of_near (y : ℚ) (m : Int) (h1 : (m : ℚ) - 1 / 2 < y)
    (h2 : y < (m : ℚ) + 1 / 2) : roundHalfEven y = m := by
  unfold roundHalfEven
  by_cases hm : (m : ℚ) ≤ y
  · have hfl : ⌊y⌋ = m := by
      rw [Int.floor_eq_iff]
      exact ⟨hm, by linarith⟩
    rw [hfl, if_pos (by linarith)]
  · have hfl : ⌊y⌋ = m - 1 := by
      rw [Int.floor_eq_iff]
      push_cast
      exact ⟨by linarith, by linarith⟩
    rw [hfl]
    push_cast
    rw [if_neg (by linarith), if_pos (by linarith)]
    ring

theorem G4double.scaled_bounds (x : ℚ) (hx : 0 < x) :
    (2 : ℚ) ^ (52 : ℕ) ≤ x / 2 ^ (Int.log 2 x - 52) ∧
    x / 2 ^ (Int.log 2 x - 52) < (2 : ℚ) ^ (53 : ℕ) := by
  have h2 : (0 : ℚ) < 2 := by norm_num
  have hpos : (0 : ℚ) < 2 ^ (Int.log 2 x - 52) := zpow_pos h2 _
  have hlo : ((2 : ℕ) : ℚ) ^ Int.log 2 x ≤ x := Int.zpow_log_le_self (by norm_num) hx
  have hhi : x < ((2 : ℕ) : ℚ) ^ (Int.log 2 x + 1) := Int.lt_zpow_succ_log_self (by norm_num) x
  push_cast at hlo hhi
  constructor
  · rw [le_div_iff₀ hpos]
    have : (2 : ℚ) ^ (52 : ℕ) * 2 ^ (Int.log 2 x - 52) = 2 ^ Int.log 2 x := by
      rw [← zpow_natCast, ← zpow_add₀ (by norm_num : (2 : ℚ) ≠ 0)]
      congr 1
      push_cast
      ring
    rw [this]
    exact hlo
  · rw [div_lt_iff₀ hpos]
    have : (2 : ℚ) ^ (53 : ℕ) * 2 ^ (Int.log 2 x - 52) = 2 ^ (Int.log 2 x + 1) := by
      rw [← zpow_natCast, ← zpow_add₀ (by norm_num : (2 : ℚ) ≠ 0)]
      congr 1
      push_cast
      ring
    rw [this]
    exact hhi


theorem G4double.zpow_split (j : ℤ) (n : ℕ) :
    ((2 : ℚ) ^ n) * 2 ^ (j - 52) = 2 ^ (j + ((n : ℤ) - 52)) := by
  rw [← zpow_natCast, ← zpow_add₀ (by norm_num : (2 : ℚ) ≠ 0)]
  congr 1
  ring

/-- The rounded value of a positive `x` lies in the binade of `x`, closed above. -/
theorem G4double.nearestPos_bounds (x : ℚ) (hx : 0 < x) :
    (2 : ℚ) ^ Int.log 2 x ≤ G4double.nearestPos x ∧
    G4double.nearestPos x ≤ (2 : ℚ) ^ (Int.log 2 x + 1) := by
  obtain ⟨hlo, hhi⟩ := G4double.scaled_bounds x hx
  have hpos : (0 : ℚ) < 2 ^ (Int.log 2 x - 52) := zpow_pos (by norm_num) _
  have h1 : ((2 ^ 52 : Int) : ℚ) ≤ x / 2 ^ (Int.log 2 x - 52) := by
    push_cast; exact hlo
  have h2 : x / 2 ^ (Int.log 2 x - 52) ≤ ((2 ^ 53 : Int) : ℚ) := by
    push_cast; exact le_of_lt hhi
  have r1 := roundHalfEven_mono h1
  have r2 := roundHalfEven_mono h2
  rw [roundHalfEven_intCast] at r1 r2
  have q1 : ((2 : ℚ) ^ (52 : ℕ)) ≤ (roundHalfEven (x / 2 ^ (Int.log 2 x - 52)) : ℚ) := by
    exact_mod_cast r1
  have q2 : (roundHalfEven (x / 2 ^ (Int.log 2 x - 52)) : ℚ) ≤ ((2 : ℚ) ^ (53 : ℕ)) := by
    exact_mod_cast r2
  unfold G4double.nearestPos
  constructor
  · have := mul_le_mul_of_nonneg_right q1 (le_of_lt hpos)
    rw [G4double.zpow_split] at this
    simpa using this
  · have := mul_le_mul_of_nonneg_right q2 (le_of_lt hpos)
    rw [G4double.zpow_split] at this
    simpa using this

theorem G4double.nearestPos_pos (x : ℚ) (hx : 0 < x) : 0 < G4double.nearestPos x :=
  lt_of_lt_of_le (zpow_pos (by norm_num) _) (G4double.nearestPos_bounds x hx).1

theorem G4double.nearestPos_mono {x y : ℚ} (hx : 0 < x) (h : x ≤ y) :
    G4double.nearestPos x ≤ G4double.nearestPos y := by
  have hy : 0 < y := lt_of_lt_of_le hx h
  have hlog : Int.log 2 x ≤ Int.log 2 y := Int.log_mono_right hx h
  rcases eq_or_lt_of_le hlog with heq | hlt
  · unfold G4double.nearestPos
    rw [heq]
    have hpos : (0 : ℚ) < 2 ^ (Int.log 2 y - 52) := zpow_pos (by norm_num) _
    have hdiv : x / 2 ^ (Int.log 2 y - 52) ≤ y / 2 ^ (Int.log 2 y - 52) :=
      div_le_div_of_nonneg_right h (le_of_lt hpos)
    have := roundHalfEven_mono hdiv
    exact mul_le_mul_of_nonneg_right (by exact_mod_cast this) (le_of_lt hpos)
  · have h1 := (G4double.nearestPos_bounds x hx).2
    have h2 := (G4double.nearestPos_bounds y hy).1
    have h3 : (2 : ℚ) ^ (Int.log 2 x + 1) ≤ 2 ^ Int.log 2 y :=
      zpow_le_zpow_right₀ (by norm_num) (by omega)
    linarith

theorem G4double.nearest_zero : G4double.nearest 0 = 0 := by
  unfold G4double.nearest
  rw [if_pos rfl]

theorem G4double.nearest_of_pos (x : ℚ) (hx : 0 < x) :
    G4double.nearest x = G4double.nearestPos x := by
  unfold G4double.nearest
  rw [if_neg (ne_of_gt hx), if_neg (not_lt.2 (le_of_lt hx))]

theorem G4double.nearest_of_neg (x : ℚ) (hx : x < 0) :
    G4double.nearest x = -G4double.nearestPos (-x) := by
  unfold G4double.nearest
  rw [if_neg (ne_of_lt hx), if_pos hx]

theorem G4double.nearest_pos (x : ℚ) (hx : 0 < x) : 0 < G4double.nearest x := by
  rw [G4double.nearest_of_pos x hx]
  exact G4double.nearestPos_pos x hx

theorem G4double.nearest_neg (x : ℚ) (hx : x < 0) : G4double.nearest x < 0 := by
  rw [G4double.nearest_of_neg x hx]
  have := G4double.nearestPos_pos (-x) (by linarith)
  linarith

theorem G4double.nearest_nonneg (x : ℚ) (hx : 0 ≤ x) : 0 ≤ G4double.nearest x := by
  rcases eq_or_lt_of_le hx with h | h
  · rw [← h, G4double.nearest_zero]
  · exact le_of_lt (G4double.nearest_pos x h)

/-- Rounding to the nearest double is monotone. -/
theorem G4double.nearest_mono {x y : ℚ} (h : x ≤ y) :
    G4double.nearest x ≤ G4double.nearest y := by
  rcases lt_trichotomy x 0 with hx | hx | hx
  · rcases lt_or_le y 0 with hy | hy
    · rw [G4double.nearest_of_neg x hx, G4double.nearest_of_neg y hy]
      have := G4double.nearestPos_mono (by linarith : 0 < -y) (by linarith : -y ≤ -x)
      linarith
    · have h1 := G4double.nearest_neg x hx
      have h2 := G4double.nearest_nonneg y hy
      linarith
  · rw [hx, G4double.nearest_zero]
    exact G4double.nearest_nonneg y (hx ▸ h)
  · have hy : 0 < y := lt_of_lt_of_le hx h
    rw [G4double.nearest_of_pos x hx, G4double.nearest_of_pos y hy]
    exact G4double.nearestPos_mono hx h

/-- The rounded value of a positive `x` in the binade `[2^j, 2^(j+1))` whose
scaled value is nearer to the integer `m` than to any other. -/
theorem G4double.nearest_eq (x : ℚ) (j m : Int) (h1 : (2 : ℚ) ^ j ≤ x)
    (h2 : x < (2 : ℚ) ^ (j + 1)) (h3 : (m : ℚ) - 1 / 2 < x / 2 ^ (j - 52))
    (h4 : x / 2 ^ (j - 52) < (m : ℚ) + 1 / 2) :
    G4double.nearest x = (m : ℚ) * 2 ^ (j - 52) := by
  have hx : 0 < x := lt_of_lt_of_le (zpow_pos (by norm_num) _) h1
  have hlog : Int.log 2 x = j := by
    apply le_antisymm
    · have : Int.log 2 x < j + 1 := by
        rw [← Int.lt_zpow_iff_log_lt (by norm_num) hx]
        exact_mod_cast h2
      omega
    · rw [← Int.zpow_le_iff_le_log (by norm_num) hx]
      exact_mod_cast h1
  rw [G4double.nearest_of_pos x hx]
  unfold G4double.nearestPos
  rw [hlog, roundHalfEven_eq_of_near _ m h3 h4]

theorem G4double.nearest_keV : G4double.nearest keV = 4611686018427388 / 2 ^ 62 := by
  have h := G4double.nearest_eq (1 / 1000) (-10) 4611686018427388
    (by norm_num) (by norm_num) (by norm_num) (by norm_num)
  have hk : keV = 1 / 1000 := by norm_num [keV, MeV]
  rw [hk, h]
  norm_num

theorem G4double.nearest_ten : G4double.nearest 10 = 10 := by
  have h := G4double.nearest_eq 10 3 5629499534213120
    (by norm_num) (by norm_num) (by norm_num) (by norm_num)
  rw [h]
  norm_num

theorem G4double.div_keV_eq (e : ℚ) (j₁ m₁ j₂ m₂ : Int)
    (a1 : (2 : ℚ) ^ j₁ ≤ e) (a2 : e < (2 : ℚ) ^ (j₁ + 1))
    (a3 : (m₁ : ℚ) - 1 / 2 < e / 2 ^ (j₁ - 52)) (a4 : e / 2 ^ (j₁ - 52) < (m₁ : ℚ) + 1 / 2)
    (b1 : (2 : ℚ) ^ j₂ ≤ (m₁ : ℚ) * 2 ^ (j₁ - 52) / (4611686018427388 / 2 ^ 62))
    (b2 : (m₁ : ℚ) * 2 ^ (j₁ - 52) / (4611686018427388 / 2 ^ 62) < (2 : ℚ) ^ (j₂ + 1))
    (b3 : (m₂ : ℚ) - 1 / 2 <
      (m₁ : ℚ) * 2 ^ (j₁ - 52) / (4611686018427388 / 2 ^ 62) / 2 ^ (j₂ - 52))
    (b4 : (m₁ : ℚ) * 2 ^ (j₁ - 52) / (4611686018427388 / 2 ^ 62) / 2 ^ (j₂ - 52) <
      (m₂ : ℚ) + 1 / 2) :
    G4double.div e keV = (m₂ : ℚ) * 2 ^ (j₂ - 52) := by
  unfold G4double.div
  rw [G4double.nearest_keV, G4double.nearest_eq e j₁ m₁ a1 a2 a3 a4]
  exact G4double.nearest_eq _ j₂ m₂ b1 b2 b3 b4

theorem G4double.div_keV_neg (e : ℚ) (he : e < 0) : G4double.div e keV < 0 := by
  unfold G4double.div
  rw [G4double.nearest_keV]
  exact G4double.nearest_neg _ (div_neg_of_neg_of_pos (G4double.nearest_neg e he) (by norm_num))

theorem G4double.div_keV_nonneg (e : ℚ) (he : 0 ≤ e) : 0 ≤ G4double.div e keV := by
  unfold G4double.div
  rw [G4double.nearest_keV]
  exact G4double.nearest_nonneg _ (div_nonneg (G4double.nearest_nonneg e he) (by norm_num))

theorem G4double.div_keV_ge (e : ℚ) (he : 10 ≤ e) : 10000 ≤ G4double.div e keV := by
  have h10 : (10 : ℚ) ≤ G4double.nearest e := by
    have := G4double.nearest_mono he
    rwa [G4double.nearest_ten] at this
  have hq : (10 : ℚ) / (4611686018427388 / 2 ^ 62) ≤
      G4double.nearest e / (4611686018427388 / 2 ^ 62) :=
    div_le_div_of_nonneg_right h10 (by norm_num)
  have hval : G4double.nearest ((10 : ℚ) / (4611686018427388 / 2 ^ 62)) = 10000 := by
    rw [G4double.nearest_eq _ 13 5497558138880000
      (by norm_num) (by norm_num) (by norm_num) (by norm_num)]
    norm_num
  unfold G4double.div
  rw [G4double.nearest_keV, ← hval]
  exact G4double.nearest_mono hq

/-- A double below 10 is at most the double just below 10. -/
theorem G4double.le_pred_ten (e : ℚ) (hrep : G4double.nearest e = e) (h10 : e < 10) : e ≤ 5629499534213119 / 2 ^ 49 := by
  by_cases h8 : e < 8
  · have : (8 : ℚ) ≤ 5629499534213119 / 2 ^ 49 := by norm_num
    linarith
  · have h8' : (8 : ℚ) ≤ e := not_lt.1 h8
    have hx : 0 < e := by linarith
    have hlog : Int.log 2 e = 3 := by
      apply le_antisymm
      · have : Int.log 2 e < 3 + 1 := by
          rw [← Int.lt_zpow_iff_log_lt (by norm_num) hx]
          norm_num
          linarith
        omega
      · rw [← Int.zpow_le_iff_le_log (by norm_num) hx]
        norm_num
        exact h8'
    rw [G4double.nearest_of_pos e hx] at hrep
    unfold G4double.nearestPos at hrep
    rw [hlog] at hrep
    generalize roundHalfEven (e / 2 ^ ((3 : Int) - 52)) = m at hrep
    have hm : (m : ℚ) < 5629499534213120 := by
      have : (m : ℚ) * 2 ^ ((3 : Int) - 52) < 10 := by rw [hrep]; exact h10
      have h2 : (m : ℚ) * 2 ^ ((3 : Int) - 52) = (m : ℚ) / 2 ^ 49 := by norm_num; ring
      rw [h2, div_lt_iff₀ (by norm_num)] at this
      norm_num at this
      exact this
    have hm' : m ≤ 5629499534213119 := by
      have : m < 5629499534213120 := by exact_mod_cast hm
      omega
    have hm'' : (m : ℚ) ≤ 5629499534213119 := by exact_mod_cast hm'
    rw [← hrep]
    have h2 : (m : ℚ) * 2 ^ ((3 : Int) - 52) = (m : ℚ) / 2 ^ 49 := by norm_num; ring
    rw [h2]
    exact div_le_div_of_nonneg_right hm'' (by norm_num)

theorem G4double.div_keV_lt (e : ℚ) (hrep : G4double.nearest e = e) (h10 : e < 10) :
    G4double.div e keV < 10000 := by
  by_cases h0 : e < 0
  · have := G4double.div_keV_neg e h0
    linarith
  · have hle := G4double.le_pred_ten e hrep h10
    have hq : e / (4611686018427388 / 2 ^ 62) ≤
        (5629499534213119 / 2 ^ 49 : ℚ) / (4611686018427388 / 2 ^ 62) :=
      div_le_div_of_nonneg_right hle (by norm_num)
    have hval : G4double.nearest ((5629499534213119 / 2 ^ 49 : ℚ) / (4611686018427388 / 2 ^ 62)) =
        5497558138879999 / 2 ^ 39 := by
      rw [G4double.nearest_eq _ 13 5497558138879999
        (by norm_num) (by norm_num) (by norm_num) (by norm_num)]
      norm_num
    have hmono := G4double.nearest_mono hq
    rw [hval] at hmono
    unfold G4double.div
    rw [G4double.nearest_keV, hrep]
    have : (5497558138879999 / 2 ^ 39 : ℚ) < 10000 := by norm_num
    linarith

theorem G4double.log_eq (x : ℚ) (j : Int) (h1 : (2 : ℚ) ^ j ≤ x) (h2 : x < (2 : ℚ) ^ (j + 1)) :
    Int.log 2 x = j := by
  have hx : 0 < x := lt_of_lt_of_le (zpow_pos (by norm_num) _) h1
  apply le_antisymm
  · have : Int.log 2 x < j + 1 := by
      rw [← Int.lt_zpow_iff_log_lt (by norm_num) hx]
      exact_mod_cast h2
    omega
  · rw [← Int.zpow_le_iff_le_log (by norm_num) hx]
    exact_mod_cast h1

/-- A multiple `m * 2^k` with `2^52 ≤ m ≤ 2^53` is a double. -/
theorem G4double.nearestPos_of_significand (m k : Int) (h1 : 2 ^ 52 ≤ m) (h2 : m ≤ 2 ^ 53) :
    G4double.nearestPos ((m : ℚ) * 2 ^ k) = (m : ℚ) * 2 ^ k := by
  have hk : (0 : ℚ) < 2 ^ k := zpow_pos (by norm_num) _
  have h1' : ((2 : ℚ) ^ (52 : ℕ)) ≤ (m : ℚ) := by exact_mod_cast h1
  have h2' : (m : ℚ) ≤ ((2 : ℚ) ^ (53 : ℕ)) := by exact_mod_cast h2
  rcases eq_or_lt_of_le h2 with heq | hlt
  · have hm : (m : ℚ) = (2 : ℚ) ^ (53 : ℕ) := by exact_mod_cast heq
    have hval : (m : ℚ) * 2 ^ k = 2 ^ (k + 53) := by
      rw [hm, ← zpow_natCast, ← zpow_add₀ (by norm_num : (2 : ℚ) ≠ 0)]
      congr 1
      push_cast
      ring
    have hlog : Int.log 2 ((m : ℚ) * 2 ^ k) = k + 53 := by
      rw [hval]
      exact G4double.log_eq _ _ (le_refl _)
        (zpow_lt_zpow_right₀ (by norm_num) (by omega))
    unfold G4double.nearestPos
    rw [hlog, hval]
    have hdiv : (2 : ℚ) ^ (k + 53) / 2 ^ (k + 53 - 52) = ((2 ^ 52 : Int) : ℚ) := by
      rw [← zpow_sub₀ (by norm_num : (2 : ℚ) ≠ 0)]
      have : k + 53 - (k + 53 - 52) = 52 := by ring
      rw [this]
      norm_num
    rw [hdiv, roundHalfEven_intCast]
    have h52 : ((2 ^ 52 : Int) : ℚ) = (2 : ℚ) ^ (52 : Int) := by norm_num
    rw [h52, ← zpow_add₀ (by norm_num : (2 : ℚ) ≠ 0)]
    congr 1
    ring
  · have hlt' : (m : ℚ) < ((2 : ℚ) ^ (53 : ℕ)) := by exact_mod_cast hlt
    have hlog : Int.log 2 ((m : ℚ) * 2 ^ k) = k + 52 := by
      apply G4double.log_eq
      · have : (2 : ℚ) ^ (k + 52) = 2 ^ (52 : ℕ) * 2 ^ k := by
          rw [← zpow_natCast, ← zpow_add₀ (by norm_num : (2 : ℚ) ≠ 0)]
          congr 1
          push_cast
          ring
        rw [this]
        exact mul_le_mul_of_nonneg_right h1' (le_of_lt hk)
      · have : (2 : ℚ) ^ (k + 52 + 1) = 2 ^ (53 : ℕ) * 2 ^ k := by
          rw [← zpow_natCast, ← zpow_add₀ (by norm_num : (2 : ℚ) ≠ 0)]
          congr 1
          push_cast
          ring
        rw [this]
        exact mul_lt_mul_of_pos_right hlt' hk
    unfold G4double.nearestPos
    rw [hlog]
    have hk' : k + 52 - 52 = k := by ring
    rw [hk', mul_div_assoc, div_self (ne_of_gt hk), mul_one, roundHalfEven_intCast]

/-- Rounding a rounded value changes nothing: the rounded values are doubles. -/
theorem G4double.nearest_nearest (x : ℚ) :
    G4double.nearest (G4double.nearest x) = G4double.nearest x := by
  have hpos : ∀ y : ℚ, 0 < y →
      G4double.nearestPos (G4double.nearestPos y) = G4double.nearestPos y := by
    intro y hy
    obtain ⟨hlo, hhi⟩ := G4double.scaled_bounds y hy
    have h1 : ((2 ^ 52 : Int) : ℚ) ≤ y / 2 ^ (Int.log 2 y - 52) := by
      push_cast; exact hlo
    have h2 : y / 2 ^ (Int.log 2 y - 52) ≤ ((2 ^ 53 : Int) : ℚ) := by
      push_cast; exact le_of_lt hhi
    have r1 := roundHalfEven_mono h1
    have r2 := roundHalfEven_mono h2
    rw [roundHalfEven_intCast] at r1 r2
    have := G4double.nearestPos_of_significand
      (roundHalfEven (y / 2 ^ (Int.log 2 y - 52))) (Int.log 2 y - 52) r1 r2
    unfold G4double.nearestPos at this ⊢
    exact this
  rcases lt_trichotomy x 0 with hx | hx | hx
  · have hn := G4double.nearest_neg x hx
    rw [G4double.nearest_of_neg _ hn, G4double.nearest_of_neg x hx, neg_neg,
      hpos (-x) (by linarith)]
  · rw [hx, G4double.nearest_zero, G4double.nearest_zero]
  · have hp := G4double.nearest_pos x hx
    rw [G4double.nearest_of_pos _ hp, G4double.nearest_of_pos x hx, hpos x hx]

theorem G4double.div_nearest_left (a b : ℚ) :
    G4double.div (G4double.nearest a) b = G4double.div a b := by
  unfold G4double.div
  rw [G4double.nearest_nearest]

/-- The bin of a value is the bin of the double nearest to it. -/
theorem Run.EnergyToBin_nearest (e : ℚ) :
    Run.EnergyToBin (G4double.nearest e) = Run.EnergyToBin e := by
  unfold Run.EnergyToBin
  rw [G4double.div_nearest_left]

theorem Run.fEmax_keV : Run.fEmax * 1000 = 10000 := by
  norm_num [Run.fEmax]

theorem Run.EnergyToBin_inRange (e : ℚ) (h0 : 0 ≤ Run.energy_keV e)
    (h1 : Run.energy_keV e < 10000) :
    Run.EnergyToBin e = ⌊Run.energy_keV e⌋ ∧ 0 ≤ ⌊Run.energy_keV e⌋ ∧
      ⌊Run.energy_keV e⌋ < 10000 := by
  have hcond : ¬ (Run.energy_keV e < 0 ∨ Run.energy_keV e ≥ Run.fEmax * 1000) := by
    rw [Run.fEmax_keV]
    intro h
    rcases h with h | h
    · exact absurd h0 (not_le.2 h)
    · exact absurd h1 (not_lt.2 h)
  refine ⟨?_, Int.floor_nonneg.2 h0, ?_⟩
  · unfold Run.energy_keV at hcond
    simp only [Run.EnergyToBin, if_neg hcond]
    exact castToInt_of_nonneg _ h0
  · exact Int.floor_lt.2 (by exact_mod_cast h1)

theorem Run.EnergyToBin_dropped (e : ℚ)
    (h : Run.energy_keV e < 0 ∨ 10000 ≤ Run.energy_keV e) : Run.EnergyToBin e = -1 := by
  have hcond : Run.energy_keV e < 0 ∨ Run.energy_keV e ≥ Run.fEmax * 1000 := by
    rw [Run.fEmax_keV]
    exact h
  unfold Run.energy_keV at hcond
  simp only [Run.EnergyToBin, if_pos hcond]

/-- An energy whose exact keV value is outside [0, 10000) has a computed keV
value outside [0, 10000). -/
theorem Run.energy_keV_outOfRange (e : ℚ) (h : e / keV < 0 ∨ 10000 ≤ e / keV) :
    Run.energy_keV e < 0 ∨ 10000 ≤ Run.energy_keV e := by
  rw [keV_eq] at h
  rcases h with h | h
  · exact Or.inl (G4double.div_keV_neg e (by linarith))
  · exact Or.inr (G4double.div_keV_ge e (by linarith))

/-- A double whose exact keV value is in [0, 10000) has a computed keV value in
[0, 10000). -/
theorem Run.energy_keV_inRange (e : ℚ) (hrep : G4double.nearest e = e)
    (h0 : 0 ≤ e / keV) (h1 : e / keV < 10000) :
    0 ≤ Run.energy_keV e ∧ Run.energy_keV e < 10000 := by
  rw [keV_eq] at h0 h1
  exact ⟨G4double.div_keV_nonneg e (by linarith), G4double.div_keV_lt e hrep (by linarith)⟩

theorem Run.EnergyToBin_outOfRange (e : ℚ) (h : e / keV < 0 ∨ 10000 ≤ e / keV) :
    Run.EnergyToBin e = -1 :=
  Run.EnergyToBin_dropped e (Run.energy_keV_outOfRange e h)

/-- The bin of an energy whose computed keV value is known. -/
theorem Run.EnergyToBin_of_energy_keV (e v : ℚ) (b : Int) (hv : Run.energy_keV e = v)
    (hr : 0 ≤ v ∧ v < 10000) (hb : (b : ℚ) ≤ v ∧ v < (b : ℚ) + 1) :
    Run.EnergyToBin e = b := by
  have hfl : ⌊v⌋ = b := Int.floor_eq_iff.2 hb
  rw [← hv] at hr hfl
  rw [(Run.EnergyToBin_inRange e hr.1 hr.2).1, hfl]

/-- An energy whose computed keV value is in [0, 10000) has its exact keV value
in [0, 10000). -/
theorem Run.exact_of_energy_keV (e : ℚ)
    (h : 0 ≤ Run.energy_keV e ∧ Run.energy_keV e < 10000) :
    0 ≤ e / keV ∧ e / keV < 10000 := by
  by_contra hne
  have hout : e / keV < 0 ∨ 10000 ≤ e / keV := by
    by_cases h0 : 0 ≤ e / keV
    · right
      exact not_lt.1 (fun h1 => hne ⟨h0, h1⟩)
    · left
      exact not_le.1 h0
  rcases Run.energy_keV_outOfRange e hout with h1 | h1
  · exact absurd h.1 (not_le.2 h1)
  · exact absurd h.2 (not_lt.2 h1)

theorem Run.energy_keV_0_0105 : Run.energy_keV (0.0105 * MeV) = 10.5 := by
  unfold Run.energy_keV
  rw [G4double.div_keV_eq (0.0105 * MeV) (-7) 6052837899185947 3 5910974510923776
    (by norm_num [MeV]) (by norm_num [MeV]) (by norm_num [MeV]) (by norm_num [MeV])
    (by norm_num) (by norm_num) (by norm_num) (by norm_num)]
  norm_num

theorem Run.energy_keV_9999 : Run.energy_keV (9999 * keV) = 9999 := by
  unfold Run.energy_keV
  rw [G4double.div_keV_eq (9999 * keV) 3 5628936584259699 13 5497008383066112
    (by norm_num [keV, MeV]) (by norm_num [keV, MeV]) (by norm_num [keV, MeV])
    (by norm_num [keV, MeV])
    (by norm_num) (by norm_num) (by norm_num) (by norm_num)]
  norm_num

theorem Run.energy_keV_0_009 : Run.energy_keV (0.009 * MeV) = 9 := by
  unfold Run.energy_keV
  rw [G4double.div_keV_eq (0.009 * MeV) (-7) 5188146770730811 3 5066549580791808
    (by norm_num [MeV]) (by norm_num [MeV]) (by norm_num [MeV]) (by norm_num [MeV])
    (by norm_num) (by norm_num) (by norm_num) (by norm_num)]
  norm_num

theorem Run.energy_keV_0_015 : Run.energy_keV (0.015 * MeV) = 15 := by
  unfold Run.energy_keV
  rw [G4double.div_keV_eq (0.015 * MeV) (-7) 8646911284551352 3 8444249301319680
    (by norm_num [MeV]) (by norm_num [MeV]) (by norm_num [MeV]) (by norm_num [MeV])
    (by norm_num) (by norm_num) (by norm_num) (by norm_num)]
  norm_num

theorem Run.energy_keV_2_505 : Run.energy_keV (2.505 * MeV) = 2505 := by
  unfold Run.energy_keV
  rw [G4double.div_keV_eq (2.505 * MeV) 1 5640758533281546 11 5508553255157760
    (by norm_num [MeV]) (by norm_num [MeV]) (by norm_num [MeV]) (by norm_num [MeV])
    (by norm_num) (by norm_num) (by norm_num) (by norm_num)]
  norm_num

theorem EnergyHistogram.count_addAt (h : EnergyHistogram) (k v b : Int) :
    (h.addAt k v).count b = if b = k then h.count k + v else h.count b := by
  unfold EnergyHistogram.count EnergyHistogram.addAt
  simp only []
  rw [Entries.find_addAt k v b h.bins h.ordered]
  by_cases hb : b = k
  · simp [hb]
  · simp [hb]

theorem EnergyHistogram.ext_bins (h₁ h₂ : EnergyHistogram) (h : h₁.bins = h₂.bins) :
    h₁ = h₂ := by
  cases h₁; cases h₂; cases h; rfl

theorem Run.hist_AddEnergySpectrumDet1 (r : Run) (e : ℚ) :
    (r.AddEnergySpectrumDet1 e).fEnergyHistogramDet1 =
        (if Run.EnergyToBin e ≥ 0 ∧ Run.EnergyToBin e < Run.fNbins then
          r.fEnergyHistogramDet1.addAt (Run.EnergyToBin e) 1
        else r.fEnergyHistogramDet1) ∧
      (r.AddEnergySpectrumDet1 e).fEnergyHistogramDet2 = r.fEnergyHistogramDet2 := by
  unfold Run.AddEnergySpectrumDet1
  by_cases h : Run.EnergyToBin e ≥ 0 ∧ Run.EnergyToBin e < Run.fNbins
  · simp only [if_pos h, and_self]
  · simp only [if_neg h, and_self]

theorem Run.hist_AddEnergySpectrumDet2 (r : Run) (e : ℚ) :
    (r.AddEnergySpectrumDet2 e).fEnergyHistogramDet2 =
        (if Run.EnergyToBin e ≥ 0 ∧ Run.EnergyToBin e < Run.fNbins then
          r.fEnergyHistogramDet2.addAt (Run.EnergyToBin e) 1
        else r.fEnergyHistogramDet2) ∧
      (r.AddEnergySpectrumDet2 e).fEnergyHistogramDet1 = r.fEnergyHistogramDet1 := by
  unfold Run.AddEnergySpectrumDet2
  by_cases h : Run.EnergyToBin e ≥ 0 ∧ Run.EnergyToBin e < Run.fNbins
  · simp only [if_pos h, and_self]
  · simp only [if_neg h, and_self]

theorem Run.totals_AddEnergySpectrumDet1 (r : Run) (e : ℚ) :
    (r.AddEnergySpectrumDet1 e).fTotalEnergyDepositDet1 = r.fTotalEnergyDepositDet1 + e ∧
      (r.AddEnergySpectrumDet1 e).fTotalEventsDet1 = r.fTotalEventsDet1 + 1 ∧
      (r.AddEnergySpectrumDet1 e).fTotalEnergyDepositDet2 = r.fTotalEnergyDepositDet2 ∧
      (r.AddEnergySpectrumDet1 e).fTotalEventsDet2 = r.fTotalEventsDet2 := by
  unfold Run.AddEnergySpectrumDet1
  by_cases h : Run.EnergyToBin e ≥ 0 ∧ Run.EnergyToBin e < Run.fNbins
  · simp only [if_pos h, and_self]
  · simp only [if_neg h, and_self]

theorem Run.totals_AddEnergySpectrumDet2 (r : Run) (e : ℚ) :
    (r.AddEnergySpectrumDet2 e).fTotalEnergyDepositDet2 = r.fTotalEnergyDepositDet2 + e ∧
      (r.AddEnergySpectrumDet2 e).fTotalEventsDet2 = r.fTotalEventsDet2 + 1 ∧
      (r.AddEnergySpectrumDet2 e).fTotalEnergyDepositDet1 = r.fTotalEnergyDepositDet1 ∧
      (r.AddEnergySpectrumDet2 e).fTotalEventsDet1 = r.fTotalEventsDet1 := by
  unfold Run.AddEnergySpectrumDet2
  by_cases h : Run.EnergyToBin e ≥ 0 ∧ Run.EnergyToBin e < Run.fNbins
  · simp only [if_pos h, and_self]
  · simp only [if_neg h, and_self]

theorem Entries.combine_comm (a b : Option Int) :
    Entries.combine a b = Entries.combine b a := by
  cases a <;> cases b <;> simp [Entries.combine, add_comm]

theorem Entries.combine_assoc (a b c : Option Int) :
    Entries.combine (Entries.combine a b) c = Entries.combine a (Entries.combine b c) := by
  cases a <;> cases b <;> cases c <;> simp [Entries.combine, add_assoc]

theorem EnergyHistogram.find_bins_mergeFrom (h₁ h₂ : EnergyHistogram) (b : Int) :
    Entries.find b (h₁.mergeFrom h₂).bins =
      Entries.combine (Entries.find b h₁.bins) (Entries.find b h₂.bins) := by
  unfold EnergyHistogram.mergeFrom Entries.combine
  exact Entries.find_mergeFrom b h₁.bins h₂.bins h₁.ordered h₂.ordered

theorem EnergyHistogram.eq_of_find_eq (h₁ h₂ : EnergyHistogram)
    (h : ∀ b, Entries.find b h₁.bins = Entries.find b h₂.bins) : h₁ = h₂ :=
  EnergyHistogram.ext_bins h₁ h₂ (Entries.ext_find h₁.bins h₂.bins h₁.ordered h₂.ordered h)

theorem EnergyHistogram.mergeFrom_comm (h₁ h₂ : EnergyHistogram) :
    h₁.mergeFrom h₂ = h₂.mergeFrom h₁ := by
  apply EnergyHistogram.eq_of_find_eq
  intro b
  rw [EnergyHistogram.find_bins_mergeFrom, EnergyHistogram.find_bins_mergeFrom, Entries.combine_comm]

theorem EnergyHistogram.mergeFrom_assoc (h₁ h₂ h₃ : EnergyHistogram) :
    (h₁.mergeFrom h₂).mergeFrom h₃ = h₁.mergeFrom (h₂.mergeFrom h₃) := by
  apply EnergyHistogram.eq_of_find_eq
  intro b
  simp only [EnergyHistogram.find_bins_mergeFrom, Entries.combine_assoc]

theorem EnergyHistogram.count_mergeFrom (h₁ h₂ : EnergyHistogram) (b : Int) :
    (h₁.mergeFrom h₂).count b = h₁.count b + h₂.count b := by
  unfold EnergyHistogram.count
  rw [EnergyHistogram.find_bins_mergeFrom]
  cases Entries.find b h₂.bins <;> simp [Entries.combine]

theorem Run.Merge_comm (a b : Run) : Run.Merge a b = Run.Merge b a := by
  unfold Run.Merge
  rw [EnergyHistogram.mergeFrom_comm a.fEnergyHistogramDet1,
    EnergyHistogram.mergeFrom_comm a.fEnergyHistogramDet2,
    add_comm a.fTotalEnergyDepositDet1, add_comm a.fTotalEnergyDepositDet2,
    add_comm a.fTotalEventsDet1, add_comm a.fTotalEventsDet2]

theorem Run.Merge_assoc (a b c : Run) :
    Run.Merge (Run.Merge a b) c = Run.Merge a (Run.Merge b c) := by
  unfold Run.Merge
  simp only [EnergyHistogram.mergeFrom_assoc, add_assoc]

theorem Run.det2_AddEnergySpectrumDet1 (r : Run) (e : ℚ) :
    (r.AddEnergySpectrumDet1 e).det2 = r.det2 := by
  obtain ⟨-, h⟩ := Run.hist_AddEnergySpectrumDet1 r e
  obtain ⟨-, -, hs, hn⟩ := Run.totals_AddEnergySpectrumDet1 r e
  simp only [Run.det2, h, hs, hn]

theorem Run.det1_AddEnergySpectrumDet2 (r : Run) (e : ℚ) :
    (r.AddEnergySpectrumDet2 e).det1 = r.det1 := by
  obtain ⟨-, h⟩ := Run.hist_AddEnergySpectrumDet2 r e
  obtain ⟨-, -, hs, hn⟩ := Run.totals_AddEnergySpectrumDet2 r e
  simp only [Run.det1, h, hs, hn]

theorem Run.det2_AddEnergySpectrumDet2_congr (r r' : Run) (e : ℚ) (h : r'.det2 = r.det2) :
    (r'.AddEnergySpectrumDet2 e).det2 = (r.AddEnergySpectrumDet2 e).det2 := by
  simp only [Run.det2, Prod.mk.injEq] at h
  obtain ⟨h1, h2, h3⟩ := h
  obtain ⟨a, -⟩ := Run.hist_AddEnergySpectrumDet2 r e
  obtain ⟨a', -⟩ := Run.hist_AddEnergySpectrumDet2 r' e
  obtain ⟨b, c, -, -⟩ := Run.totals_AddEnergySpectrumDet2 r e
  obtain ⟨b', c', -, -⟩ := Run.totals_AddEnergySpectrumDet2 r' e
  simp only [Run.det2, a, a', b, b', c, c', h1, h2, h3]

theorem RunAction.fields_AddEnergyDepositDet1 (ra : RunAction) (edep : ℚ) :
    (ra.AddEnergyDepositDet1 edep).fEnergyDepositDet1 = ra.fEnergyDepositDet1 + edep ∧
      (ra.AddEnergyDepositDet1 edep).fEventCountDet1 =
        ra.fEventCountDet1 + (if edep > 0 then 1 else 0) ∧
      (ra.AddEnergyDepositDet1 edep).fEnergyDepositDet2 = ra.fEnergyDepositDet2 ∧
      (ra.AddEnergyDepositDet1 edep).fEventCountDet2 = ra.fEventCountDet2 := by
  unfold RunAction.AddEnergyDepositDet1
  by_cases h : edep > 0
  · simp only [if_pos h, and_self]
  · simp only [if_neg h, add_zero, and_self]

theorem RunAction.fields_AddEnergyDepositDet2 (ra : RunAction) (edep : ℚ) :
    (ra.AddEnergyDepositDet2 edep).fEnergyDepositDet2 = ra.fEnergyDepositDet2 + edep ∧
      (ra.AddEnergyDepositDet2 edep).fEventCountDet2 =
        ra.fEventCountDet2 + (if edep > 0 then 1 else 0) ∧
      (ra.AddEnergyDepositDet2 edep).fEnergyDepositDet1 = ra.fEnergyDepositDet1 ∧
      (ra.AddEnergyDepositDet2 edep).fEventCountDet1 = ra.fEventCountDet1 := by
  unfold RunAction.AddEnergyDepositDet2
  by_cases h : edep > 0
  · simp only [if_pos h, and_self]
  · simp only [if_neg h, add_zero, and_self]

theorem EventAction.runAction_EndOfEventAction (ea : EventAction) (ctx : Context) :
    (ea.EndOfEventAction ctx).runAction =
      (ctx.runAction.AddEnergyDepositDet1 ea.fEnergyDepositDet1).AddEnergyDepositDet2
        ea.fEnergyDepositDet2 := rfl

theorem EventAction.currentRun_EndOfEventAction (ea : EventAction) (ctx : Context) (run : Run)
    (hrun : ctx.currentRun = some run) :
    (ea.EndOfEventAction ctx).currentRun =
      some
        (if ea.fEnergyDepositDet2 ≥ ea.fMinimumEnergy then
          (if ea.fEnergyDepositDet1 ≥ ea.fMinimumEnergy then
            run.AddEnergySpectrumDet1 ea.fEnergyDepositDet1
          else run).AddEnergySpectrumDet2 ea.fEnergyDepositDet2
        else
          (if ea.fEnergyDepositDet1 ≥ ea.fMinimumEnergy then
            run.AddEnergySpectrumDet1 ea.fEnergyDepositDet1
          else run)) := by
  unfold EventAction.EndOfEventAction
  simp only [hrun, decide_eq_true_eq]

theorem EventAction.AddEnergyDeposit_other (s : EventAction) (e : ℚ) (id : Int)
    (h1 : id ≠ 1) (h2 : id ≠ 2) : s.AddEnergyDeposit e id = s := by
  unfold EventAction.AddEnergyDeposit
  rw [if_neg h1, if_neg h2]

theorem EventAction.fields_AddEnergyDeposit (s : EventAction) (e : ℚ) (id : Int) :
    (s.AddEnergyDeposit e id).fEnergyDepositDet1 =
        s.fEnergyDepositDet1 + (if id = 1 then e else 0) ∧
      (s.AddEnergyDeposit e id).fEnergyDepositDet2 =
        s.fEnergyDepositDet2 + (if id = 2 then e else 0) := by
  unfold EventAction.AddEnergyDeposit
  by_cases h1 : id = 1
  · have h2 : ¬ id = 2 := by rw [h1]; decide
    simp only [if_pos h1, if_neg h2, add_zero, and_self]
  · by_cases h2 : id = 2
    · simp only [if_neg h1, if_pos h2, add_zero, and_self]
    · simp only [if_neg h1, if_neg h2, add_zero, and_self]

theorem amountFor_cons (id : Int) (c : ℚ × Int) (calls : List (ℚ × Int)) :
    amountFor id (c :: calls) = (if c.2 = id then c.1 else 0) + amountFor id calls := by
  unfold amountFor
  by_cases h : c.2 = id
  · simp [List.filter_cons, h]
  · simp [List.filter_cons, h]

theorem EventAction.totals_deposits (s : EventAction) (calls : List (ℚ × Int)) :
    (s.deposits calls).fEnergyDepositDet1 = s.fEnergyDepositDet1 + amountFor 1 calls ∧
      (s.deposits calls).fEnergyDepositDet2 = s.fEnergyDepositDet2 + amountFor 2 calls := by
  induction calls generalizing s with
  | nil => simp [EventAction.deposits, amountFor]
  | cons c t ih =>
    have hstep : s.deposits (c :: t) = (s.AddEnergyDeposit c.1 c.2).deposits t := rfl
    obtain ⟨f1, f2⟩ := EventAction.fields_AddEnergyDeposit s c.1 c.2
    obtain ⟨i1, i2⟩ := ih (s.AddEnergyDeposit c.1 c.2)
    rw [hstep, i1, i2, f1, f2, amountFor_cons, amountFor_cons]
    exact ⟨by ring, by ring⟩

theorem amountFor_eq_zero (id : Int) (calls : List (ℚ × Int))
    (h : ∀ c ∈ calls, c.2 ≠ id) : amountFor id calls = 0 := by
  induction calls with
  | nil => simp [amountFor]
  | cons c t ih =>
    rw [amountFor_cons, if_neg (h c (List.mem_cons_self _ _)),
      ih (fun a ha => h a (List.mem_cons_of_mem _ ha)), add_zero]

theorem PrimaryGeneratorAction.event_SampleDirection (env : Toolkit) (w : Session) :
    (PrimaryGeneratorAction.SampleDirection env w).2.event = w.event := rfl

theorem PrimaryGeneratorAction.event_cascadeStep (env : Toolkit)
    (types : List Char) (energies times : List ℚ) (st : G4ParticleGun × Session) (i : Nat) :
    ((PrimaryGeneratorAction.cascadeStep env PrimaryGeneratorAction.SampleSourcePosition
        types energies times st i).2.event).map PrimaryVertex.core =
      st.2.event.map PrimaryVertex.core ++
        (cascadeVertex (types.getD i ' ', energies.getD i 0, times.getD i 0)).toList := by
  unfold PrimaryGeneratorAction.cascadeStep cascadeVertex
  generalize types.getD i ' ' = t
  generalize energies.getD i 0 = E
  generalize times.getD i 0 = T
  by_cases hg : t = 'g'
  · simp [hg, G4ParticleGun.GeneratePrimaryVertex, PrimaryGeneratorAction.SampleDirection,
      PrimaryVertex.core, PrimaryGeneratorAction.SampleSourcePosition]
  · by_cases he : t = 'e'
    · simp [he, G4ParticleGun.GeneratePrimaryVertex,
        PrimaryGeneratorAction.SampleDirection, PrimaryVertex.core,
        PrimaryGeneratorAction.SampleSourcePosition]
    · simp [hg, he]

theorem PrimaryGeneratorAction.event_cascadeLoop (env : Toolkit)
    (types : List Char) (energies times : List ℚ) (st : G4ParticleGun × Session) (n : Nat) :
    (((List.range n).foldl
        (PrimaryGeneratorAction.cascadeStep env PrimaryGeneratorAction.SampleSourcePosition
          types energies times) st).2.event).map PrimaryVertex.core =
      st.2.event.map PrimaryVertex.core ++
        (List.range n).filterMap
          (fun i => cascadeVertex (types.getD i ' ', energies.getD i 0, times.getD i 0)) := by
  induction n with
  | zero => simp
  | succ n ih =>
    rw [List.range_succ, List.foldl_append, List.filterMap_append, List.foldl_cons,
      List.foldl_nil, PrimaryGeneratorAction.event_cascadeStep, ih, List.append_assoc]
    congr 1

theorem cascadeEntries_eq_range (n : Nat) (types : List Char) (energies times : List ℚ)
    (h₁ : n ≤ types.length) (h₂ : n ≤ energies.length) (h₃ : n ≤ times.length) :
    (types.zip (energies.zip times)).take n =
      (List.range n).map (fun i => (types.getD i ' ', energies.getD i 0, times.getD i 0)) := by
  induction n with
  | zero => simp
  | succ n ih =>
    have hz : n < (types.zip (energies.zip times)).length := by
      simp only [List.length_zip]
      omega
    rw [List.take_succ, List.range_succ, List.map_append, ih (by omega) (by omega) (by omega),
      List.getElem?_eq_getElem hz]
    simp only [List.getElem_zip, Option.toList, List.map_cons, List.map_nil]
    rw [List.getD_eq_getElem types ' ' (by omega), List.getD_eq_getElem energies 0 (by omega),
      List.getD_eq_getElem times 0 (by omega)]

theorem PrimaryGeneratorAction.event_emitCascade (env : Toolkit) (gen : PrimaryGeneratorAction)
    (nucleus : NuDEXStatisticalNucleus) (w : Session)
    (npar : Int) (types : List Char) (energies times : List ℚ)
    (hcall : env.nudexGenerateCascade nucleus.Z nucleus.A w.cascadeCalls =
      (npar, types, energies, times)) :
    (npar ≤ 0 → (PrimaryGeneratorAction.emitCascade env gen nucleus w).2.event = w.event) ∧
    (0 < npar →
      ((PrimaryGeneratorAction.emitCascade env gen nucleus w).2.event).map PrimaryVertex.core =
        w.event.map PrimaryVertex.core ++
          (List.range npar.toNat).filterMap
            (fun i => cascadeVertex (types.getD i ' ', energies.getD i 0, times.getD i 0))) := by
  constructor
  · intro h
    simp only [PrimaryGeneratorAction.emitCascade, hcall, if_pos h]
  · intro h
    have hn : ¬ npar ≤ 0 := not_le.2 h
    simp only [PrimaryGeneratorAction.emitCascade, hcall, if_neg hn]
    exact PrimaryGeneratorAction.event_cascadeLoop env types energies times _ _

theorem PrimaryGeneratorAction.GeneratePrimaries_nudex (env : Toolkit)
    (gen : PrimaryGeneratorAction) (w : Session)
    (hmode : gen.fSourceMode = SourceMode.NUDEX_CAPTURE) :
    gen.GeneratePrimaries env w = gen.GenerateNuDEXCascade env w := by
  unfold PrimaryGeneratorAction.GeneratePrimaries
  rw [hmode]

theorem PrimaryGeneratorAction.with_fNuDEX_none (gen : PrimaryGeneratorAction)
    (hnone : gen.fNuDEX = none) : { gen with fNuDEX := none } = gen := by
  cases gen
  simp only [PrimaryGeneratorAction.mk.injEq, true_and, and_true] at hnone ⊢
  exact hnone.symm

/-- A call with the configuration missing: nothing but one line on `G4cerr`. -/
theorem PrimaryGeneratorAction.GeneratePrimaries_config_missing (env : Toolkit)
    (gen : PrimaryGeneratorAction) (w : Session)
    (hmode : gen.fSourceMode = SourceMode.NUDEX_CAPTURE) (hnone : gen.fNuDEX = none)
    (hbad : gen.fNuDEX_ZA ≤ 0 ∨ gen.fNuDEXLibDir = "") :
    gen.GeneratePrimaries env w =
      (gen, { w with cerr := w.cerr ++ ["ERROR: NuDEX configuration missing (ZA/libdir)."] }) := by
  rw [PrimaryGeneratorAction.GeneratePrimaries_nudex env gen w hmode]
  unfold PrimaryGeneratorAction.GenerateNuDEXCascade
  rw [hnone]
  simp only [if_pos hbad]

/-- A call with the configuration present and `Init` failing: the nucleus is
constructed, `Init` is invoked, one line goes to `G4cerr`, `fNuDEX` is null again. -/
theorem PrimaryGeneratorAction.GeneratePrimaries_init_fails (env : Toolkit)
    (gen : PrimaryGeneratorAction) (w : Session)
    (hmode : gen.fSourceMode = SourceMode.NUDEX_CAPTURE) (hnone : gen.fNuDEX = none)
    (hcfg : ¬ (gen.fNuDEX_ZA ≤ 0 ∨ gen.fNuDEXLibDir = ""))
    (hinit : env.nudexInit (Int.tdiv gen.fNuDEX_ZA 1000) (Int.tmod gen.fNuDEX_ZA 1000)
      (PrimaryGeneratorAction.resolveLibDir env gen.fNuDEXLibDir) < 0) :
    gen.GeneratePrimaries env w =
      (gen,
        { w with
          nudexConstructed := w.nudexConstructed ++
            [(Int.tdiv gen.fNuDEX_ZA 1000, Int.tmod gen.fNuDEX_ZA 1000)]
          nudexInitCalls := w.nudexInitCalls ++
            [PrimaryGeneratorAction.resolveLibDir env gen.fNuDEXLibDir]
          cerr := w.cerr ++ ["ERROR: NuDEX initialization failed"] }) := by
  rw [PrimaryGeneratorAction.GeneratePrimaries_nudex env gen w hmode]
  unfold PrimaryGeneratorAction.GenerateNuDEXCascade
  rw [hnone]
  simp only [if_neg hcfg, if_pos hinit, PrimaryGeneratorAction.with_fNuDEX_none gen hnone]

/-- A failing call leaves the generator as it was and the event without vertex. -/
theorem PrimaryGeneratorAction.GeneratePrimaries_failing (env : Toolkit)
    (gen : PrimaryGeneratorAction) (w : Session)
    (hmode : gen.fSourceMode = SourceMode.NUDEX_CAPTURE) (hnone : gen.fNuDEX = none)
    (hfail : gen.fNuDEX_ZA ≤ 0 ∨ gen.fNuDEXLibDir = "" ∨
      env.nudexInit (Int.tdiv gen.fNuDEX_ZA 1000) (Int.tmod gen.fNuDEX_ZA 1000)
        (PrimaryGeneratorAction.resolveLibDir env gen.fNuDEXLibDir) < 0) :
    (gen.GeneratePrimaries env w).1 = gen ∧ (gen.GeneratePrimaries env w).2.event = w.event := by
  by_cases hcfg : gen.fNuDEX_ZA ≤ 0 ∨ gen.fNuDEXLibDir = ""
  · rw [PrimaryGeneratorAction.GeneratePrimaries_config_missing env gen w hmode hnone hcfg]
    exact ⟨rfl, rfl⟩
  · have hinit : env.nudexInit (Int.tdiv gen.fNuDEX_ZA 1000) (Int.tmod gen.fNuDEX_ZA 1000)
        (PrimaryGeneratorAction.resolveLibDir env gen.fNuDEXLibDir) < 0 := by
      rcases hfail with h | h | h
      · exact absurd (Or.inl h) hcfg
      · exact absurd (Or.inr h) hcfg
      · exact h
    rw [PrimaryGeneratorAction.GeneratePrimaries_init_fails env gen w hmode hnone hcfg hinit]
    exact ⟨rfl, rfl⟩

theorem PrimaryGeneratorAction.generateEvents_succ (env : Toolkit) (n : Nat)
    (gen : PrimaryGeneratorAction) (w : Session) :
    PrimaryGeneratorAction.generateEvents env (n + 1) gen w =
      ((PrimaryGeneratorAction.generateEvents env n
          (gen.GeneratePrimaries env { w with event := [] }).1
          (gen.GeneratePrimaries env { w with event := [] }).2).1,
        (PrimaryGeneratorAction.generateEvents env n
          (gen.GeneratePrimaries env { w with event := [] }).1
          (gen.GeneratePrimaries env { w with event := [] }).2).2.1,
        (gen.GeneratePrimaries env { w with event := [] }).2.event ::
          (PrimaryGeneratorAction.generateEvents env n
            (gen.GeneratePrimaries env { w with event := [] }).1
            (gen.GeneratePrimaries env { w with event := [] }).2).2.2) := rfl

/-- The emission part leaves the construction and `Init` logs as they are. -/
theorem PrimaryGeneratorAction.logs_emitCascade (env : Toolkit) (gen : PrimaryGeneratorAction)
    (nucleus : NuDEXStatisticalNucleus) (w : Session) :
    w.nudexConstructed <+: (PrimaryGeneratorAction.emitCascade env gen nucleus w).2.nudexConstructed ∧
    w.nudexInitCalls <+: (PrimaryGeneratorAction.emitCascade env gen nucleus w).2.nudexInitCalls := by
  have hstep : ∀ (types : List Char) (energies times : List ℚ)
      (st : G4ParticleGun × Session) (i : Nat),
      (PrimaryGeneratorAction.cascadeStep env PrimaryGeneratorAction.SampleSourcePosition
        types energies times st i).2.nudexConstructed = st.2.nudexConstructed ∧
      (PrimaryGeneratorAction.cascadeStep env PrimaryGeneratorAction.SampleSourcePosition
        types energies times st i).2.nudexInitCalls = st.2.nudexInitCalls := by
    intro types energies times st i
    unfold PrimaryGeneratorAction.cascadeStep
    generalize types.getD i ' ' = t
    by_cases hg : t = 'g'
    · simp [hg, G4ParticleGun.GeneratePrimaryVertex, PrimaryGeneratorAction.SampleDirection]
    · by_cases he : t = 'e'
      · simp [he, G4ParticleGun.GeneratePrimaryVertex, PrimaryGeneratorAction.SampleDirection]
      · simp [hg, he]
  have hloop : ∀ (types : List Char) (energies times : List ℚ) (l : List Nat)
      (st : G4ParticleGun × Session),
      (l.foldl (PrimaryGeneratorAction.cascadeStep env PrimaryGeneratorAction.SampleSourcePosition
        types energies times) st).2.nudexConstructed = st.2.nudexConstructed ∧
      (l.foldl (PrimaryGeneratorAction.cascadeStep env PrimaryGeneratorAction.SampleSourcePosition
        types energies times) st).2.nudexInitCalls = st.2.nudexInitCalls := by
    intro types energies times l
    induction l with
    | nil => intro st; exact ⟨rfl, rfl⟩
    | cons i t ih =>
      intro st
      rw [List.foldl_cons]
      obtain ⟨a, b⟩ := ih (PrimaryGeneratorAction.cascadeStep env
        PrimaryGeneratorAction.SampleSourcePosition types energies times st i)
      obtain ⟨c, d⟩ := hstep types energies times st i
      exact ⟨a.trans c, b.trans d⟩
  unfold PrimaryGeneratorAction.emitCascade
  rcases hres : env.nudexGenerateCascade nucleus.Z nucleus.A w.cascadeCalls with
    ⟨npar, types, energies, times⟩
  by_cases hn : npar ≤ 0
  · simp only [if_pos hn]
    exact ⟨List.prefix_refl _, List.prefix_refl _⟩
  · simp only [if_neg hn]
    obtain ⟨a, b⟩ := hloop types energies times (List.range npar.toNat)
      (gen.fParticleGun, { w with cascadeCalls := w.cascadeCalls + 1 })
    rw [a, b]
    exact ⟨List.prefix_refl _, List.prefix_refl _⟩

/-- A run of `n` events with `Init` failing: `Init` is invoked and the failure
reported at every event, and no event receives a vertex. -/
theorem PrimaryGeneratorAction.generateEvents_init_fails (env : Toolkit)
    (gen : PrimaryGeneratorAction)
    (hmode : gen.fSourceMode = SourceMode.NUDEX_CAPTURE) (hnone : gen.fNuDEX = none)
    (hcfg : ¬ (gen.fNuDEX_ZA ≤ 0 ∨ gen.fNuDEXLibDir = ""))
    (hinit : env.nudexInit (Int.tdiv gen.fNuDEX_ZA 1000) (Int.tmod gen.fNuDEX_ZA 1000)
      (PrimaryGeneratorAction.resolveLibDir env gen.fNuDEXLibDir) < 0)
    (n : Nat) (w : Session) :
    (PrimaryGeneratorAction.generateEvents env n gen w).1 = gen ∧
    (PrimaryGeneratorAction.generateEvents env n gen w).2.1.nudexInitCalls =
      w.nudexInitCalls ++
        List.replicate n (PrimaryGeneratorAction.resolveLibDir env gen.fNuDEXLibDir) ∧
    (PrimaryGeneratorAction.generateEvents env n gen w).2.1.cerr =
      w.cerr ++ List.replicate n "ERROR: NuDEX initialization failed" ∧
    (PrimaryGeneratorAction.generateEvents env n gen w).2.2 = List.replicate n [] := by
  induction n generalizing w with
  | zero => simp [PrimaryGeneratorAction.generateEvents]
  | succ n ih =>
    rw [PrimaryGeneratorAction.generateEvents_succ,
      PrimaryGeneratorAction.GeneratePrimaries_init_fails env gen _ hmode hnone hcfg hinit]
    obtain ⟨h1, h2, h3, h4⟩ := ih
      { w with
        event := []
        nudexConstructed := w.nudexConstructed ++
          [(Int.tdiv gen.fNuDEX_ZA 1000, Int.tmod gen.fNuDEX_ZA 1000)]
        nudexInitCalls := w.nudexInitCalls ++
          [PrimaryGeneratorAction.resolveLibDir env gen.fNuDEXLibDir]
        cerr := w.cerr ++ ["ERROR: NuDEX initialization failed"] }
    refine ⟨h1, ?_, ?_, ?_⟩
    · rw [h2, List.replicate_succ, List.append_assoc, List.singleton_append]
    · rw [h3, List.replicate_succ, List.append_assoc, List.singleton_append]
    · rw [h4, List.replicate_succ]

/-- A run of `n` events with the configuration missing: the external generator is
never constructed or initialised, and no event receives a vertex. -/
theorem PrimaryGeneratorAction.generateEvents_config_missing (env : Toolkit)
    (gen : PrimaryGeneratorAction)
    (hmode : gen.fSourceMode = SourceMode.NUDEX_CAPTURE) (hnone : gen.fNuDEX = none)
    (hbad : gen.fNuDEX_ZA ≤ 0 ∨ gen.fNuDEXLibDir = "")
    (n : Nat) (w : Session) :
    (PrimaryGeneratorAction.generateEvents env n gen w).1 = gen ∧
    (PrimaryGeneratorAction.generateEvents env n gen w).2.1.nudexInitCalls =
      w.nudexInitCalls ∧
    (PrimaryGeneratorAction.generateEvents env n gen w).2.1.cerr =
      w.cerr ++ List.replicate n "ERROR: NuDEX configuration missing (ZA/libdir)." ∧
    (PrimaryGeneratorAction.generateEvents env n gen w).2.2 = List.replicate n [] := by
  induction n generalizing w with
  | zero => simp [PrimaryGeneratorAction.generateEvents]
  | succ n ih =>
    rw [PrimaryGeneratorAction.generateEvents_succ,
      PrimaryGeneratorAction.GeneratePrimaries_config_missing env gen _ hmode hnone hbad]
    obtain ⟨h1, h2, h3, h4⟩ := ih
      { w with
        event := []
        cerr := w.cerr ++ ["ERROR: NuDEX configuration missing (ZA/libdir)."] }
    refine ⟨h1, h2, ?_, ?_⟩
    · rw [h3, List.replicate_succ, List.append_assoc, List.singleton_append]
    · rw [h4, List.replicate_succ]

theorem threadsValue_pos (lib : CRuntime) (hhw : 1 ≤ lib.hardware_concurrency)
    (threadArg : String) : 1 ≤ threadsValue lib threadArg := by
  unfold threadsValue
  split_ifs with h
  · exact_mod_cast hhw
  · cases lib.readInt threadArg with
    | none => simp
    | some v =>
      simp only []
      split_ifs with hv
      · exact le_refl 1
      · exact not_lt.1 hv

theorem optionStep_nThreads (lib : CRuntime)
    (arg : String) (rest : List String) (o o₁ : Options) (consumed : Nat)
    (h : optionStep lib arg rest o = Except.ok (consumed, o₁)) :
    o₁.nThreads = o.nThreads ∨ ∃ t, o₁.nThreads = threadsValue lib t := by
  unfold optionStep at h
  by_cases c1 : arg = "-h" ∨ arg = "--help"
  · rw [if_pos c1] at h; cases h
  rw [if_neg c1] at h
  by_cases c2 : arg = "-quiet" ∨ arg = "-q"
  · rw [if_pos c2] at h; cases h; exact Or.inl rfl
  rw [if_neg c2] at h
  by_cases c3 : arg = "-coin"
  · rw [if_pos c3] at h; cases h; exact Or.inl rfl
  rw [if_neg c3] at h
  by_cases c4 : arg = "-single"
  · rw [if_pos c4] at h; cases h; exact Or.inl rfl
  rw [if_neg c4] at h
  by_cases c5 : arg = "-nudex-libdir"
  · rw [if_pos c5] at h
    cases rest with
    | nil => cases h
    | cons path t => cases h; exact Or.inl rfl
  rw [if_neg c5] at h
  by_cases c6 : arg = "-nudex"
  · rw [if_pos c6] at h
    cases rest with
    | nil => cases h; exact Or.inl rfl
    | cons a₁ t =>
      cases t with
      | nil =>
        simp only [] at h
        generalize parseInt lib a₁ = p₁ at h
        cases p₁ with
        | none => cases h; exact Or.inl rfl
        | some z =>
          simp only [] at h
          by_cases hz : z > 0
          · rw [if_pos hz] at h; cases h; exact Or.inl rfl
          · rw [if_neg hz] at h; cases h; exact Or.inl rfl
      | cons a₂ t₂ =>
        simp only [] at h
        generalize parseInt lib a₁ = p₁ at h
        generalize parseInt lib a₂ = p₂ at h
        cases p₁ with
        | none => cases h; exact Or.inl rfl
        | some z =>
          cases p₂ with
          | none =>
            simp only [] at h
            by_cases hz : z > 0
            · rw [if_pos hz] at h; cases h; exact Or.inl rfl
            · rw [if_neg hz] at h; cases h; exact Or.inl rfl
          | some a =>
            simp only [] at h
            by_cases hza : z > 0 ∧ a > 0
            · rw [if_pos hza] at h; cases h; exact Or.inl rfl
            · rw [if_neg hza] at h
              by_cases hz : z > 0
              · rw [if_pos hz] at h; cases h; exact Or.inl rfl
              · rw [if_neg hz] at h; cases h; exact Or.inl rfl
  rw [if_neg c6] at h
  by_cases c7 : arg = "-angle"
  · rw [if_pos c7] at h
    cases rest with
    | nil => cases h; exact Or.inl rfl
    | cons value t =>
      simp only [] at h
      generalize lib.readDouble value = r at h
      cases r with
      | none => cases h; exact Or.inl rfl
      | some angle => cases h; exact Or.inl rfl
  rw [if_neg c7] at h
  by_cases c8 : arg = "-threads"
  · rw [if_pos c8] at h
    cases rest with
    | nil => cases h; exact Or.inl rfl
    | cons threadArg t => cases h; exact Or.inr ⟨threadArg, rfl⟩
  rw [if_neg c8] at h
  by_cases c9 : ".mac".toList <:+: arg.toList
  · rw [if_pos c9] at h; cases h; exact Or.inl rfl
  rw [if_neg c9] at h
  by_cases c10 : o.macroFile = ""
  · rw [if_pos c10] at h; cases h; exact Or.inl rfl
  rw [if_neg c10] at h
  cases h
  exact Or.inl rfl

theorem optionStep_nThreads_pos (lib : CRuntime) (hhw : 1 ≤ lib.hardware_concurrency)
    (arg : String) (rest : List String) (o o₁ : Options) (consumed : Nat)
    (h : optionStep lib arg rest o = Except.ok (consumed, o₁)) (hpos : 1 ≤ o.nThreads) :
    1 ≤ o₁.nThreads := by
  rcases optionStep_nThreads lib arg rest o o₁ consumed h with h' | ⟨t, h'⟩
  · rw [h']; exact hpos
  · rw [h']; exact threadsValue_pos lib hhw t

theorem parseArgs_nil (lib : CRuntime) (o : Options) : parseArgs lib [] o = Except.ok o := by
  rw [parseArgs]

theorem parseArgs_cons (lib : CRuntime) (arg : String) (rest : List String) (o : Options) :
    parseArgs lib (arg :: rest) o =
      match optionStep lib arg rest o with
      | Except.error code => Except.error code
      | Except.ok (consumed, o₁) => parseArgs lib (rest.drop consumed) o₁ := by
  rw [parseArgs]

theorem parseArgs_nThreads_pos (lib : CRuntime) (hhw : 1 ≤ lib.hardware_concurrency)
    (args : List String) (o : Options) :
    ∀ o', parseArgs lib args o = Except.ok o' → 1 ≤ o.nThreads → 1 ≤ o'.nThreads := by
  induction args, o using parseArgs.induct lib with
  | case1 o =>
    intro o' h hpos
    rw [parseArgs_nil] at h
    cases h
    exact hpos
  | case2 arg rest o code hstep =>
    intro o' h hpos
    rw [parseArgs_cons, hstep] at h
    cases h
  | case3 arg rest o consumed o₁ hstep ih =>
    intro o' h hpos
    rw [parseArgs_cons, hstep] at h
    exact ih o' h (optionStep_nThreads_pos lib hhw arg rest o o₁ consumed hstep hpos)

theorem optionStep_nudex_libdir_last (lib : CRuntime) (o : Options) :
    optionStep lib "-nudex-libdir" [] o = Except.error 1 := by
  unfold optionStep
  rw [if_neg (by decide), if_neg (by decide), if_neg (by decide), if_neg (by decide),
    if_pos rfl]

theorem optionStep_nudex_libdir_path (lib : CRuntime) (o : Options) (path : String)
    (rest : List String) :
    optionStep lib "-nudex-libdir" (path :: rest) o =
      Except.ok (1, { o with nudexLibDir := path }) := by
  unfold optionStep
  rw [if_neg (by decide), if_neg (by decide), if_neg (by decide), if_neg (by decide),
    if_pos rfl]

theorem optionStep_angle_last (lib : CRuntime) (o : Options) :
    optionStep lib "-angle" [] o = Except.ok (0, o) := by
  unfold optionStep
  rw [if_neg (by decide), if_neg (by decide), if_neg (by decide), if_neg (by decide),
    if_neg (by decide), if_neg (by decide), if_pos rfl]

theorem optionStep_threads_last (lib : CRuntime) (o : Options) :
    optionStep lib "-threads" [] o = Except.ok (0, o) := by
  unfold optionStep
  rw [if_neg (by decide), if_neg (by decide), if_neg (by decide), if_neg (by decide),
    if_neg (by decide), if_neg (by decide), if_neg (by decide), if_pos rfl]

theorem optionStep_threads_value (lib : CRuntime) (o : Options) (threadArg : String)
    (rest : List String) :
    optionStep lib "-threads" (threadArg :: rest) o =
      Except.ok (1, { o with nThreads := threadsValue lib threadArg }) := by
  unfold optionStep
  rw [if_neg (by decide), if_neg (by decide), if_neg (by decide), if_neg (by decide),
    if_neg (by decide), if_neg (by decide), if_neg (by decide), if_pos rfl]

theorem optionStep_nudex_last (lib : CRuntime) (o : Options) :
    optionStep lib "-nudex" [] o =
      Except.ok (0, { o with sourceMode := SourceMode.NUDEX_CAPTURE }) := by
  unfold optionStep
  rw [if_neg (by decide), if_neg (by decide), if_neg (by decide), if_neg (by decide),
    if_neg (by decide), if_pos rfl]

theorem optionStep_nudex_no_number (lib : CRuntime) (o : Options) (a₁ a₂ : String)
    (rest : List String) (h : parseInt lib a₁ = none) :
    optionStep lib "-nudex" (a₁ :: a₂ :: rest) o =
      Except.ok (0, { o with sourceMode := SourceMode.NUDEX_CAPTURE }) := by
  unfold optionStep
  rw [if_neg (by decide), if_neg (by decide), if_neg (by decide), if_neg (by decide),
    if_neg (by decide), if_pos rfl]
  simp only [h]

theorem parseArgs_step_ok (lib : CRuntime) (arg : String) (rest : List String)
    (o o₁ : Options) (consumed : Nat)
    (h : optionStep lib arg rest o = Except.ok (consumed, o₁)) :
    parseArgs lib (arg :: rest) o = parseArgs lib (rest.drop consumed) o₁ := by
  rw [parseArgs_cons, h]

theorem parseArgs_step_error (lib : CRuntime) (arg : String) (rest : List String)
    (o : Options) (code : Int) (h : optionStep lib arg rest o = Except.error code) :
    parseArgs lib (arg :: rest) o = Except.error code := by
  rw [parseArgs_cons, h]

theorem parseArgsCout_nil (lib : CRuntime) (o : Options) : parseArgsCout lib [] o = [] := by
  rw [parseArgsCout]

theorem parseArgsCout_cons (lib : CRuntime) (arg : String) (rest : List String)
    (o : Options) :
    parseArgsCout lib (arg :: rest) o =
      optionStepCout lib arg rest o ++
        match optionStep lib arg rest o with
        | Except.error _ => []
        | Except.ok (consumed, o₁) => parseArgsCout lib (rest.drop consumed) o₁ := by
  rw [parseArgsCout]

theorem parseArgsCout_step_error (lib : CRuntime) (arg : String) (rest : List String)
    (o : Options) (code : Int) (h : optionStep lib arg rest o = Except.error code) :
    parseArgsCout lib (arg :: rest) o = optionStepCout lib arg rest o := by
  rw [parseArgsCout_cons, h]
  exact List.append_nil _

theorem parseArgsCout_step_ok (lib : CRuntime) (arg : String) (rest : List String)
    (o o₁ : Options) (consumed : Nat)
    (h : optionStep lib arg rest o = Except.ok (consumed, o₁)) :
    parseArgsCout lib (arg :: rest) o =
      optionStepCout lib arg rest o ++ parseArgsCout lib (rest.drop consumed) o₁ := by
  rw [parseArgsCout_cons, h]

theorem optionStepCout_nudex_libdir_last (lib : CRuntime) (o : Options) :
    optionStepCout lib "-nudex-libdir" [] o =
      if o.quietMode = true then [] else ["Error: -nudex-libdir requires a path argument"] := by
  unfold optionStepCout
  rw [if_neg (by decide), if_neg (by decide), if_neg (by decide), if_neg (by decide),
    if_pos rfl]
  by_cases hq : o.quietMode = true
  · simp [hq]
  · simp [hq]

theorem optionStepCout_quiet (lib : CRuntime) (rest : List String) (o : Options) :
    optionStepCout lib "-quiet" rest o = [] := by
  unfold optionStepCout
  rw [if_neg (by decide), if_pos (Or.inl rfl)]

theorem optionStep_quiet (lib : CRuntime) (rest : List String) (o : Options) :
    optionStep lib "-quiet" rest o = Except.ok (0, { o with quietMode := true }) := by
  unfold optionStep
  rw [if_neg (by decide), if_pos (Or.inl rfl)]

theorem optionStepCout_angle_last (lib : CRuntime) (o : Options) :
    optionStepCout lib "-angle" [] o = [] := by
  unfold optionStepCout
  rw [if_neg (by decide), if_neg (by decide), if_neg (by decide), if_neg (by decide),
    if_neg (by decide), if_neg (by decide), if_pos rfl]

theorem optionStepCout_threads_last (lib : CRuntime) (o : Options) :
    optionStepCout lib "-threads" [] o = [] := by
  unfold optionStepCout
  rw [if_neg (by decide), if_neg (by decide), if_neg (by decide), if_neg (by decide),
    if_neg (by decide), if_neg (by decide), if_neg (by decide), if_pos rfl]

/-- What `main` sets up from the variables left by the option loop. -/
theorem main_of_parseArgs (lib : CRuntime) (argv : List String) (setup : Setup)
    (hmain : main lib argv = Except.ok setup) :
    ∃ o, parseArgs lib argv.tail Options.initial = Except.ok o ∧
      setup.options.sourceMode = o.sourceMode ∧
      setup.options.nThreads =
        (if o.sourceMode = SourceMode.NUDEX_CAPTURE ∧ o.nThreads > 1 then 1 else o.nThreads) ∧
      setup.runManager =
        (if setup.options.nThreads > 1 then RunManager.G4MTRunManager setup.options.nThreads
        else RunManager.G4RunManager) := by
  unfold main at hmain
  cases hp : parseArgs lib argv.tail Options.initial with
  | error code =>
    rw [hp] at hmain
    cases hmain
  | ok o =>
    rw [hp] at hmain
    simp only [Except.ok.injEq] at hmain
    subst hmain
    exact ⟨o, rfl, rfl, rfl, rfl⟩

theorem RunAction.rmsDet1_nonneg (sqrt : ℚ → ℚ) (ra : RunAction)
    (hsqrt : ∀ x : ℚ, 0 < x → 0 ≤ sqrt x) : 0 ≤ ra.rmsDet1 sqrt := by
  unfold RunAction.rmsDet1
  by_cases hn : ra.fEventCountDet1 > 0
  · simp only [if_pos hn]
    by_cases hr : ra.fEnergyDepositDet1 * ra.fEnergyDepositDet1 -
        ra.fEnergyDepositDet1 * ra.fEnergyDepositDet1 / (ra.fEventCountDet1 : ℚ) > 0
    · rw [if_pos hr]; exact hsqrt _ hr
    · rw [if_neg hr]
      have h1 : (1 : ℚ) ≤ (ra.fEventCountDet1 : ℚ) := by exact_mod_cast hn
      have hsq : 0 ≤ ra.fEnergyDepositDet1 * ra.fEnergyDepositDet1 := mul_self_nonneg _
      exact sub_nonneg.2 (div_le_self hsq h1)
  · simp only [if_neg hn, le_refl]

theorem RunAction.rmsDet2_nonneg (sqrt : ℚ → ℚ) (ra : RunAction)
    (hsqrt : ∀ x : ℚ, 0 < x → 0 ≤ sqrt x) : 0 ≤ ra.rmsDet2 sqrt := by
  unfold RunAction.rmsDet2
  by_cases hn : ra.fEventCountDet2 > 0
  · simp only [if_pos hn]
    by_cases hr : ra.fEnergyDepositDet2 * ra.fEnergyDepositDet2 -
        ra.fEnergyDepositDet2 * ra.fEnergyDepositDet2 / (ra.fEventCountDet2 : ℚ) > 0
    · rw [if_pos hr]; exact hsqrt _ hr
    · rw [if_neg hr]
      have h1 : (1 : ℚ) ≤ (ra.fEventCountDet2 : ℚ) := by exact_mod_cast hn
      have hsq : 0 ≤ ra.fEnergyDepositDet2 * ra.fEnergyDepositDet2 := mul_self_nonneg _
      exact sub_nonneg.2 (div_le_self hsq h1)
  · simp only [if_neg hn, le_refl]

/-- With `sqrt 0 = 0`, the value computed for a positive count is the square root
of the proxy clamped at 0: the proxy `S*S - S*S/n` is never negative. -/
theorem RunAction.rmsDet1_eq_sqrt_max (sqrt : ℚ → ℚ) (ra : RunAction) (h0 : sqrt 0 = 0)
    (hn : 0 < ra.fEventCountDet1) :
    ra.rmsDet1 sqrt =
      sqrt (max 0 (ra.fEnergyDepositDet1 * ra.fEnergyDepositDet1 -
        ra.fEnergyDepositDet1 * ra.fEnergyDepositDet1 / (ra.fEventCountDet1 : ℚ))) := by
  have h1 : (1 : ℚ) ≤ (ra.fEventCountDet1 : ℚ) := by exact_mod_cast hn
  have hsq : 0 ≤ ra.fEnergyDepositDet1 * ra.fEnergyDepositDet1 := mul_self_nonneg _
  have hge : 0 ≤ ra.fEnergyDepositDet1 * ra.fEnergyDepositDet1 -
      ra.fEnergyDepositDet1 * ra.fEnergyDepositDet1 / (ra.fEventCountDet1 : ℚ) :=
    sub_nonneg.2 (div_le_self hsq h1)
  unfold RunAction.rmsDet1
  simp only [if_pos (show ra.fEventCountDet1 > 0 from hn), max_eq_right hge]
  by_cases hr : ra.fEnergyDepositDet1 * ra.fEnergyDepositDet1 -
      ra.fEnergyDepositDet1 * ra.fEnergyDepositDet1 / (ra.fEventCountDet1 : ℚ) > 0
  · rw [if_pos hr]
  · rw [if_neg hr]
    have hz : ra.fEnergyDepositDet1 * ra.fEnergyDepositDet1 -
        ra.fEnergyDepositDet1 * ra.fEnergyDepositDet1 / (ra.fEventCountDet1 : ℚ) = 0 :=
      le_antisymm (not_lt.1 hr) hge
    rw [hz, h0]

theorem RunAction.rmsDet2_eq_sqrt_max (sqrt : ℚ → ℚ) (ra : RunAction) (h0 : sqrt 0 = 0)
    (hn : 0 < ra.fEventCountDet2) :
    ra.rmsDet2 sqrt =
      sqrt (max 0 (ra.fEnergyDepositDet2 * ra.fEnergyDepositDet2 -
        ra.fEnergyDepositDet2 * ra.fEnergyDepositDet2 / (ra.fEventCountDet2 : ℚ))) := by
  have h1 : (1 : ℚ) ≤ (ra.fEventCountDet2 : ℚ) := by exact_mod_cast hn
  have hsq : 0 ≤ ra.fEnergyDepositDet2 * ra.fEnergyDepositDet2 := mul_self_nonneg _
  have hge : 0 ≤ ra.fEnergyDepositDet2 * ra.fEnergyDepositDet2 -
      ra.fEnergyDepositDet2 * ra.fEnergyDepositDet2 / (ra.fEventCountDet2 : ℚ) :=
    sub_nonneg.2 (div_le_self hsq h1)
  unfold RunAction.rmsDet2
  simp only [if_pos (show ra.fEventCountDet2 > 0 from hn), max_eq_right hge]
  by_cases hr : ra.fEnergyDepositDet2 * ra.fEnergyDepositDet2 -
      ra.fEnergyDepositDet2 * ra.fEnergyDepositDet2 / (ra.fEventCountDet2 : ℚ) > 0
  · rw [if_pos hr]
  · rw [if_neg hr]
    have hz : ra.fEnergyDepositDet2 * ra.fEnergyDepositDet2 -
        ra.fEnergyDepositDet2 * ra.fEnergyDepositDet2 / (ra.fEventCountDet2 : ℚ) = 0 :=
      le_antisymm (not_lt.1 hr) hge
    rw [hz, h0]

theorem floorSqrt_nonneg (x : ℚ) : 0 ≤ floorSqrt x := by
  unfold floorSqrt
  exact Nat.cast_nonneg _

theorem PrimaryGeneratorAction.SampleDirection_eq_directionFrom (env : Toolkit)
    (w : Session) :
    (PrimaryGeneratorAction.SampleDirection env w).1 =
      PrimaryGeneratorAction.directionFrom env.sqrt env.cos env.sin env.twopi
        (env.G4UniformRand w.randomDraws) (env.G4UniformRand (w.randomDraws + 1)) := rfl

/-- With the configuration present, a call constructs the nucleus decoded from ZA
and invokes `Init` with the resolved directory. -/
theorem PrimaryGeneratorAction.GeneratePrimaries_constructs (env : Toolkit)
    (gen : PrimaryGeneratorAction) (w : Session)
    (hmode : gen.fSourceMode = SourceMode.NUDEX_CAPTURE) (hnone : gen.fNuDEX = none)
    (hza : 0 < gen.fNuDEX_ZA) (hdir : gen.fNuDEXLibDir ≠ "") :
    (w.nudexConstructed ++ [(Int.tdiv gen.fNuDEX_ZA 1000, Int.tmod gen.fNuDEX_ZA 1000)]) <+:
      (gen.GeneratePrimaries env w).2.nudexConstructed ∧
    (w.nudexInitCalls ++ [PrimaryGeneratorAction.resolveLibDir env gen.fNuDEXLibDir]) <+:
      (gen.GeneratePrimaries env w).2.nudexInitCalls := by
  have hcfg : ¬ (gen.fNuDEX_ZA ≤ 0 ∨ gen.fNuDEXLibDir = "") := by
    rintro (h | h)
    · exact absurd hza (not_lt.2 h)
    · exact hdir h
  by_cases hinit : env.nudexInit (Int.tdiv gen.fNuDEX_ZA 1000) (Int.tmod gen.fNuDEX_ZA 1000)
      (PrimaryGeneratorAction.resolveLibDir env gen.fNuDEXLibDir) < 0
  · rw [PrimaryGeneratorAction.GeneratePrimaries_init_fails env gen w hmode hnone hcfg hinit]
    exact ⟨List.prefix_refl _, List.prefix_refl _⟩
  · rw [PrimaryGeneratorAction.GeneratePrimaries_nudex env gen w hmode]
    unfold PrimaryGeneratorAction.GenerateNuDEXCascade
    rw [hnone]
    simp only [if_neg hcfg, if_neg hinit]
    exact PrimaryGeneratorAction.logs_emitCascade env _ _
      { w with
        nudexConstructed := w.nudexConstructed ++
          [(Int.tdiv gen.fNuDEX_ZA 1000, Int.tmod gen.fNuDEX_ZA 1000)]
        nudexInitCalls := w.nudexInitCalls ++
          [PrimaryGeneratorAction.resolveLibDir env gen.fNuDEXLibDir] }

theorem decode_encode_ZA (Z A : Int) (hZ : 0 < Z) (hA : 0 < A) (hA' : A < 1000) :
    Int.tdiv (1000 * Z + A) 1000 = Z ∧ Int.tmod (1000 * Z + A) 1000 = A := by
  have h0 : (0 : Int) ≤ 1000 * Z + A := by omega
  rw [Int.tdiv_eq_ediv h0 (by decide), Int.tmod_eq_emod h0 (by decide)]
  omega

theorem toInt32_of_fits (v : Int) (h : -2147483648 ≤ v ∧ v ≤ 2147483647) : toInt32 v = v := by
  unfold toInt32
  omega

theorem toInt32_mul_add (z a : Int) : toInt32 (toInt32 (z * 1000) + a) = toInt32 (1000 * z + a) := by
  unfold toInt32
  omega

/-- The option step for `-nudex` follows the rule with every number held in an
`int`. -/
theorem optionStep_nudex_eq_ruleInt (lib : CRuntime) (rest : List String) (o : Options) :
    optionStep lib "-nudex" rest o = Except.ok (nudexRuleInt lib rest o) := by
  unfold optionStep nudexRuleInt
  rw [if_neg (by decide), if_neg (by decide), if_neg (by decide), if_neg (by decide),
    if_neg (by decide), if_pos rfl]
  cases rest with
  | nil => rfl
  | cons a₁ t =>
    cases t with
    | nil =>
      simp only [List.head?, List.tail, positiveIntArg]
      generalize parseInt lib a₁ = p₁
      cases p₁ with
      | none => rfl
      | some z =>
        simp only []
        by_cases hz : z > 0
        · rw [if_pos hz, if_pos hz]
        · rw [if_neg hz, if_neg hz]
    | cons a₂ t₂ =>
      simp only [List.head?, List.tail, positiveIntArg]
      generalize parseInt lib a₁ = p₁
      generalize parseInt lib a₂ = p₂
      cases p₁ with
      | none => rfl
      | some z =>
        cases p₂ with
        | none =>
          simp only []
          by_cases hz : z > 0
          · rw [if_pos hz, if_pos hz]
          · rw [if_neg hz, if_neg hz]
        | some a =>
          simp only []
          by_cases hz : z > 0
          · by_cases ha : a > 0
            · rw [if_pos (And.intro hz ha), if_pos hz, if_pos ha]
              simp only [toInt32_mul_add]
            · rw [if_neg (fun h : z > 0 ∧ a > 0 => ha h.2), if_pos hz, if_pos hz, if_neg ha]
          · rw [if_neg (fun h : z > 0 ∧ a > 0 => hz h.1), if_neg hz, if_neg hz]

/-- An argument whose value fits an `int` has that value as an `int`. -/
theorem positiveIntArg_eq_positiveArg (lib : CRuntime) (arg : Option String)
    (hfit : ∀ str v, arg = some str → lib.strtol str = some v →
      -2147483648 ≤ v ∧ v ≤ 2147483647) :
    positiveIntArg lib arg = positiveArg lib arg := by
  cases arg with
  | none => rfl
  | some str =>
    unfold positiveIntArg positiveArg integerArg parseInt
    by_cases hs : str = ""
    · simp only [if_pos hs]
    · simp only [if_neg hs]
      cases hv : lib.strtol str with
      | none => rfl
      | some v =>
        simp only [Option.map_some']
        rw [toInt32_of_fits v (hfit str v rfl hv)]

/-- When every number fits an `int`, the rule with `int` values is the rule of
the specification. -/
theorem nudexRuleInt_eq_nudexRule (lib : CRuntime) (rest : List String) (o : Options)
    (hfit : ∀ str v, str ∈ rest.take 2 → lib.strtol str = some v →
      -2147483648 ≤ v ∧ v ≤ 2147483647)
    (hza : ∀ z a, positiveArg lib rest.head? = some z →
      positiveArg lib rest.tail.head? = some a → 1000 * z + a ≤ 2147483647) :
    nudexRuleInt lib rest o = nudexRule lib rest o := by
  have h₁ : positiveIntArg lib rest.head? = positiveArg lib rest.head? := by
    apply positiveIntArg_eq_positiveArg
    intro str v hstr hv
    refine hfit str v ?_ hv
    cases rest with
    | nil => cases hstr
    | cons a t =>
      simp only [List.head?, Option.some.injEq] at hstr
      subst hstr
      cases t <;> simp [List.take]
  have h₂ : positiveIntArg lib rest.tail.head? = positiveArg lib rest.tail.head? := by
    apply positiveIntArg_eq_positiveArg
    intro str v hstr hv
    refine hfit str v ?_ hv
    cases rest with
    | nil => cases hstr
    | cons a t =>
      cases t with
      | nil => cases hstr
      | cons a₂ t₂ =>
        simp only [List.tail, List.head?, Option.some.injEq] at hstr
        subst hstr
        simp [List.take]
  unfold nudexRuleInt nudexRule
  rw [h₁, h₂]
  cases hz : positiveArg lib rest.head? with
  | none => rfl
  | some z =>
    cases ha : positiveArg lib rest.tail.head? with
    | none => rfl
    | some a =>
      have hzpos : 0 < z := by
        unfold positiveArg at hz
        cases hi : integerArg lib rest.head? with
        | none => rw [hi] at hz; cases hz
        | some v =>
          rw [hi] at hz
          simp only [] at hz
          by_cases hv : v > 0
          · rw [if_pos hv] at hz; cases hz; exact hv
          · rw [if_neg hv] at hz; cases hz
      have hapos : 0 < a := by
        unfold positiveArg at ha
        cases hi : integerArg lib rest.tail.head? with
        | none => rw [hi] at ha; cases ha
        | some v =>
          rw [hi] at ha
          simp only [] at ha
          by_cases hv : v > 0
          · rw [if_pos hv] at ha; cases ha; exact hv
          · rw [if_neg hv] at ha; cases ha
      have := hza z a hz ha
      simp only []
      rw [toInt32_of_fits (1000 * z + a) ⟨by omega, this⟩]

theorem PrimaryGeneratorAction.resolveLibDir_eq (env : Toolkit) (d : String) :
    PrimaryGeneratorAction.resolveLibDir env d =
      match (libDirCandidates d).find?
        (fun c => env.fileGood (c ++ "GeneralStatNuclParameters.dat")) with
      | some c => c
      | none => d := by
  unfold PrimaryGeneratorAction.resolveLibDir
  simp only []
  change (if (match (libDirCandidates d).find?
        (fun c => env.fileGood (c ++ "GeneralStatNuclParameters.dat")) with
      | some c => c
      | none => "") = "" then d
    else (match (libDirCandidates d).find?
        (fun c => env.fileGood (c ++ "GeneralStatNuclParameters.dat")) with
      | some c => c
      | none => "")) = _
  cases hf : (libDirCandidates d).find?
      (fun c => env.fileGood (c ++ "GeneralStatNuclParameters.dat")) with
  | none => simp
  | some c =>
    simp only []
    by_cases hc : c = ""
    · rw [if_pos hc]
      have hmem : c ∈ libDirCandidates d := List.mem_of_find?_eq_some hf
      simp only [libDirCandidates, List.mem_cons, List.mem_singleton, List.not_mem_nil,
        or_false] at hmem
      rcases hmem with h | h | h | h | h
      · exact h.symm
      · rw [hc] at h; exact absurd h (by decide)
      · rw [hc] at h; exact absurd h (by decide)
      · rw [hc] at h; exact absurd h (by decide)
      · rw [hc] at h; exact absurd h (by decide)
    · rw [if_neg hc]

theorem RunAction.totals_foldl_AddEnergyDepositDet1 (calls : List ℚ) (ra : RunAction) :
    (calls.foldl RunAction.AddEnergyDepositDet1 ra).fEnergyDepositDet1 =
        ra.fEnergyDepositDet1 + calls.sum ∧
      (calls.foldl RunAction.AddEnergyDepositDet1 ra).fEventCountDet1 =
        ra.fEventCountDet1 + ((calls.filter (fun e => decide (e > 0))).length : Int) ∧
      (calls.foldl RunAction.AddEnergyDepositDet1 ra).fEnergyDepositDet2 =
        ra.fEnergyDepositDet2 ∧
      (calls.foldl RunAction.AddEnergyDepositDet1 ra).fEventCountDet2 = ra.fEventCountDet2 := by
  induction calls generalizing ra with
  | nil => simp
  | cons e t ih =>
    obtain ⟨a1, a2, a3, a4⟩ := RunAction.fields_AddEnergyDepositDet1 ra e
    obtain ⟨i1, i2, i3, i4⟩ := ih (ra.AddEnergyDepositDet1 e)
    rw [List.foldl_cons, i1, i2, i3, i4, a1, a2, a3, a4, List.sum_cons, List.filter_cons]
    refine ⟨by ring, ?_, rfl, rfl⟩
    by_cases he : e > 0
    · simp only [he, if_true, decide_True, List.length_cons]
      push_cast
      ring
    · simp only [he, if_false, decide_False, add_zero]
      simp

theorem RunAction.totals_foldl_AddEnergyDepositDet2 (calls : List ℚ) (ra : RunAction) :
    (calls.foldl RunAction.AddEnergyDepositDet2 ra).fEnergyDepositDet2 =
        ra.fEnergyDepositDet2 + calls.sum ∧
      (calls.foldl RunAction.AddEnergyDepositDet2 ra).fEventCountDet2 =
        ra.fEventCountDet2 + ((calls.filter (fun e => decide (e > 0))).length : Int) ∧
      (calls.foldl RunAction.AddEnergyDepositDet2 ra).fEnergyDepositDet1 =
        ra.fEnergyDepositDet1 ∧
      (calls.foldl RunAction.AddEnergyDepositDet2 ra).fEventCountDet1 = ra.fEventCountDet1 := by
  induction calls generalizing ra with
  | nil => simp
  | cons e t ih =>
    obtain ⟨a1, a2, a3, a4⟩ := RunAction.fields_AddEnergyDepositDet2 ra e
    obtain ⟨i1, i2, i3, i4⟩ := ih (ra.AddEnergyDepositDet2 e)
    rw [List.foldl_cons, i1, i2, i3, i4, a1, a2, a3, a4, List.sum_cons, List.filter_cons]
    refine ⟨by ring, ?_, rfl, rfl⟩
    by_cases he : e > 0
    · simp only [he, if_true, decide_True, List.length_cons]
      push_cast
      ring
    · simp only [he, if_false, decide_False, add_zero]
      simp

theorem Entries.inRange_addAt (k v : Int) (l : Entries) (hl : l.InRange)
    (hk0 : 0 ≤ k) (hk1 : k < 10000) (hv : 0 < v) : (Entries.addAt k v l).InRange := by
  induction l with
  | nil =>
    intro x hx
    simp only [Entries.addAt, List.mem_singleton] at hx
    rw [hx]
    exact ⟨hk0, hk1, by simpa using hv⟩
  | cons hd t ih =>
    obtain ⟨k', v'⟩ := hd
    have hhd : 0 ≤ k' ∧ k' < 10000 ∧ 0 < v' := hl (k', v') (List.mem_cons_self _ _)
    have ht : Entries.InRange t := fun x hx => hl x (List.mem_cons_of_mem _ hx)
    intro x hx
    simp only [Entries.addAt] at hx
    by_cases h1 : k < k'
    · rw [if_pos h1] at hx
      rcases List.mem_cons.1 hx with h | h
      · rw [h]; exact ⟨hk0, hk1, by simpa using hv⟩
      · exact hl x h
    · rw [if_neg h1] at hx
      by_cases h2 : k = k'
      · rw [if_pos h2] at hx
        rcases List.mem_cons.1 hx with h | h
        · rw [h]; exact ⟨hhd.1, hhd.2.1, add_pos hhd.2.2 hv⟩
        · exact ht x h
      · rw [if_neg h2] at hx
        rcases List.mem_cons.1 hx with h | h
        · rw [h]; exact hhd
        · exact ih ht x h

theorem Entries.inRange_mergeFrom (self other : Entries) (hs : self.InRange)
    (ho : other.InRange) : (Entries.mergeFrom self other).InRange := by
  unfold Entries.mergeFrom
  induction other generalizing self with
  | nil => exact hs
  | cons hd t ih =>
    have hhd := ho hd (List.mem_cons_self _ _)
    rw [List.foldl_cons]
    exact ih _ (Entries.inRange_addAt hd.1 hd.2 self hs hhd.1 hhd.2.1 hhd.2.2)
      (fun x hx => ho x (List.mem_cons_of_mem _ hx))

theorem Entries.total_addAt (k v : Int) (l : Entries) :
    Entries.total (Entries.addAt k v l) = Entries.total l + v := by
  induction l with
  | nil => simp [Entries.total, Entries.addAt]
  | cons hd t ih =>
    obtain ⟨k', v'⟩ := hd
    unfold Entries.total at ih ⊢
    simp only [Entries.addAt]
    by_cases h1 : k < k'
    · rw [if_pos h1]
      simp only [List.map_cons, List.sum_cons]
      ring
    · rw [if_neg h1]
      by_cases h2 : k = k'
      · rw [if_pos h2]
        simp only [List.map_cons, List.sum_cons]
        ring
      · rw [if_neg h2]
        simp only [List.map_cons, List.sum_cons]
        rw [ih]
        ring

theorem Entries.total_mergeFrom (self other : Entries) :
    Entries.total (Entries.mergeFrom self other) = Entries.total self + Entries.total other := by
  unfold Entries.mergeFrom
  induction other generalizing self with
  | nil => simp [Entries.total]
  | cons hd t ih =>
    rw [List.foldl_cons, ih, Entries.total_addAt]
    simp only [Entries.total, List.map_cons, List.sum_cons]
    ring

/-- The range guard of `AddEnergySpectrumDetN` holds exactly for energies in range. -/
theorem Run.guard_iff_energyInRange (e : ℚ) :
    (Run.EnergyToBin e ≥ 0 ∧ Run.EnergyToBin e < Run.fNbins) ↔ Run.energyInRange e = true := by
  unfold Run.energyInRange
  rw [Bool.and_eq_true, decide_eq_true_iff, decide_eq_true_iff]
  constructor
  · intro hg
    by_contra hne
    have hout : Run.energy_keV e < 0 ∨ 10000 ≤ Run.energy_keV e := by
      by_cases h0 : 0 ≤ Run.energy_keV e
      · right
        exact not_lt.1 (fun h1 => hne ⟨h0, h1⟩)
      · left
        exact not_le.1 h0
    rw [Run.EnergyToBin_dropped e hout] at hg
    exact absurd hg.1 (by decide)
  · rintro ⟨h0, h1⟩
    obtain ⟨hbin, hlo, hhi⟩ := Run.EnergyToBin_inRange e h0 h1
    rw [hbin]
    exact ⟨hlo, hhi⟩

/-- The invariants of reachable runs: keys in range with positive counts, the
sum of the counts is the number of in-range energies recorded, and the event
counter is the number of energies recorded. -/
theorem Run.Reachable.invariants (r : Run) (es₁ es₂ : List ℚ) (h : Run.Reachable r es₁ es₂) :
    r.fEnergyHistogramDet1.bins.InRange ∧ r.fEnergyHistogramDet2.bins.InRange ∧
    r.fEnergyHistogramDet1.total = ((es₁.filter Run.energyInRange).length : Int) ∧
    r.fEnergyHistogramDet2.total = ((es₂.filter Run.energyInRange).length : Int) ∧
    r.fTotalEventsDet1 = (es₁.length : Int) ∧ r.fTotalEventsDet2 = (es₂.length : Int) := by
  induction h with
  | fresh =>
    refine ⟨?_, ?_, rfl, rfl, rfl, rfl⟩
    · intro x hx; exact absurd hx (List.not_mem_nil x)
    · intro x hx; exact absurd hx (List.not_mem_nil x)
  | addDet1 r es₁ es₂ e _ ih =>
    obtain ⟨i1, i2, i3, i4, i5, i6⟩ := ih
    obtain ⟨hh1, hh2⟩ := Run.hist_AddEnergySpectrumDet1 r e
    obtain ⟨-, ht, -, ht'⟩ := Run.totals_AddEnergySpectrumDet1 r e
    rw [hh2, ht, ht', hh1]
    by_cases hg : Run.EnergyToBin e ≥ 0 ∧ Run.EnergyToBin e < Run.fNbins
    · have hin : Run.energyInRange e = true := (Run.guard_iff_energyInRange e).1 hg
      rw [if_pos hg]
      refine ⟨Entries.inRange_addAt _ _ _ i1 hg.1 hg.2 (by decide), i2, ?_, i4, ?_, i6⟩
      · unfold EnergyHistogram.total EnergyHistogram.addAt
        simp only []
        rw [Entries.total_addAt]
        unfold EnergyHistogram.total at i3
        rw [i3, List.filter_append, List.length_append, List.filter_cons, hin]
        simp
      · rw [i5, List.length_append]
        simp
    · have hin : ¬ Run.energyInRange e = true := fun hc => hg ((Run.guard_iff_energyInRange e).2 hc)
      rw [if_neg hg]
      refine ⟨i1, i2, ?_, i4, ?_, i6⟩
      · rw [i3, List.filter_append, List.length_append, List.filter_cons]
        simp [hin]
      · rw [i5, List.length_append]
        simp
  | addDet2 r es₁ es₂ e _ ih =>
    obtain ⟨i1, i2, i3, i4, i5, i6⟩ := ih
    obtain ⟨hh2, hh1⟩ := Run.hist_AddEnergySpectrumDet2 r e
    obtain ⟨-, ht, -, ht'⟩ := Run.totals_AddEnergySpectrumDet2 r e
    rw [hh1, ht, ht', hh2]
    by_cases hg : Run.EnergyToBin e ≥ 0 ∧ Run.EnergyToBin e < Run.fNbins
    · have hin : Run.energyInRange e = true := (Run.guard_iff_energyInRange e).1 hg
      rw [if_pos hg]
      refine ⟨i1, Entries.inRange_addAt _ _ _ i2 hg.1 hg.2 (by decide), i3, ?_, i5, ?_⟩
      · unfold EnergyHistogram.total EnergyHistogram.addAt
        simp only []
        rw [Entries.total_addAt]
        unfold EnergyHistogram.total at i4
        rw [i4, List.filter_append, List.length_append, List.filter_cons, hin]
        simp
      · rw [i6, List.length_append]
        simp
    · have hin : ¬ Run.energyInRange e = true := fun hc => hg ((Run.guard_iff_energyInRange e).2 hc)
      rw [if_neg hg]
      refine ⟨i1, i2, i3, ?_, i5, ?_⟩
      · rw [i4, List.filter_append, List.length_append, List.filter_cons]
        simp [hin]
      · rw [i6, List.length_append]
        simp
  | merge r r' es₁ es₂ es₁' es₂' _ _ ih ih' =>
    obtain ⟨i1, i2, i3, i4, i5, i6⟩ := ih
    obtain ⟨j1, j2, j3, j4, j5, j6⟩ := ih'
    unfold EnergyHistogram.total at i3 i4 j3 j4
    refine ⟨Entries.inRange_mergeFrom _ _ i1 j1, Entries.inRange_mergeFrom _ _ i2 j2, ?_, ?_,
      ?_, ?_⟩
    · show Entries.total (Entries.mergeFrom _ _) = _
      rw [Entries.total_mergeFrom, i3, j3, List.filter_append, List.length_append]
      push_cast
      rfl
    · show Entries.total (Entries.mergeFrom _ _) = _
      rw [Entries.total_mergeFrom, i4, j4, List.filter_append, List.length_append]
      push_cast
      rfl
    · show r.fTotalEventsDet1 + r'.fTotalEventsDet1 = _
      rw [i5, j5, List.length_append]
      push_cast
      rfl
    · show r.fTotalEventsDet2 + r'.fTotalEventsDet2 = _
      rw [i6, j6, List.length_append]
      push_cast
      rfl

theorem Entries.mem_of_find (b v : Int) (l : Entries) (h : Entries.find b l = some v) :
    (b, v) ∈ l := by
  induction l with
  | nil => simp [Entries.find] at h
  | cons hd t ih =>
    obtain ⟨k', v'⟩ := hd
    simp only [Entries.find] at h
    by_cases hb : b = k'
    · rw [if_pos hb] at h
      cases h
      rw [hb]
      exact List.mem_cons_self _ _
    · rw [if_neg hb] at h
      exact List.mem_cons_of_mem _ (ih h)

theorem EnergyHistogram.count_of_inRange (h : EnergyHistogram) (hin : h.bins.InRange)
    (b : Int) : 0 ≤ h.count b ∧ (h.count b ≠ 0 → 0 ≤ b ∧ b < 10000) := by
  unfold EnergyHistogram.count
  cases hf : Entries.find b h.bins with
  | none => simp
  | some v =>
    have hx := hin (b, v) (Entries.mem_of_find b v h.bins hf)
    simp only [Option.getD_some]
    exact ⟨le_of_lt hx.2.2, fun _ => ⟨hx.1, hx.2.1⟩⟩

theorem EventAction.fMinimumEnergy_deposits (ea : EventAction) (calls : List (ℚ × Int)) :
    (ea.deposits calls).fMinimumEnergy = ea.fMinimumEnergy := by
  unfold EventAction.deposits
  induction calls generalizing ea with
  | nil => rfl
  | cons c t ih =>
    rw [List.foldl_cons, ih]
    unfold EventAction.AddEnergyDeposit
    by_cases h1 : c.2 = 1
    · rw [if_pos h1]
    · rw [if_neg h1]
      by_cases h2 : c.2 = 2
      · rw [if_pos h2]
      · rw [if_neg h2]

/-- The two counters of each detector after `EndOfEventAction`. -/
theorem EventAction.counters_EndOfEventAction (ea : EventAction) (ctx : Context) (run : Run)
    (hrun : ctx.currentRun = some run) :
    ∃ run', (ea.EndOfEventAction ctx).currentRun = some run' ∧
      run'.fTotalEventsDet1 =
        run.fTotalEventsDet1 + (if ea.fEnergyDepositDet1 ≥ ea.fMinimumEnergy then 1 else 0) ∧
      run'.fTotalEventsDet2 =
        run.fTotalEventsDet2 + (if ea.fEnergyDepositDet2 ≥ ea.fMinimumEnergy then 1 else 0) ∧
      (ea.EndOfEventAction ctx).runAction.fEventCountDet1 =
        ctx.runAction.fEventCountDet1 + (if ea.fEnergyDepositDet1 > 0 then 1 else 0) ∧
      (ea.EndOfEventAction ctx).runAction.fEventCountDet2 =
        ctx.runAction.fEventCountDet2 + (if ea.fEnergyDepositDet2 > 0 then 1 else 0) := by
  refine ⟨_, EventAction.currentRun_EndOfEventAction ea ctx run hrun, ?_, ?_, ?_, ?_⟩
  · by_cases h2 : ea.fEnergyDepositDet2 ≥ ea.fMinimumEnergy
    · rw [if_pos h2, (Run.totals_AddEnergySpectrumDet2 _ _).2.2.2]
      by_cases h1 : ea.fEnergyDepositDet1 ≥ ea.fMinimumEnergy
      · rw [if_pos h1, if_pos h1, (Run.totals_AddEnergySpectrumDet1 _ _).2.1]
      · rw [if_neg h1, if_neg h1, add_zero]
    · rw [if_neg h2]
      by_cases h1 : ea.fEnergyDepositDet1 ≥ ea.fMinimumEnergy
      · rw [if_pos h1, if_pos h1, (Run.totals_AddEnergySpectrumDet1 _ _).2.1]
      · rw [if_neg h1, if_neg h1, add_zero]
  · by_cases h2 : ea.fEnergyDepositDet2 ≥ ea.fMinimumEnergy
    · rw [if_pos h2, if_pos h2, (Run.totals_AddEnergySpectrumDet2 _ _).2.1]
      by_cases h1 : ea.fEnergyDepositDet1 ≥ ea.fMinimumEnergy
      · rw [if_pos h1, (Run.totals_AddEnergySpectrumDet1 _ _).2.2.2]
      · rw [if_neg h1]
    · rw [if_neg h2, if_neg h2, add_zero]
      by_cases h1 : ea.fEnergyDepositDet1 ≥ ea.fMinimumEnergy
      · rw [if_pos h1, (Run.totals_AddEnergySpectrumDet1 _ _).2.2.2]
      · rw [if_neg h1]
  · rw [EventAction.runAction_EndOfEventAction,
      (RunAction.fields_AddEnergyDepositDet2 _ _).2.2.2,
      (RunAction.fields_AddEnergyDepositDet1 _ _).2.1]
  · rw [EventAction.runAction_EndOfEventAction,
      (RunAction.fields_AddEnergyDepositDet2 _ _).2.1,
      (RunAction.fields_AddEnergyDepositDet1 _ _).2.2.2]

theorem countEvents_cons (id : Int) (p : ℚ → Bool) (calls : List (ℚ × Int))
    (events : List (List (ℚ × Int))) :
    countEvents id p (calls :: events) =
      (if p (amountFor id calls) = true then 1 else 0) + countEvents id p events := by
  unfold countEvents
  rw [List.filter_cons]
  by_cases h : p (amountFor id calls) = true
  · rw [if_pos h, if_pos h, List.length_cons]
    push_cast
    ring
  · rw [if_neg h, if_neg h, zero_add]

/-- The counters after a sequence of events: the RunAction count grows by the
number of events with a positive total, the Run counter by the number of events
whose total meets the threshold. -/
theorem EventAction.counters_processEvents (events : List (List (ℚ × Int)))
    (ea : EventAction) (ctx : Context) (run : Run) (hrun : ctx.currentRun = some run) :
    ∃ run', (ea.processEvents ctx events).2.currentRun = some run' ∧
      run'.fTotalEventsDet1 = run.fTotalEventsDet1 +
        countEvents 1 (fun t => decide (t ≥ ea.fMinimumEnergy)) events ∧
      run'.fTotalEventsDet2 = run.fTotalEventsDet2 +
        countEvents 2 (fun t => decide (t ≥ ea.fMinimumEnergy)) events ∧
      (ea.processEvents ctx events).2.runAction.fEventCountDet1 =
        ctx.runAction.fEventCountDet1 + countEvents 1 (fun t => decide (t > 0)) events ∧
      (ea.processEvents ctx events).2.runAction.fEventCountDet2 =
        ctx.runAction.fEventCountDet2 + countEvents 2 (fun t => decide (t > 0)) events := by
  induction events generalizing ea ctx run with
  | nil =>
    exact ⟨run, hrun, by simp [countEvents], by simp [countEvents], by simp [countEvents,
      EventAction.processEvents], by simp [countEvents, EventAction.processEvents]⟩
  | cons calls t ih =>
    have hstep : ea.processEvents ctx (calls :: t) =
        (ea.BeginOfEventAction.deposits calls).processEvents
          ((ea.BeginOfEventAction.deposits calls).EndOfEventAction ctx) t := rfl
    have hthr : (ea.BeginOfEventAction.deposits calls).fMinimumEnergy = ea.fMinimumEnergy := by
      rw [EventAction.fMinimumEnergy_deposits]
      rfl
    obtain ⟨t1, t2⟩ := EventAction.totals_deposits ea.BeginOfEventAction calls
    have z1 : ea.BeginOfEventAction.fEnergyDepositDet1 = 0 := rfl
    have z2 : ea.BeginOfEventAction.fEnergyDepositDet2 = 0 := rfl
    rw [z1, zero_add] at t1
    rw [z2, zero_add] at t2
    obtain ⟨run₁, hcur, e1, e2, c1, c2⟩ :=
      EventAction.counters_EndOfEventAction (ea.BeginOfEventAction.deposits calls) ctx run hrun
    obtain ⟨run', hcur', f1, f2, d1, d2⟩ :=
      ih (ea.BeginOfEventAction.deposits calls) _ run₁ hcur
    rw [hthr] at f1 f2 e1 e2
    rw [t1] at e1 c1
    rw [t2] at e2 c2
    rw [hstep]
    refine ⟨run', hcur', ?_, ?_, ?_, ?_⟩
    · rw [f1, e1, countEvents_cons]
      simp only [decide_eq_true_eq]
      ring
    · rw [f2, e2, countEvents_cons]
      simp only [decide_eq_true_eq]
      ring
    · rw [d1, c1, countEvents_cons]
      simp only [decide_eq_true_eq]
      ring
    · rw [d2, c2, countEvents_cons]
      simp only [decide_eq_true_eq]
      ring

/-- With a positive threshold, the events with a positive total are those that
meet the threshold together with those strictly between 0 and the threshold. -/
theorem countEvents_split (id : Int) (thr : ℚ) (hthr : 0 < thr)
    (events : List (List (ℚ × Int))) :
    countEvents id (fun t => decide (t > 0)) events =
      countEvents id (fun t => decide (t ≥ thr)) events +
        countEvents id (fun t => decide (0 < t) && decide (t < thr)) events := by
  induction events with
  | nil => simp [countEvents]
  | cons calls t ih =>
    rw [countEvents_cons, countEvents_cons, countEvents_cons, ih]
    simp only [decide_eq_true_eq, Bool.and_eq_true]
    by_cases hpos : amountFor id calls > 0
    · by_cases hge : amountFor id calls ≥ thr
      · rw [if_pos hpos, if_pos hge, if_neg (fun h : 0 < amountFor id calls ∧
          amountFor id calls < thr => absurd h.2 (not_lt.2 hge))]
        ring
      · rw [if_pos hpos, if_neg hge, if_pos ⟨hpos, not_le.1 hge⟩]
        ring
    · have hge : ¬ amountFor id calls ≥ thr := fun h => hpos (lt_of_lt_of_le hthr h)
      rw [if_neg hpos, if_neg hge, if_neg (fun h : 0 < amountFor id calls ∧
        amountFor id calls < thr => hpos h.1)]
      ring

theorem countEvents_nonneg (id : Int) (p : ℚ → Bool) (events : List (List (ℚ × Int))) :
    0 ≤ countEvents id p events := by
  unfold countEvents
  exact Int.natCast_nonneg _

/-! ## Claims -/

/-- C1: histogram update of `Run::AddEnergySpectrumDet1/Det2`.  With `e_keV` the
quotient `e / keV` as the program computes it (the division of doubles,
`Run.energy_keV`, the variable `energy_keV` that `Run::EnergyToBin` tests and
truncates): if `0 ≤ e_keV < 10000`, the count of bin `floor(e_keV)` of that
detector's histogram grows by 1, every other bin keeps its count and the other
detector's histogram is unchanged; if `e_keV < 0` or `e_keV ≥ 10000`, both
histograms are unchanged.  An energy whose exact keV value is outside
[0, 10000) has `e_keV` outside [0, 10000), and a double whose exact keV value is
in [0, 10000) has `e_keV` in [0, 10000).  0.0105 MeV goes to bin 10, 9999 keV to
bin 9999, 10.0 MeV and every negative energy have no bin; 0.009 MeV, 0.015 MeV
and 2.505 MeV go to bins 9, 15 and 2505; and the bin of a value is the bin of the
double nearest to it. -/
theorem C1_histogram_update (r : Run) (e : ℚ) :
    Run.EnergyToBin e =
      (if Run.energy_keV e < 0 ∨ Run.energy_keV e ≥ Run.fEmax * 1000 then -1
        else castToInt (Run.energy_keV e)) ∧
    (0 ≤ Run.energy_keV e ∧ Run.energy_keV e < 10000 →
      (∀ b : Int, (r.AddEnergySpectrumDet1 e).fEnergyHistogramDet1.count b =
          r.fEnergyHistogramDet1.count b + (if b = ⌊Run.energy_keV e⌋ then 1 else 0)) ∧
      (r.AddEnergySpectrumDet1 e).fEnergyHistogramDet2 = r.fEnergyHistogramDet2 ∧
      (∀ b : Int, (r.AddEnergySpectrumDet2 e).fEnergyHistogramDet2.count b =
          r.fEnergyHistogramDet2.count b + (if b = ⌊Run.energy_keV e⌋ then 1 else 0)) ∧
      (r.AddEnergySpectrumDet2 e).fEnergyHistogramDet1 = r.fEnergyHistogramDet1) ∧
    (Run.energy_keV e < 0 ∨ 10000 ≤ Run.energy_keV e →
      (r.AddEnergySpectrumDet1 e).fEnergyHistogramDet1 = r.fEnergyHistogramDet1 ∧
      (r.AddEnergySpectrumDet1 e).fEnergyHistogramDet2 = r.fEnergyHistogramDet2 ∧
      (r.AddEnergySpectrumDet2 e).fEnergyHistogramDet1 = r.fEnergyHistogramDet1 ∧
      (r.AddEnergySpectrumDet2 e).fEnergyHistogramDet2 = r.fEnergyHistogramDet2) ∧
    (e / keV < 0 ∨ 10000 ≤ e / keV → Run.energy_keV e < 0 ∨ 10000 ≤ Run.energy_keV e) ∧
    (G4double.nearest e = e → 0 ≤ e / keV → e / keV < 10000 →
      0 ≤ Run.energy_keV e ∧ Run.energy_keV e < 10000) ∧
    Run.EnergyToBin (0.0105 * MeV) = 10 ∧
    Run.EnergyToBin (9999 * keV) = 9999 ∧
    Run.EnergyToBin (10.0 * MeV) = -1 ∧
    (e < 0 → Run.EnergyToBin e = -1) ∧
    Run.EnergyToBin (0.009 * MeV) = 9 ∧
    Run.EnergyToBin (0.015 * MeV) = 15 ∧
    Run.EnergyToBin (2.505 * MeV) = 2505 ∧
    Run.EnergyToBin (G4double.nearest e) = Run.EnergyToBin e := by
  refine ⟨rfl, ?_, ?_, Run.energy_keV_outOfRange e, Run.energy_keV_inRange e,
    Run.EnergyToBin_of_energy_keV _ _ _ Run.energy_keV_0_0105 (by norm_num) (by norm_num),
    Run.EnergyToBin_of_energy_keV _ _ _ Run.energy_keV_9999 (by norm_num) (by norm_num),
    Run.EnergyToBin_outOfRange _ (Or.inr (by norm_num [keV, MeV])), ?_,
    Run.EnergyToBin_of_energy_keV _ _ _ Run.energy_keV_0_009 (by norm_num) (by norm_num),
    Run.EnergyToBin_of_energy_keV _ _ _ Run.energy_keV_0_015 (by norm_num) (by norm_num),
    Run.EnergyToBin_of_energy_keV _ _ _ Run.energy_keV_2_505 (by norm_num) (by norm_num),
    Run.EnergyToBin_nearest e⟩
  · rintro ⟨h0, h1⟩
    obtain ⟨hbin, hlo, hhi⟩ := Run.EnergyToBin_inRange e h0 h1
    have hin : Run.EnergyToBin e ≥ 0 ∧ Run.EnergyToBin e < Run.fNbins := by
      rw [hbin]; exact ⟨hlo, hhi⟩
    obtain ⟨h11, h12⟩ := Run.hist_AddEnergySpectrumDet1 r e
    obtain ⟨h22, h21⟩ := Run.hist_AddEnergySpectrumDet2 r e
    rw [if_pos hin, hbin] at h11 h22
    refine ⟨?_, h12, ?_, h21⟩
    · intro b
      rw [h11, EnergyHistogram.count_addAt]
      by_cases hb : b = ⌊Run.energy_keV e⌋
      · rw [if_pos hb, if_pos hb, hb]
      · rw [if_neg hb, if_neg hb, add_zero]
    · intro b
      rw [h22, EnergyHistogram.count_addAt]
      by_cases hb : b = ⌊Run.energy_keV e⌋
      · rw [if_pos hb, if_pos hb, hb]
      · rw [if_neg hb, if_neg hb, add_zero]
  · intro h
    have hbin := Run.EnergyToBin_dropped e h
    have hout : ¬ (Run.EnergyToBin e ≥ 0 ∧ Run.EnergyToBin e < Run.fNbins) := by
      rw [hbin]; intro hc; exact absurd hc.1 (by decide)
    obtain ⟨h11, h12⟩ := Run.hist_AddEnergySpectrumDet1 r e
    obtain ⟨h22, h21⟩ := Run.hist_AddEnergySpectrumDet2 r e
    rw [if_neg hout] at h11 h22
    exact ⟨h11, h12, h21, h22⟩
  · intro he
    refine Run.EnergyToBin_outOfRange e (Or.inl ?_)
    rw [keV_eq]
    linarith

/-- C1 at the fresh run and 0.0105 MeV: bin 10 of detector 1 goes from 0 to 1. -/
theorem C1_histogram_update_witness :
    (Run.new.AddEnergySpectrumDet1 (0.0105 * MeV)).fEnergyHistogramDet1.count 10 =
      Run.new.fEnergyHistogramDet1.count 10 + 1 := by
  have hv := Run.energy_keV_0_0105
  have hfl : ⌊Run.energy_keV (0.0105 * MeV)⌋ = (10 : Int) := by
    rw [hv, Int.floor_eq_iff]; norm_num
  have h := ((C1_histogram_update Run.new (0.0105 * MeV)).2.1
    ⟨by rw [hv]; norm_num, by rw [hv]; norm_num⟩).1 10
  rw [hfl, if_pos rfl] at h
  exact h

/-- C2 fails as stated: 10.0 MeV is outside [0, 10000) keV and leaves the
histogram of the fresh run unchanged, yet `Run::AddEnergySpectrumDet1` takes the
running sum from 0 to 10 and the hit-event counter from 0 to 1. -/
theorem C2_out_of_range_counterexample :
    10000 ≤ 10.0 * MeV / keV ∧
    (Run.new.AddEnergySpectrumDet1 (10.0 * MeV)).fEnergyHistogramDet1 =
      Run.new.fEnergyHistogramDet1 ∧
    Run.new.fTotalEnergyDepositDet1 = 0 ∧
    (Run.new.AddEnergySpectrumDet1 (10.0 * MeV)).fTotalEnergyDepositDet1 = 10 ∧
    Run.new.fTotalEventsDet1 = 0 ∧
    (Run.new.AddEnergySpectrumDet1 (10.0 * MeV)).fTotalEventsDet1 = 1 := by
  have hout : 10000 ≤ 10.0 * MeV / keV := by norm_num [keV, MeV]
  have hbin := Run.EnergyToBin_outOfRange (10.0 * MeV) (Or.inr hout)
  have hguard : ¬ (Run.EnergyToBin (10.0 * MeV) ≥ 0 ∧
      Run.EnergyToBin (10.0 * MeV) < Run.fNbins) := by
    rw [hbin]; intro hc; exact absurd hc.1 (by decide)
  obtain ⟨hh, -⟩ := Run.hist_AddEnergySpectrumDet1 Run.new (10.0 * MeV)
  obtain ⟨hs, he, -, -⟩ := Run.totals_AddEnergySpectrumDet1 Run.new (10.0 * MeV)
  rw [if_neg hguard] at hh
  refine ⟨hout, hh, rfl, ?_, rfl, ?_⟩
  · rw [hs]; norm_num [Run.new, MeV]
  · rw [he]; norm_num [Run.new]

/-- C2 (amended): `Run::AddEnergySpectrumDet1` (resp. `Det2`) adds the energy to
that detector's running sum and adds 1 to its hit-event counter on every call,
whether or not a bin is incremented, and leaves the other detector's sum and
counter unchanged; for an energy outside [0, 10000) keV only the histograms are
left unchanged. -/
theorem C2_sum_and_counter_updated_on_every_call (r : Run) (e : ℚ) :
    (r.AddEnergySpectrumDet1 e).fTotalEnergyDepositDet1 = r.fTotalEnergyDepositDet1 + e ∧
    (r.AddEnergySpectrumDet1 e).fTotalEventsDet1 = r.fTotalEventsDet1 + 1 ∧
    (r.AddEnergySpectrumDet1 e).fTotalEnergyDepositDet2 = r.fTotalEnergyDepositDet2 ∧
    (r.AddEnergySpectrumDet1 e).fTotalEventsDet2 = r.fTotalEventsDet2 ∧
    (r.AddEnergySpectrumDet2 e).fTotalEnergyDepositDet2 = r.fTotalEnergyDepositDet2 + e ∧
    (r.AddEnergySpectrumDet2 e).fTotalEventsDet2 = r.fTotalEventsDet2 + 1 ∧
    (r.AddEnergySpectrumDet2 e).fTotalEnergyDepositDet1 = r.fTotalEnergyDepositDet1 ∧
    (r.AddEnergySpectrumDet2 e).fTotalEventsDet1 = r.fTotalEventsDet1 ∧
    (e / keV < 0 ∨ 10000 ≤ e / keV →
      (r.AddEnergySpectrumDet1 e).fEnergyHistogramDet1 = r.fEnergyHistogramDet1 ∧
      (r.AddEnergySpectrumDet2 e).fEnergyHistogramDet2 = r.fEnergyHistogramDet2) := by
  obtain ⟨a1, a2, a3, a4⟩ := Run.totals_AddEnergySpectrumDet1 r e
  obtain ⟨b1, b2, b3, b4⟩ := Run.totals_AddEnergySpectrumDet2 r e
  refine ⟨a1, a2, a3, a4, b1, b2, b3, b4, ?_⟩
  intro h
  have hbin := Run.EnergyToBin_outOfRange e h
  have hguard : ¬ (Run.EnergyToBin e ≥ 0 ∧ Run.EnergyToBin e < Run.fNbins) := by
    rw [hbin]; intro hc; exact absurd hc.1 (by decide)
  obtain ⟨h1, -⟩ := Run.hist_AddEnergySpectrumDet1 r e
  obtain ⟨h2, -⟩ := Run.hist_AddEnergySpectrumDet2 r e
  rw [if_neg hguard] at h1 h2
  exact ⟨h1, h2⟩

/-- C2 (amended) at the fresh run and -1 MeV: the sample has no bin, the sum
becomes -1 and the counter 1. -/
theorem C2_sum_and_counter_updated_witness :
    (Run.new.AddEnergySpectrumDet1 (-1)).fTotalEnergyDepositDet1 = -1 ∧
    (Run.new.AddEnergySpectrumDet1 (-1)).fTotalEventsDet1 = 1 ∧
    (Run.new.AddEnergySpectrumDet1 (-1)).fEnergyHistogramDet1 =
      Run.new.fEnergyHistogramDet1 := by
  have h := C2_sum_and_counter_updated_on_every_call Run.new (-1)
  refine ⟨?_, ?_, ?_⟩
  · rw [h.1]; norm_num [Run.new]
  · rw [h.2.1]; norm_num [Run.new]
  · exact (h.2.2.2.2.2.2.2.2 (Or.inl (by norm_num [keV, MeV]))).1

/-- C3: `Run::Merge` is associative and commutative on the Run state (two
histograms, two energy sums, two event counters; sums exact): for all A, B, C,
merge(merge(A,B),C) = merge(A,merge(B,C)) = merge(merge(A,C),B) and
merge(A,B) = merge(B,A).  Equality of Run states is equality of every histogram
entry, sum and counter. -/
theorem C3_merge_assoc_comm (A B C : Run) :
    Run.Merge (Run.Merge A B) C = Run.Merge A (Run.Merge B C) ∧
    Run.Merge A (Run.Merge B C) = Run.Merge (Run.Merge A C) B ∧
    Run.Merge A B = Run.Merge B A := by
  refine ⟨Run.Merge_assoc A B C, ?_, Run.Merge_comm A B⟩
  rw [Run.Merge_assoc A C B, Run.Merge_comm B C]

/-- C4: `Run::Merge` is a per-bin additive combine.  After `master.Merge(other)`,
for every bin `b` and each detector the master's count at `b` is its previous
count plus other's count at `b` (an absent bin counting as 0), each running
energy sum and each event counter is the previous master value plus other's
value, and other is unchanged. -/
theorem C4_merge_additive (master other : Run) (b : Int) :
    (Run.MergeStep (master, other)).1.fEnergyHistogramDet1.count b =
      master.fEnergyHistogramDet1.count b + other.fEnergyHistogramDet1.count b ∧
    (Run.MergeStep (master, other)).1.fEnergyHistogramDet2.count b =
      master.fEnergyHistogramDet2.count b + other.fEnergyHistogramDet2.count b ∧
    (Run.MergeStep (master, other)).1.fTotalEnergyDepositDet1 =
      master.fTotalEnergyDepositDet1 + other.fTotalEnergyDepositDet1 ∧
    (Run.MergeStep (master, other)).1.fTotalEnergyDepositDet2 =
      master.fTotalEnergyDepositDet2 + other.fTotalEnergyDepositDet2 ∧
    (Run.MergeStep (master, other)).1.fTotalEventsDet1 =
      master.fTotalEventsDet1 + other.fTotalEventsDet1 ∧
    (Run.MergeStep (master, other)).1.fTotalEventsDet2 =
      master.fTotalEventsDet2 + other.fTotalEventsDet2 ∧
    (Run.MergeStep (master, other)).2 = other := by
  refine ⟨?_, ?_, rfl, rfl, rfl, rfl, rfl⟩
  · exact EnergyHistogram.count_mergeFrom _ _ b
  · exact EnergyHistogram.count_mergeFrom _ _ b

/-- C5, the code at a failing input: ten event totals 15, 5, 10, ..., 10 give the
accumulables S = 100 and n = 10, and their squares sum to Q = 1050, so the stated
radicand max(0, Q - S^2/n) is 50; `EndOfRunAction` instead takes the square root
of S*S - S*S/n = 9000, because it uses the square of the sum where the formula
needs the sum of squares. -/
theorem C5_rms_square_of_sum (sqrt : ℚ → ℚ) :
    (tenTotals.foldl RunAction.AddEnergyDepositDet1 RunAction.new).fEnergyDepositDet1 = 100 ∧
    (tenTotals.foldl RunAction.AddEnergyDepositDet1 RunAction.new).fEventCountDet1 = 10 ∧
    (tenTotals.map (fun e => e * e)).sum = 1050 ∧
    max 0 ((1050 : ℚ) - 100 ^ 2 / 10) = 50 ∧
    RunAction.rmsDet1 sqrt (tenTotals.foldl RunAction.AddEnergyDepositDet1 RunAction.new) =
      sqrt 9000 := by
  have hfold : tenTotals.foldl RunAction.AddEnergyDepositDet1 RunAction.new =
      { fEnergyDepositDet1 := 100, fEnergyDepositDet2 := 0,
        fEventCountDet1 := 10, fEventCountDet2 := 0 } := by
    norm_num [tenTotals, List.foldl, RunAction.AddEnergyDepositDet1, RunAction.new]
  rw [hfold]
  refine ⟨rfl, rfl, ?_, ?_, ?_⟩
  · norm_num [tenTotals]
  · norm_num
  · norm_num [RunAction.rmsDet1]

/-- C6 fails as stated: after one deposit of 5 keV in detector 1 the event total
is below the 10 keV threshold, yet `EndOfEventAction` takes RunAction's
cumulative energy sum from 0 to 0.005 MeV and its event count from 0 to 1. -/
theorem C6_sub_threshold_counterexample :
    (EventAction.new.AddEnergyDeposit (5 * keV) 1).fEnergyDepositDet1 <
      (EventAction.new.AddEnergyDeposit (5 * keV) 1).fMinimumEnergy ∧
    ((EventAction.new.AddEnergyDeposit (5 * keV) 1).EndOfEventAction
      { ntuple := [], currentRun := some Run.new, runAction := RunAction.new,
        eventCounter := 0 }).runAction.fEnergyDepositDet1 = 0.005 ∧
    RunAction.new.fEnergyDepositDet1 = 0 ∧
    ((EventAction.new.AddEnergyDeposit (5 * keV) 1).EndOfEventAction
      { ntuple := [], currentRun := some Run.new, runAction := RunAction.new,
        eventCounter := 0 }).runAction.fEventCountDet1 = 1 ∧
    RunAction.new.fEventCountDet1 = 0 := by
  rw [EventAction.runAction_EndOfEventAction]
  refine ⟨?_, ?_, rfl, ?_, rfl⟩
  · norm_num [EventAction.AddEnergyDeposit, EventAction.new, keV, MeV]
  · rw [(RunAction.fields_AddEnergyDepositDet2 _ _).2.2.1,
      (RunAction.fields_AddEnergyDepositDet1 _ _).1]
    norm_num [EventAction.AddEnergyDeposit, EventAction.new, RunAction.new, keV, MeV]
  · rw [(RunAction.fields_AddEnergyDepositDet2 _ _).2.2.2,
      (RunAction.fields_AddEnergyDepositDet1 _ _).2.1]
    norm_num [EventAction.AddEnergyDeposit, EventAction.new, RunAction.new, keV, MeV]

/-- C6 (amended): at event end each detector's total is passed to RunAction
whatever its relation to the threshold: the run-level cumulative energy sum grows
by the total and the run-level event count grows by 1 exactly when the total is
positive; the two are both left unchanged exactly when the total is 0. -/
theorem C6_run_statistics_not_gated (ea : EventAction) (ctx : Context) :
    (ea.EndOfEventAction ctx).runAction.fEnergyDepositDet1 =
      ctx.runAction.fEnergyDepositDet1 + ea.fEnergyDepositDet1 ∧
    (ea.EndOfEventAction ctx).runAction.fEventCountDet1 =
      ctx.runAction.fEventCountDet1 + (if ea.fEnergyDepositDet1 > 0 then 1 else 0) ∧
    (ea.EndOfEventAction ctx).runAction.fEnergyDepositDet2 =
      ctx.runAction.fEnergyDepositDet2 + ea.fEnergyDepositDet2 ∧
    (ea.EndOfEventAction ctx).runAction.fEventCountDet2 =
      ctx.runAction.fEventCountDet2 + (if ea.fEnergyDepositDet2 > 0 then 1 else 0) ∧
    (((ea.EndOfEventAction ctx).runAction.fEnergyDepositDet1 =
        ctx.runAction.fEnergyDepositDet1 ∧
      (ea.EndOfEventAction ctx).runAction.fEventCountDet1 =
        ctx.runAction.fEventCountDet1) ↔ ea.fEnergyDepositDet1 = 0) ∧
    (((ea.EndOfEventAction ctx).runAction.fEnergyDepositDet2 =
        ctx.runAction.fEnergyDepositDet2 ∧
      (ea.EndOfEventAction ctx).runAction.fEventCountDet2 =
        ctx.runAction.fEventCountDet2) ↔ ea.fEnergyDepositDet2 = 0) := by
  rw [EventAction.runAction_EndOfEventAction]
  obtain ⟨a1, a2, a3, a4⟩ :=
    RunAction.fields_AddEnergyDepositDet1 ctx.runAction ea.fEnergyDepositDet1
  obtain ⟨b1, b2, b3, b4⟩ :=
    RunAction.fields_AddEnergyDepositDet2
      (ctx.runAction.AddEnergyDepositDet1 ea.fEnergyDepositDet1) ea.fEnergyDepositDet2
  rw [b3, b4, b1, b2, a1, a2, a3, a4]
  refine ⟨rfl, rfl, rfl, rfl, ?_, ?_⟩
  · constructor
    · rintro ⟨h, -⟩
      exact add_right_eq_self.1 h
    · intro h
      rw [h]
      simp
  · constructor
    · rintro ⟨h, -⟩
      exact add_right_eq_self.1 h
    · intro h
      rw [h]
      simp

/-- C7: hit classification gates the Run aggregate.  With the threshold of
0.010 MeV and a current run, detector d's part of the Run state after
`EndOfEventAction` is that of one call `AddEnergySpectrumDetd(total_d)` on the
run if `total_d ≥ 0.010 MeV` (inclusive), and is unchanged if `total_d` is
below the threshold, whatever the other detector's total; the detector's event
counter grows by 1 exactly in the first case. -/
theorem C7_hit_gates_run (ea : EventAction) (ctx : Context) (run : Run)
    (hthr : ea.fMinimumEnergy = 0.010 * MeV) (hrun : ctx.currentRun = some run) :
    ∃ run', (ea.EndOfEventAction ctx).currentRun = some run' ∧
      run'.det1 =
        (if 0.010 * MeV ≤ ea.fEnergyDepositDet1 then
          (run.AddEnergySpectrumDet1 ea.fEnergyDepositDet1).det1
        else run.det1) ∧
      run'.det2 =
        (if 0.010 * MeV ≤ ea.fEnergyDepositDet2 then
          (run.AddEnergySpectrumDet2 ea.fEnergyDepositDet2).det2
        else run.det2) ∧
      (run'.fTotalEventsDet1 = run.fTotalEventsDet1 + 1 ↔
        0.010 * MeV ≤ ea.fEnergyDepositDet1) ∧
      (run'.fTotalEventsDet2 = run.fTotalEventsDet2 + 1 ↔
        0.010 * MeV ≤ ea.fEnergyDepositDet2) := by
  refine ⟨_, EventAction.currentRun_EndOfEventAction ea ctx run hrun, ?_⟩
  rw [hthr]
  have hX2 : (if ea.fEnergyDepositDet1 ≥ 0.010 * MeV then
      run.AddEnergySpectrumDet1 ea.fEnergyDepositDet1 else run).det2 = run.det2 := by
    by_cases h1 : ea.fEnergyDepositDet1 ≥ 0.010 * MeV
    · rw [if_pos h1]; exact Run.det2_AddEnergySpectrumDet1 run _
    · rw [if_neg h1]
  have hdet1 : (if ea.fEnergyDepositDet2 ≥ 0.010 * MeV then
        (if ea.fEnergyDepositDet1 ≥ 0.010 * MeV then
          run.AddEnergySpectrumDet1 ea.fEnergyDepositDet1
        else run).AddEnergySpectrumDet2 ea.fEnergyDepositDet2
      else
        (if ea.fEnergyDepositDet1 ≥ 0.010 * MeV then
          run.AddEnergySpectrumDet1 ea.fEnergyDepositDet1
        else run)).det1 =
      (if 0.010 * MeV ≤ ea.fEnergyDepositDet1 then
        (run.AddEnergySpectrumDet1 ea.fEnergyDepositDet1).det1
      else run.det1) := by
    by_cases h2 : ea.fEnergyDepositDet2 ≥ 0.010 * MeV
    · rw [if_pos h2, Run.det1_AddEnergySpectrumDet2]
      exact apply_ite Run.det1 _ _ _
    · rw [if_neg h2]
      exact apply_ite Run.det1 _ _ _
  have hdet2 : (if ea.fEnergyDepositDet2 ≥ 0.010 * MeV then
        (if ea.fEnergyDepositDet1 ≥ 0.010 * MeV then
          run.AddEnergySpectrumDet1 ea.fEnergyDepositDet1
        else run).AddEnergySpectrumDet2 ea.fEnergyDepositDet2
      else
        (if ea.fEnergyDepositDet1 ≥ 0.010 * MeV then
          run.AddEnergySpectrumDet1 ea.fEnergyDepositDet1
        else run)).det2 =
      (if 0.010 * MeV ≤ ea.fEnergyDepositDet2 then
        (run.AddEnergySpectrumDet2 ea.fEnergyDepositDet2).det2
      else run.det2) := by
    by_cases h2 : ea.fEnergyDepositDet2 ≥ 0.010 * MeV
    · rw [if_pos h2, if_pos (show 0.010 * MeV ≤ ea.fEnergyDepositDet2 from h2)]
      exact Run.det2_AddEnergySpectrumDet2_congr run _ _ hX2
    · rw [if_neg h2, if_neg (show ¬ 0.010 * MeV ≤ ea.fEnergyDepositDet2 from h2)]
      exact hX2
  refine ⟨hdet1, hdet2, ?_, ?_⟩
  · have hev := congrArg (fun d : EnergyHistogram × ℚ × Int => d.2.2) hdet1
    simp only [Run.det1, apply_ite (fun d : EnergyHistogram × ℚ × Int => d.2.2)] at hev
    rw [hev]
    by_cases h1 : 0.010 * MeV ≤ ea.fEnergyDepositDet1
    · rw [if_pos h1, (Run.totals_AddEnergySpectrumDet1 run _).2.1]
      exact iff_of_true rfl h1
    · rw [if_neg h1]
      refine iff_of_false ?_ h1
      intro hc
      linarith
  · have hev := congrArg (fun d : EnergyHistogram × ℚ × Int => d.2.2) hdet2
    simp only [Run.det2, apply_ite (fun d : EnergyHistogram × ℚ × Int => d.2.2)] at hev
    rw [hev]
    by_cases h2 : 0.010 * MeV ≤ ea.fEnergyDepositDet2
    · rw [if_pos h2, (Run.totals_AddEnergySpectrumDet2 run _).2.1]
      exact iff_of_true rfl h2
    · rw [if_neg h2]
      refine iff_of_false ?_ h2
      intro hc
      linarith

/-- C7 at a concrete event: detector 1 holds exactly 10 keV and detector 2 holds
5 keV; in the fresh run detector 1's event counter becomes 1 and detector 2's
stays 0. -/
theorem C7_hit_gates_run_witness :
    ∃ run',
      (((EventAction.new.AddEnergyDeposit (10 * keV) 1).AddEnergyDeposit (5 * keV)
        2).EndOfEventAction
        { ntuple := [], currentRun := some Run.new, runAction := RunAction.new,
          eventCounter := 0 }).currentRun = some run' ∧
      run'.fTotalEventsDet1 = 1 ∧ run'.det2 = Run.new.det2 := by
  have hthr : ((EventAction.new.AddEnergyDeposit (10 * keV) 1).AddEnergyDeposit (5 * keV)
      2).fMinimumEnergy = 0.010 * MeV := by
    norm_num [EventAction.AddEnergyDeposit, EventAction.new]
  have ht1 : ((EventAction.new.AddEnergyDeposit (10 * keV) 1).AddEnergyDeposit (5 * keV)
      2).fEnergyDepositDet1 = 1 / 100 := by
    norm_num [EventAction.AddEnergyDeposit, EventAction.new, keV, MeV]
  have ht2 : ((EventAction.new.AddEnergyDeposit (10 * keV) 1).AddEnergyDeposit (5 * keV)
      2).fEnergyDepositDet2 = 1 / 200 := by
    norm_num [EventAction.AddEnergyDeposit, EventAction.new, keV, MeV]
  obtain ⟨run', hcur, -, hd2, hi1, -⟩ :=
    C7_hit_gates_run
      ((EventAction.new.AddEnergyDeposit (10 * keV) 1).AddEnergyDeposit (5 * keV) 2)
      { ntuple := [], currentRun := some Run.new, runAction := RunAction.new,
        eventCounter := 0 }
      Run.new hthr rfl
  refine ⟨run', hcur, ?_, ?_⟩
  · have h := hi1.2 (by rw [ht1]; norm_num [MeV])
    rw [h]
    norm_num [Run.new]
  · rw [hd2, ht2, if_neg (by norm_num [MeV])]

/-- C8: DepositAccumulator reference semantics.  After `BeginOfEventAction`,
for every finite sequence of `AddEnergyDeposit(amount, id)` calls, total1 is the
sum of the amounts of the calls with id 1 and total2 the sum of those with id 2;
a call with an id outside {1, 2} changes nothing, so a sequence of such calls
leaves both totals at 0; and `AddEnergyDeposit(x, 1)` followed by
`AddEnergyDeposit(y, 1)` yields total1 = x + y with total2 unchanged. -/
theorem C8_deposit_accumulator (s : EventAction) (calls : List (ℚ × Int)) (x y : ℚ) :
    (s.BeginOfEventAction.deposits calls).fEnergyDepositDet1 = amountFor 1 calls ∧
    (s.BeginOfEventAction.deposits calls).fEnergyDepositDet2 = amountFor 2 calls ∧
    (∀ (e : ℚ) (id : Int), id ≠ 1 → id ≠ 2 → s.AddEnergyDeposit e id = s) ∧
    ((∀ c ∈ calls, c.2 ≠ 1 ∧ c.2 ≠ 2) →
      (s.BeginOfEventAction.deposits calls).fEnergyDepositDet1 = 0 ∧
      (s.BeginOfEventAction.deposits calls).fEnergyDepositDet2 = 0) ∧
    ((s.BeginOfEventAction.AddEnergyDeposit x 1).AddEnergyDeposit y 1).fEnergyDepositDet1 =
      x + y ∧
    ((s.AddEnergyDeposit x 1).AddEnergyDeposit y 1).fEnergyDepositDet2 =
      s.fEnergyDepositDet2 := by
  obtain ⟨t1, t2⟩ := EventAction.totals_deposits s.BeginOfEventAction calls
  have z1 : s.BeginOfEventAction.fEnergyDepositDet1 = 0 := rfl
  have z2 : s.BeginOfEventAction.fEnergyDepositDet2 = 0 := rfl
  rw [z1, zero_add] at t1
  rw [z2, zero_add] at t2
  refine ⟨t1, t2, ?_, ?_, ?_, ?_⟩
  · intro e id h1 h2
    exact EventAction.AddEnergyDeposit_other s e id h1 h2
  · intro h
    rw [t1, t2, amountFor_eq_zero 1 calls (fun c hc => (h c hc).1),
      amountFor_eq_zero 2 calls (fun c hc => (h c hc).2)]
    exact ⟨rfl, rfl⟩
  · rw [(EventAction.fields_AddEnergyDeposit _ y 1).1,
      (EventAction.fields_AddEnergyDeposit _ x 1).1, z1]
    simp
  · rw [(EventAction.fields_AddEnergyDeposit _ y 1).2,
      (EventAction.fields_AddEnergyDeposit _ x 1).2]
    simp

/-- C8 at a concrete sequence after reset: deposits 3 and 4 in detector 1, 5 in
detector 2 and 7 under the unknown id 9 give total1 = 7 and total2 = 5. -/
theorem C8_deposit_accumulator_witness :
    (EventAction.new.BeginOfEventAction.deposits
      [(3, 1), (5, 2), (7, 9), (4, 1)]).fEnergyDepositDet1 = 7 ∧
    (EventAction.new.BeginOfEventAction.deposits
      [(3, 1), (5, 2), (7, 9), (4, 1)]).fEnergyDepositDet2 = 5 := by
  obtain ⟨h1, h2, -⟩ :=
    C8_deposit_accumulator EventAction.new [(3, 1), (5, 2), (7, 9), (4, 1)] 0 0
  rw [h1, h2]
  constructor
  · norm_num [amountFor, List.filter]
  · norm_num [amountFor, List.filter]

/-- C9: reset at event start.  For every prior accumulator state, after
`EventAction::BeginOfEventAction` both detector totals are exactly 0, so the
totals after the event's deposits are the same from any two prior states: they
depend only on the deposits of the event. -/
theorem C9_reset_at_event_start (s s' : EventAction) (calls : List (ℚ × Int)) :
    s.BeginOfEventAction.fEnergyDepositDet1 = 0 ∧
    s.BeginOfEventAction.fEnergyDepositDet2 = 0 ∧
    (s.BeginOfEventAction.deposits calls).fEnergyDepositDet1 =
      (s'.BeginOfEventAction.deposits calls).fEnergyDepositDet1 ∧
    (s.BeginOfEventAction.deposits calls).fEnergyDepositDet2 =
      (s'.BeginOfEventAction.deposits calls).fEnergyDepositDet2 := by
  obtain ⟨a1, a2⟩ := EventAction.totals_deposits s.BeginOfEventAction calls
  obtain ⟨b1, b2⟩ := EventAction.totals_deposits s'.BeginOfEventAction calls
  refine ⟨rfl, rfl, ?_, ?_⟩
  · rw [a1, b1]; rfl
  · rw [a2, b2]; rfl

/-- C10: per-event output row.  `EndOfEventAction` appends exactly one ntuple row
(column 0 = detector-1 total / keV, column 1 = detector-2 total / keV) if at
least one detector total meets or exceeds the threshold, and leaves the ntuple
unchanged otherwise; the row carries both totals, whichever of them is below
the threshold. -/
theorem C10_ntuple_row (ea : EventAction) (ctx : Context) :
    (ea.fMinimumEnergy ≤ ea.fEnergyDepositDet1 ∨ ea.fMinimumEnergy ≤ ea.fEnergyDepositDet2 →
      (ea.EndOfEventAction ctx).ntuple =
        ctx.ntuple ++ [(ea.fEnergyDepositDet1 / keV, ea.fEnergyDepositDet2 / keV)]) ∧
    (ea.fEnergyDepositDet1 < ea.fMinimumEnergy ∧ ea.fEnergyDepositDet2 < ea.fMinimumEnergy →
      (ea.EndOfEventAction ctx).ntuple = ctx.ntuple) := by
  constructor
  · intro h
    have hc : (decide (ea.fEnergyDepositDet1 ≥ ea.fMinimumEnergy) ||
        decide (ea.fEnergyDepositDet2 ≥ ea.fMinimumEnergy)) = true := by
      simpa using h
    simp only [EventAction.EndOfEventAction, hc, if_true]
  · rintro ⟨h1, h2⟩
    have hc : (decide (ea.fEnergyDepositDet1 ≥ ea.fMinimumEnergy) ||
        decide (ea.fEnergyDepositDet2 ≥ ea.fMinimumEnergy)) = false := by
      simp [h1, h2]
    simp only [EventAction.EndOfEventAction, hc]
    rfl

/-- C10 at a concrete event: detector 1 holds 1332.5 keV and detector 2 holds
5 keV; the single row written is (1332.5, 5). -/
theorem C10_ntuple_row_witness :
    (({ fEnergyDepositDet1 := 1.3325, fEnergyDepositDet2 := 0.005,
        fCoincidenceWindow := 20.0 * ns, fMinimumEnergy := 0.010 * MeV } :
        EventAction).EndOfEventAction
      { ntuple := [], currentRun := some Run.new, runAction := RunAction.new,
        eventCounter := 0 }).ntuple = [(1332.5, 5)] := by
  have h := (C10_ntuple_row
    { fEnergyDepositDet1 := 1.3325, fEnergyDepositDet2 := 0.005,
      fCoincidenceWindow := 20.0 * ns, fMinimumEnergy := 0.010 * MeV }
    { ntuple := [], currentRun := some Run.new, runAction := RunAction.new,
      eventCounter := 0 }).1 (Or.inl (by norm_num [MeV]))
  rw [h]
  norm_num [keV, MeV]

/-- C11: fixed-cascade mode.  For every toolkit (random draws) and session,
`GeneratePrimaries` in mode CO60_CASCADE adds exactly two vertices to the event,
the first with energy 1.173 MeV and the second with 1.332 MeV, both at the source
position (the origin) and both with time 0. -/
theorem C11_fixed_cascade (env : Toolkit) (gen : PrimaryGeneratorAction) (w : Session)
    (hmode : gen.fSourceMode = SourceMode.CO60_CASCADE) :
    ∃ v₁ v₂ : PrimaryVertex,
      (gen.GeneratePrimaries env w).2.event = w.event ++ [v₁, v₂] ∧
      v₁.energy = 1.173 * MeV ∧ v₂.energy = 1.332 * MeV ∧
      v₁.position = (0, 0, 0) ∧ v₂.position = (0, 0, 0) ∧
      v₁.time = 0 ∧ v₂.time = 0 := by
  unfold PrimaryGeneratorAction.GeneratePrimaries
  rw [hmode]
  refine ⟨{ particle := gen.fParticleGun.particle, energy := 1.173 * MeV, position := (0, 0, 0),
            direction := (PrimaryGeneratorAction.SampleDirection env w).1, time := 0.0 },
          { particle := gen.fParticleGun.particle, energy := 1.332 * MeV, position := (0, 0, 0),
            direction := (PrimaryGeneratorAction.SampleDirection env
              { w with randomDraws := w.randomDraws + 2 }).1, time := 0.0 }, ?_, ?_⟩
  · simp [PrimaryGeneratorAction.GenerateCo60Cascade, G4ParticleGun.GeneratePrimaryVertex,
      PrimaryGeneratorAction.SampleDirection, PrimaryGeneratorAction.SampleSourcePosition]
  · norm_num

/-- C11 at the freshly constructed generator in mode CO60_CASCADE and the empty
session: the event holds two vertices. -/
theorem C11_fixed_cascade_witness :
    (((PrimaryGeneratorAction.new true SourceMode.CO60_CASCADE).GeneratePrimaries
      Toolkit.sample Session.start).2.event).length = 2 := by
  obtain ⟨v₁, v₂, h, -⟩ :=
    C11_fixed_cascade Toolkit.sample (PrimaryGeneratorAction.new true SourceMode.CO60_CASCADE)
      Session.start rfl
  rw [h]
  rfl

/-- C12: single-gamma mode.  With `u` the uniform draw of the event,
`GeneratePrimaries` in mode SINGLE_GAMMA adds exactly one vertex, at the origin
with time 0, whose energy is 1.173 MeV when `u < 0.5` and 1.332 MeV otherwise; the
energy is always one of the two values, and for `u` in [0, 1) the first value is
drawn exactly on [0, 1/2) and the second exactly on [1/2, 1), two intervals of
equal length. -/
theorem C12_single_gamma (env : Toolkit) (gen : PrimaryGeneratorAction) (w : Session)
    (hmode : gen.fSourceMode = SourceMode.SINGLE_GAMMA) :
    ∃ v : PrimaryVertex,
      (gen.GeneratePrimaries env w).2.event = w.event ++ [v] ∧
      v.position = (0, 0, 0) ∧ v.time = 0 ∧
      v.energy =
        (if env.mtUniform gen.fRandomGenerator < 0.5 then 1.173 * MeV else 1.332 * MeV) ∧
      (v.energy = 1.173 * MeV ∨ v.energy = 1.332 * MeV) ∧
      (0 ≤ env.mtUniform gen.fRandomGenerator → env.mtUniform gen.fRandomGenerator < 1 →
        (v.energy = 1.173 * MeV ↔ env.mtUniform gen.fRandomGenerator ∈ Set.Ico (0 : ℚ) (1 / 2)) ∧
        (v.energy = 1.332 * MeV ↔ env.mtUniform gen.fRandomGenerator ∈ Set.Ico (1 / 2 : ℚ) 1)) ∧
      ((1 / 2 : ℚ) - 0 = 1 - 1 / 2) := by
  unfold PrimaryGeneratorAction.GeneratePrimaries
  rw [hmode]
  refine ⟨{ particle := gen.fParticleGun.particle,
            energy := (if env.mtUniform gen.fRandomGenerator < 0.5 then 1.173 else 1.332) * MeV,
            position := (0, 0, 0),
            direction := (PrimaryGeneratorAction.SampleDirection env w).1, time := 0.0 }, ?_, ?_⟩
  · simp [PrimaryGeneratorAction.GenerateSingleGammaEvent,
      PrimaryGeneratorAction.SampleGamma, G4ParticleGun.GeneratePrimaryVertex,
      PrimaryGeneratorAction.SampleDirection, PrimaryGeneratorAction.SampleSourcePosition]
  · dsimp only
    have hne : (1.173 : ℚ) * MeV ≠ 1.332 * MeV := by norm_num [MeV]
    by_cases hu : env.mtUniform gen.fRandomGenerator < 0.5
    · have hu' : env.mtUniform gen.fRandomGenerator < 1 / 2 := by
        norm_num at hu ⊢; exact hu
      rw [if_pos hu, if_pos hu]
      refine ⟨rfl, by norm_num, rfl, Or.inl rfl, ?_, by norm_num⟩
      intro h0 _
      exact ⟨iff_of_true rfl ⟨h0, hu'⟩,
        iff_of_false hne (fun hc => absurd hu' (not_lt.2 hc.1))⟩
    · have hu' : ¬ env.mtUniform gen.fRandomGenerator < 1 / 2 := by
        norm_num at hu ⊢; exact hu
      rw [if_neg hu, if_neg hu]
      refine ⟨rfl, by norm_num, rfl, Or.inr rfl, ?_, by norm_num⟩
      intro _ h1
      exact ⟨iff_of_false hne.symm (fun hc => hu' hc.2),
        iff_of_true rfl ⟨not_lt.1 hu', h1⟩⟩

/-- C12 at the freshly constructed generator in mode SINGLE_GAMMA with the draw
1/4: the event holds one vertex. -/
theorem C12_single_gamma_witness :
    (((PrimaryGeneratorAction.new true SourceMode.SINGLE_GAMMA).GeneratePrimaries
      Toolkit.sample Session.start).2.event).length = 1 := by
  obtain ⟨v, h, -⟩ :=
    C12_single_gamma Toolkit.sample (PrimaryGeneratorAction.new true SourceMode.SINGLE_GAMMA)
      Session.start rfl
  rw [h]
  rfl

/-- C13: statistical-capture emission.  With the generator initialised and the
cascade call returning `npar`, types, energies and times: if `npar > 0` and the
three sequences have at least `npar` entries, the vertices added are exactly, in
order, those of the entries `i < npar` whose type is g (gamma) or e (electron),
each with energy E_i MeV and time T_i seconds and all at the source position;
entries of another type give no vertex; if `npar ≤ 0` no vertex is added. -/
theorem C13_cascade_emission (env : Toolkit) (gen : PrimaryGeneratorAction) (w : Session)
    (nucleus : NuDEXStatisticalNucleus) (npar : Int) (types : List Char)
    (energies times : List ℚ)
    (hmode : gen.fSourceMode = SourceMode.NUDEX_CAPTURE)
    (hinit : gen.fNuDEX = some nucleus)
    (hcall : env.nudexGenerateCascade nucleus.Z nucleus.A w.cascadeCalls =
      (npar, types, energies, times)) :
    (0 < npar → npar.toNat ≤ types.length → npar.toNat ≤ energies.length →
      npar.toNat ≤ times.length →
      ((gen.GeneratePrimaries env w).2.event).map PrimaryVertex.core =
        w.event.map PrimaryVertex.core ++
          (cascadeEntries npar types energies times).filterMap cascadeVertex) ∧
    (npar ≤ 0 → (gen.GeneratePrimaries env w).2.event = w.event) ∧
    (∀ (entry : Char × ℚ × ℚ) (c : String × ℚ × G4ThreeVector × ℚ),
      cascadeVertex entry = some c →
        (entry.1 = 'g' ∨ entry.1 = 'e') ∧ c.2.1 / MeV = entry.2.1 ∧
        c.2.2.2 / s = entry.2.2 ∧ c.2.2.1 = PrimaryGeneratorAction.SampleSourcePosition) ∧
    (∀ entry : Char × ℚ × ℚ, entry.1 ≠ 'g' → entry.1 ≠ 'e' → cascadeVertex entry = none) := by
  have hgen : gen.GeneratePrimaries env w = PrimaryGeneratorAction.emitCascade env gen nucleus w := by
    rw [PrimaryGeneratorAction.GeneratePrimaries_nudex env gen w hmode]
    unfold PrimaryGeneratorAction.GenerateNuDEXCascade
    rw [hinit]
  obtain ⟨hle, hpos⟩ :=
    PrimaryGeneratorAction.event_emitCascade env gen nucleus w npar types energies times hcall
  rw [hgen]
  refine ⟨?_, hle, ?_, ?_⟩
  · intro h0 h₁ h₂ h₃
    rw [hpos h0, cascadeEntries, cascadeEntries_eq_range _ _ _ _ h₁ h₂ h₃, List.filterMap_map]
    rfl
  · intro entry c hc
    unfold cascadeVertex at hc
    have hMeV : (MeV : ℚ) ≠ 0 := by norm_num [MeV]
    have hs : (s : ℚ) ≠ 0 := by norm_num [s, ns]
    by_cases hg : entry.1 = 'g'
    · rw [if_pos hg] at hc
      cases hc
      exact ⟨Or.inl hg, mul_div_cancel_right₀ _ hMeV, mul_div_cancel_right₀ _ hs, rfl⟩
    · by_cases he : entry.1 = 'e'
      · rw [if_neg hg, if_pos he] at hc
        cases hc
        exact ⟨Or.inr he, mul_div_cancel_right₀ _ hMeV, mul_div_cancel_right₀ _ hs, rfl⟩
      · rw [if_neg hg, if_neg he] at hc
        cases hc
  · intro entry hg he
    unfold cascadeVertex
    rw [if_neg hg, if_neg he]

/-- C13 at a concrete cascade: an initialised Cl-35 generator and the cascade
(g, 6.1 MeV, 0 s), (x, 2.0, 1), (e, 0.5 MeV, 2 s) give a gamma and an electron,
the entry of type x being skipped. -/
theorem C13_cascade_emission_witness :
    ((({ PrimaryGeneratorAction.new true SourceMode.NUDEX_CAPTURE with
          fNuDEX := some { Z := 17, A := 35 } } : PrimaryGeneratorAction).GeneratePrimaries
        Toolkit.sample Session.start).2.event).map PrimaryVertex.core =
      [("gamma", 6.1, (0, 0, 0), 0), ("e-", 0.5, (0, 0, 0), 2000000000)] := by
  have h := (C13_cascade_emission Toolkit.sample
    { PrimaryGeneratorAction.new true SourceMode.NUDEX_CAPTURE with
      fNuDEX := some { Z := 17, A := 35 } }
    Session.start { Z := 17, A := 35 } 3 ['g', 'x', 'e'] [6.1, 2.0, 0.5] [0, 1, 2]
    rfl rfl rfl).1 (by decide) (by decide) (by decide) (by decide)
  rw [h]
  have h3 : Int.toNat 3 = 3 := rfl
  simp only [Session.start, cascadeEntries, h3, List.zip_cons_cons, List.zip_nil_right,
    List.take_succ_cons, List.take_zero, List.map_nil, List.nil_append]
  have hxg : ¬ ('x' : Char) = 'g' := by decide
  have hxe : ¬ ('x' : Char) = 'e' := by decide
  have heg : ¬ ('e' : Char) = 'g' := by decide
  norm_num [List.filterMap_cons, cascadeVertex, MeV, s, ns, hxg, hxe, heg]

/-- C14 fails as stated: for ZA = 35 the decoded Z = 35 / 1000 is 0, yet
`GenerateNuDEXCascade` constructs the nucleus (0, 35) and invokes `Init`. -/
theorem C14_decoded_Z_counterexample :
    Int.tdiv 35 1000 ≤ 0 ∧
    ((((PrimaryGeneratorAction.new true SourceMode.NUDEX_CAPTURE).SetNuDEXConfig 35
        "../NuDEX/NuDEXlib/").GeneratePrimaries Toolkit.sample
        Session.start).2.nudexConstructed = [(0, 35)]) ∧
    ((((PrimaryGeneratorAction.new true SourceMode.NUDEX_CAPTURE).SetNuDEXConfig 35
        "../NuDEX/NuDEXlib/").GeneratePrimaries Toolkit.sample
        Session.start).2.nudexInitCalls = ["../NuDEX/NuDEXlib/"]) := by
  have hcfg : ¬ (((PrimaryGeneratorAction.new true SourceMode.NUDEX_CAPTURE).SetNuDEXConfig 35
      "../NuDEX/NuDEXlib/").fNuDEX_ZA ≤ 0 ∨
      ((PrimaryGeneratorAction.new true SourceMode.NUDEX_CAPTURE).SetNuDEXConfig 35
      "../NuDEX/NuDEXlib/").fNuDEXLibDir = "") := by
    simp [PrimaryGeneratorAction.SetNuDEXConfig, PrimaryGeneratorAction.new]
  have hres : PrimaryGeneratorAction.resolveLibDir Toolkit.sample "../NuDEX/NuDEXlib/" =
      "../NuDEX/NuDEXlib/" := by
    simp [PrimaryGeneratorAction.resolveLibDir, Toolkit.sample]
  rw [PrimaryGeneratorAction.GeneratePrimaries_init_fails Toolkit.sample _ _ rfl rfl hcfg
    (by
      simp only [PrimaryGeneratorAction.SetNuDEXConfig, PrimaryGeneratorAction.new]
      rw [hres]
      decide)]
  refine ⟨by decide, ?_, ?_⟩
  · simp [PrimaryGeneratorAction.SetNuDEXConfig, PrimaryGeneratorAction.new, Session.start]
    decide
  · simp only [PrimaryGeneratorAction.SetNuDEXConfig, PrimaryGeneratorAction.new]
    rw [hres]
    rfl

/-- C14 (amended): fail-fast on a missing configuration.  With the generator not
yet initialised, if ZA ≤ 0 or the library directory is empty,
`GenerateNuDEXCascade` adds no vertex and neither constructs nor initialises the
external generator; if ZA > 0 and the directory is non-empty, it constructs the
nucleus (ZA / 1000, ZA mod 1000) and invokes `Init`, whatever the decoded Z and A. -/
theorem C14_fail_fast_on_missing_config (env : Toolkit) (gen : PrimaryGeneratorAction)
    (w : Session) (hmode : gen.fSourceMode = SourceMode.NUDEX_CAPTURE)
    (hnone : gen.fNuDEX = none) :
    (gen.fNuDEX_ZA ≤ 0 ∨ gen.fNuDEXLibDir = "" →
      (gen.GeneratePrimaries env w).2.event = w.event ∧
      (gen.GeneratePrimaries env w).2.nudexConstructed = w.nudexConstructed ∧
      (gen.GeneratePrimaries env w).2.nudexInitCalls = w.nudexInitCalls ∧
      (gen.GeneratePrimaries env w).2.cascadeCalls = w.cascadeCalls ∧
      (gen.GeneratePrimaries env w).1.fNuDEX = none) ∧
    (0 < gen.fNuDEX_ZA ∧ gen.fNuDEXLibDir ≠ "" →
      (w.nudexConstructed ++ [(Int.tdiv gen.fNuDEX_ZA 1000, Int.tmod gen.fNuDEX_ZA 1000)]) <+:
        (gen.GeneratePrimaries env w).2.nudexConstructed ∧
      (w.nudexInitCalls ++ [PrimaryGeneratorAction.resolveLibDir env gen.fNuDEXLibDir]) <+:
        (gen.GeneratePrimaries env w).2.nudexInitCalls) := by
  constructor
  · intro hbad
    rw [PrimaryGeneratorAction.GeneratePrimaries_config_missing env gen w hmode hnone hbad]
    exact ⟨rfl, rfl, rfl, rfl, hnone⟩
  · rintro ⟨hza, hdir⟩
    have hcfg : ¬ (gen.fNuDEX_ZA ≤ 0 ∨ gen.fNuDEXLibDir = "") := by
      rintro (h | h)
      · exact absurd hza (not_lt.2 h)
      · exact hdir h
    by_cases hinit : env.nudexInit (Int.tdiv gen.fNuDEX_ZA 1000) (Int.tmod gen.fNuDEX_ZA 1000)
        (PrimaryGeneratorAction.resolveLibDir env gen.fNuDEXLibDir) < 0
    · rw [PrimaryGeneratorAction.GeneratePrimaries_init_fails env gen w hmode hnone hcfg hinit]
      exact ⟨List.prefix_refl _, List.prefix_refl _⟩
    · rw [PrimaryGeneratorAction.GeneratePrimaries_nudex env gen w hmode]
      unfold PrimaryGeneratorAction.GenerateNuDEXCascade
      rw [hnone]
      simp only [if_neg hcfg, if_neg hinit]
      exact PrimaryGeneratorAction.logs_emitCascade env _ _
        { w with
          nudexConstructed := w.nudexConstructed ++
            [(Int.tdiv gen.fNuDEX_ZA 1000, Int.tmod gen.fNuDEX_ZA 1000)]
          nudexInitCalls := w.nudexInitCalls ++
            [PrimaryGeneratorAction.resolveLibDir env gen.fNuDEXLibDir] }

/-- C14 (amended) at the freshly constructed generator, whose ZA is -1 and whose
library directory is empty: no vertex, no construction, no `Init`. -/
theorem C14_fail_fast_on_missing_config_witness :
    ((PrimaryGeneratorAction.new true SourceMode.NUDEX_CAPTURE).GeneratePrimaries
      Toolkit.sample Session.start).2.event = [] ∧
    ((PrimaryGeneratorAction.new true SourceMode.NUDEX_CAPTURE).GeneratePrimaries
      Toolkit.sample Session.start).2.nudexInitCalls = [] := by
  obtain ⟨h1, -, h3, -⟩ :=
    (C14_fail_fast_on_missing_config Toolkit.sample
      (PrimaryGeneratorAction.new true SourceMode.NUDEX_CAPTURE) Session.start rfl rfl).1
      (Or.inl (by decide))
  exact ⟨h1, h3⟩

/-- C15 fails as stated: configured for Cr-53, for which `Init` fails, a run of
three events invokes `Init` three times and reports the failure three times. -/
theorem C15_init_retried_counterexample :
    Toolkit.sample.nudexInit 24 53 "../NuDEX/NuDEXlib/" < 0 ∧
    (PrimaryGeneratorAction.generateEvents Toolkit.sample 3
      ((PrimaryGeneratorAction.new true SourceMode.NUDEX_CAPTURE).SetNuDEXConfig 24053
        "../NuDEX/NuDEXlib/") Session.start).2.1.nudexInitCalls =
      ["../NuDEX/NuDEXlib/", "../NuDEX/NuDEXlib/", "../NuDEX/NuDEXlib/"] ∧
    (PrimaryGeneratorAction.generateEvents Toolkit.sample 3
      ((PrimaryGeneratorAction.new true SourceMode.NUDEX_CAPTURE).SetNuDEXConfig 24053
        "../NuDEX/NuDEXlib/") Session.start).2.1.cerr =
      ["ERROR: NuDEX initialization failed", "ERROR: NuDEX initialization failed",
        "ERROR: NuDEX initialization failed"] := by
  have hcfg : ¬ (((PrimaryGeneratorAction.new true SourceMode.NUDEX_CAPTURE).SetNuDEXConfig
      24053 "../NuDEX/NuDEXlib/").fNuDEX_ZA ≤ 0 ∨
      ((PrimaryGeneratorAction.new true SourceMode.NUDEX_CAPTURE).SetNuDEXConfig 24053
      "../NuDEX/NuDEXlib/").fNuDEXLibDir = "") := by
    simp [PrimaryGeneratorAction.SetNuDEXConfig, PrimaryGeneratorAction.new]
  have hres : PrimaryGeneratorAction.resolveLibDir Toolkit.sample "../NuDEX/NuDEXlib/" =
      "../NuDEX/NuDEXlib/" := by
    simp [PrimaryGeneratorAction.resolveLibDir, Toolkit.sample]
  have hfail : Toolkit.sample.nudexInit 24 53 "../NuDEX/NuDEXlib/" < 0 := by
    simp [Toolkit.sample]
  obtain ⟨-, h2, h3, -⟩ :=
    PrimaryGeneratorAction.generateEvents_init_fails Toolkit.sample
      ((PrimaryGeneratorAction.new true SourceMode.NUDEX_CAPTURE).SetNuDEXConfig 24053
        "../NuDEX/NuDEXlib/") rfl rfl hcfg
      (by
        simp only [PrimaryGeneratorAction.SetNuDEXConfig, PrimaryGeneratorAction.new]
        rw [hres]
        exact hfail)
      3 Session.start
  refine ⟨hfail, ?_, ?_⟩
  · rw [h2]
    simp only [PrimaryGeneratorAction.SetNuDEXConfig, PrimaryGeneratorAction.new]
    rw [hres]
    rfl
  · rw [h3]
    rfl

/-- C15 (amended): initialization is retried at every event.  A failed `Init`
resets the generator handle to null and nothing records the failure, so in a run
of `n` events in NUDEX_CAPTURE mode with the configuration present and `Init`
failing, `Init` is invoked `n` times and the failure is reported `n` times. -/
theorem C15_init_retried_every_event (env : Toolkit) (gen : PrimaryGeneratorAction)
    (w : Session) (n : Nat)
    (hmode : gen.fSourceMode = SourceMode.NUDEX_CAPTURE) (hnone : gen.fNuDEX = none)
    (hcfg : 0 < gen.fNuDEX_ZA ∧ gen.fNuDEXLibDir ≠ "")
    (hinit : env.nudexInit (Int.tdiv gen.fNuDEX_ZA 1000) (Int.tmod gen.fNuDEX_ZA 1000)
      (PrimaryGeneratorAction.resolveLibDir env gen.fNuDEXLibDir) < 0) :
    (PrimaryGeneratorAction.generateEvents env n gen w).2.1.nudexInitCalls =
      w.nudexInitCalls ++
        List.replicate n (PrimaryGeneratorAction.resolveLibDir env gen.fNuDEXLibDir) ∧
    (PrimaryGeneratorAction.generateEvents env n gen w).2.1.cerr =
      w.cerr ++ List.replicate n "ERROR: NuDEX initialization failed" ∧
    (PrimaryGeneratorAction.generateEvents env n gen w).1.fNuDEX = none := by
  have hcfg' : ¬ (gen.fNuDEX_ZA ≤ 0 ∨ gen.fNuDEXLibDir = "") := by
    rintro (h | h)
    · exact absurd hcfg.1 (not_lt.2 h)
    · exact hcfg.2 h
  obtain ⟨h1, h2, h3, -⟩ :=
    PrimaryGeneratorAction.generateEvents_init_fails env gen hmode hnone hcfg' hinit n w
  refine ⟨h2, h3, ?_⟩
  rw [h1]
  exact hnone

/-- C15 (amended) at the generator configured for Cr-53 and a run of 100 events:
`Init` has been invoked 100 times. -/
theorem C15_init_retried_every_event_witness :
    ((PrimaryGeneratorAction.generateEvents Toolkit.sample 100
      ((PrimaryGeneratorAction.new true SourceMode.NUDEX_CAPTURE).SetNuDEXConfig 24053
        "../NuDEX/NuDEXlib/") Session.start).2.1.nudexInitCalls).length = 100 := by
  have hres : PrimaryGeneratorAction.resolveLibDir Toolkit.sample "../NuDEX/NuDEXlib/" =
      "../NuDEX/NuDEXlib/" := by
    simp [PrimaryGeneratorAction.resolveLibDir, Toolkit.sample]
  obtain ⟨h, -⟩ :=
    C15_init_retried_every_event Toolkit.sample
      ((PrimaryGeneratorAction.new true SourceMode.NUDEX_CAPTURE).SetNuDEXConfig 24053
        "../NuDEX/NuDEXlib/") Session.start 100 rfl rfl
      (by simp [PrimaryGeneratorAction.SetNuDEXConfig, PrimaryGeneratorAction.new])
      (by
        simp only [PrimaryGeneratorAction.SetNuDEXConfig, PrimaryGeneratorAction.new]
        rw [hres]
        show Toolkit.sample.nudexInit 24 53 "../NuDEX/NuDEXlib/" < 0
        simp [Toolkit.sample])
  rw [h]
  simp [Session.start]

/-- C16: statistical-capture failure path.  If the generator is not initialised
and initialization fails (ZA ≤ 0, empty library directory, or `Init` returning a
negative status), then in a run of any number `n` of consecutive
`GeneratePrimaries` calls in NUDEX_CAPTURE mode every call returns, every event
has zero vertices, and the generator is left as it was. -/
theorem C16_failure_path_zero_vertices (env : Toolkit) (gen : PrimaryGeneratorAction)
    (w : Session) (n : Nat)
    (hmode : gen.fSourceMode = SourceMode.NUDEX_CAPTURE) (hnone : gen.fNuDEX = none)
    (hfail : gen.fNuDEX_ZA ≤ 0 ∨ gen.fNuDEXLibDir = "" ∨
      env.nudexInit (Int.tdiv gen.fNuDEX_ZA 1000) (Int.tmod gen.fNuDEX_ZA 1000)
        (PrimaryGeneratorAction.resolveLibDir env gen.fNuDEXLibDir) < 0) :
    (PrimaryGeneratorAction.generateEvents env n gen w).2.2 = List.replicate n [] ∧
    (PrimaryGeneratorAction.generateEvents env n gen w).1 = gen ∧
    (gen.GeneratePrimaries env w).2.event = w.event := by
  refine ⟨?_, ?_, (PrimaryGeneratorAction.GeneratePrimaries_failing env gen w hmode hnone hfail).2⟩
  · by_cases hcfg : gen.fNuDEX_ZA ≤ 0 ∨ gen.fNuDEXLibDir = ""
    · exact (PrimaryGeneratorAction.generateEvents_config_missing env gen hmode hnone hcfg
        n w).2.2.2
    · have hinit : env.nudexInit (Int.tdiv gen.fNuDEX_ZA 1000) (Int.tmod gen.fNuDEX_ZA 1000)
          (PrimaryGeneratorAction.resolveLibDir env gen.fNuDEXLibDir) < 0 := by
        rcases hfail with h | h | h
        · exact absurd (Or.inl h) hcfg
        · exact absurd (Or.inr h) hcfg
        · exact h
      exact (PrimaryGeneratorAction.generateEvents_init_fails env gen hmode hnone hcfg hinit
        n w).2.2.2
  · by_cases hcfg : gen.fNuDEX_ZA ≤ 0 ∨ gen.fNuDEXLibDir = ""
    · exact (PrimaryGeneratorAction.generateEvents_config_missing env gen hmode hnone hcfg
        n w).1
    · have hinit : env.nudexInit (Int.tdiv gen.fNuDEX_ZA 1000) (Int.tmod gen.fNuDEX_ZA 1000)
          (PrimaryGeneratorAction.resolveLibDir env gen.fNuDEXLibDir) < 0 := by
        rcases hfail with h | h | h
        · exact absurd (Or.inl h) hcfg
        · exact absurd (Or.inr h) hcfg
        · exact h
      exact (PrimaryGeneratorAction.generateEvents_init_fails env gen hmode hnone hcfg hinit
        n w).1

/-- C16 at the freshly constructed generator (ZA = -1, empty directory) and a run
of 100 events: all 100 events are empty. -/
theorem C16_failure_path_zero_vertices_witness :
    (PrimaryGeneratorAction.generateEvents Toolkit.sample 100
      (PrimaryGeneratorAction.new true SourceMode.NUDEX_CAPTURE) Session.start).2.2 =
      List.replicate 100 [] :=
  (C16_failure_path_zero_vertices Toolkit.sample
    (PrimaryGeneratorAction.new true SourceMode.NUDEX_CAPTURE) Session.start 100 rfl rfl
    (Or.inl (by decide))).1

/-- C17: thread-count override.  For every argument list for which `main` reaches
the run set-up with final source mode NUDEX_CAPTURE, the single-threaded run
manager is chosen and the number of workers is 1, whatever `-threads` value was
given and wherever it stands relative to `-nudex`; the variable `nThreads` is
at most 1, and exactly 1 when the machine reports at least one hardware thread. -/
theorem C17_nudex_forces_single_thread (lib : CRuntime) (argv : List String) (setup : Setup)
    (hmain : main lib argv = Except.ok setup)
    (hmode : setup.options.sourceMode = SourceMode.NUDEX_CAPTURE) :
    setup.runManager = RunManager.G4RunManager ∧
    setup.runManager.workers = 1 ∧
    setup.options.nThreads ≤ 1 ∧
    (1 ≤ lib.hardware_concurrency → setup.options.nThreads = 1) := by
  obtain ⟨o, hparse, hsm, hnt, hrm⟩ := main_of_parseArgs lib argv setup hmain
  have hle : setup.options.nThreads ≤ 1 := by
    rw [hnt]
    by_cases hc : o.sourceMode = SourceMode.NUDEX_CAPTURE ∧ o.nThreads > 1
    · rw [if_pos hc]
    · rw [if_neg hc]
      have hmo : o.sourceMode = SourceMode.NUDEX_CAPTURE := hsm ▸ hmode
      exact not_lt.1 (fun hgt => hc ⟨hmo, hgt⟩)
  have hst : setup.runManager = RunManager.G4RunManager := by
    rw [hrm, if_neg (not_lt.2 hle)]
  refine ⟨hst, ?_, hle, ?_⟩
  · rw [hst]; rfl
  · intro hhw
    have hpos : 1 ≤ o.nThreads :=
      parseArgs_nThreads_pos lib hhw argv.tail Options.initial o hparse (le_refl 1)
    have hge : 1 ≤ setup.options.nThreads := by
      rw [hnt]
      by_cases hc : o.sourceMode = SourceMode.NUDEX_CAPTURE ∧ o.nThreads > 1
      · rw [if_pos hc]
      · rw [if_neg hc]; exact hpos
    exact le_antisymm hle hge

/-- C17 at the command line `-nudex -threads 8`: `main` reaches the run set-up
with the single-threaded run manager and `nThreads = 1`. -/
theorem C17_nudex_forces_single_thread_witness :
    ∃ setup : Setup,
      main CRuntime.sample ["DualHPGe_NuDEX", "-nudex", "-threads", "8"] = Except.ok setup ∧
      setup.options.sourceMode = SourceMode.NUDEX_CAPTURE ∧
      setup.runManager = RunManager.G4RunManager ∧
      setup.options.nThreads = 1 := by
  have hp : parseArgs CRuntime.sample ["-nudex", "-threads", "8"] Options.initial =
      Except.ok
        { Options.initial with
          sourceMode := SourceMode.NUDEX_CAPTURE
          nThreads := threadsValue CRuntime.sample "8" } := by
    rw [parseArgs_step_ok _ _ _ _ _ _
      (optionStep_nudex_no_number CRuntime.sample Options.initial "-threads" "8" []
        (by decide))]
    simp only [List.drop]
    rw [parseArgs_step_ok _ _ _ _ _ _ (optionStep_threads_value CRuntime.sample _ "8" [])]
    simp only [List.drop]
    rw [parseArgs_nil]
  have hmain : main CRuntime.sample ["DualHPGe_NuDEX", "-nudex", "-threads", "8"] =
      Except.ok
        { options :=
            { Options.initial with sourceMode := SourceMode.NUDEX_CAPTURE, nThreads := 1 }
          runManager := RunManager.G4RunManager } := by
    unfold main
    simp only [List.tail, hp]
    rfl
  obtain ⟨h1, -, -, h4⟩ := C17_nudex_forces_single_thread CRuntime.sample _ _ hmain rfl
  exact ⟨_, hmain, rfl, h1, h4 (by decide)⟩

/-- C18 fails as stated: with `-nudex-libdir` as the last argument `main` returns 1
during option processing and never reaches the run set-up. -/
theorem C18_nudex_libdir_counterexample :
    main CRuntime.sample ["DualHPGe_NuDEX", "-nudex-libdir"] = Except.error 1 := by
  unfold main
  simp only [List.tail]
  rw [parseArgs_step_error _ _ _ _ _ (optionStep_nudex_libdir_last CRuntime.sample _)]

/-- C18 (amended): when the option loop reaches `-nudex-libdir` as the last
argument, `main` writes the line "Error: -nudex-libdir requires a path argument"
to `G4cout` unless `quietMode` is set and returns 1 at once, before the run
set-up; so for `prog -nudex-libdir` the line is written and 1 returned, and for
`prog -quiet -nudex-libdir` nothing is written and 1 returned.  Followed by a
path, the flag stores the path and the loop goes on; `-angle` and `-threads`
reached as the last argument write nothing, leave every variable unchanged and
the loop ends normally. -/
theorem C18_missing_value_handling (lib : CRuntime) (o : Options) (prog path : String) :
    parseArgs lib ["-nudex-libdir"] o = Except.error 1 ∧
    parseArgsCout lib ["-nudex-libdir"] o =
      (if o.quietMode = true then []
        else ["Error: -nudex-libdir requires a path argument"]) ∧
    main lib [prog, "-nudex-libdir"] = Except.error 1 ∧
    mainCout lib [prog, "-nudex-libdir"] =
      ["Error: -nudex-libdir requires a path argument"] ∧
    main lib [prog, "-quiet", "-nudex-libdir"] = Except.error 1 ∧
    mainCout lib [prog, "-quiet", "-nudex-libdir"] = [] ∧
    parseArgs lib ["-nudex-libdir", path] o = Except.ok { o with nudexLibDir := path } ∧
    parseArgs lib ["-angle"] o = Except.ok o ∧
    parseArgsCout lib ["-angle"] o = [] ∧
    parseArgs lib ["-threads"] o = Except.ok o ∧
    parseArgsCout lib ["-threads"] o = [] := by
  have hcout : ∀ o' : Options, parseArgsCout lib ["-nudex-libdir"] o' =
      (if o'.quietMode = true then []
        else ["Error: -nudex-libdir requires a path argument"]) := by
    intro o'
    rw [parseArgsCout_step_error _ _ _ _ _ (optionStep_nudex_libdir_last lib o'),
      optionStepCout_nudex_libdir_last]
  refine ⟨?_, hcout o, ?_, ?_, ?_, ?_, ?_, ?_, ?_, ?_, ?_⟩
  · rw [parseArgs_step_error _ _ _ _ _ (optionStep_nudex_libdir_last lib o)]
  · unfold main
    simp only [List.tail]
    rw [parseArgs_step_error _ _ _ _ _ (optionStep_nudex_libdir_last lib _)]
  · unfold mainCout
    simp only [List.tail]
    rw [hcout]
    rfl
  · unfold main
    simp only [List.tail]
    rw [parseArgs_step_ok _ _ _ _ _ _ (optionStep_quiet lib _ _)]
    simp only [List.drop]
    rw [parseArgs_step_error _ _ _ _ _ (optionStep_nudex_libdir_last lib _)]
  · unfold mainCout
    simp only [List.tail]
    rw [parseArgsCout_step_ok _ _ _ _ _ _ (optionStep_quiet lib _ _), optionStepCout_quiet]
    simp only [List.drop, List.nil_append]
    rw [hcout]
    rfl
  · rw [parseArgs_step_ok _ _ _ _ _ _ (optionStep_nudex_libdir_path lib o path [])]
    simp only [List.drop]
    rw [parseArgs_nil]
  · rw [parseArgs_step_ok _ _ _ _ _ _ (optionStep_angle_last lib o)]
    simp only [List.drop]
    rw [parseArgs_nil]
  · rw [parseArgsCout_step_ok _ _ _ _ _ _ (optionStep_angle_last lib o),
      optionStepCout_angle_last]
    simp only [List.drop, List.nil_append]
    rw [parseArgsCout_nil]
  · rw [parseArgs_step_ok _ _ _ _ _ _ (optionStep_threads_last lib o)]
    simp only [List.drop]
    rw [parseArgs_nil]
  · rw [parseArgsCout_step_ok _ _ _ _ _ _ (optionStep_threads_last lib o),
      optionStepCout_threads_last]
    simp only [List.drop, List.nil_append]
    rw [parseArgsCout_nil]

/-- C19: non-negative RMS.  For every merged energy sum and every event count,
with a square root that is non-negative on positive arguments, the rms value
`EndOfRunAction` reports for each detector is ≥ 0, and it is 0 when the count is
0; with `sqrt 0 = 0` and a positive count it is the square root of the variance
proxy `S*S - S*S/n` clamped at 0. -/
theorem C19_rms_nonneg (sqrt : ℚ → ℚ) (ra : RunAction) (nofEvents : Int) (mass1 mass2 : ℚ)
    (hsqrt : ∀ x : ℚ, 0 < x → 0 ≤ sqrt x) :
    (∀ r, ra.EndOfRunAction sqrt nofEvents mass1 mass2 = some r →
      0 ≤ r.rmsDet1 ∧ 0 ≤ r.rmsDet2 ∧
      (ra.fEventCountDet1 = 0 → r.rmsDet1 = 0) ∧
      (ra.fEventCountDet2 = 0 → r.rmsDet2 = 0) ∧
      (sqrt 0 = 0 → 0 < ra.fEventCountDet1 →
        r.rmsDet1 =
          sqrt (max 0 (ra.fEnergyDepositDet1 * ra.fEnergyDepositDet1 -
            ra.fEnergyDepositDet1 * ra.fEnergyDepositDet1 / (ra.fEventCountDet1 : ℚ)))) ∧
      (sqrt 0 = 0 → 0 < ra.fEventCountDet2 →
        r.rmsDet2 =
          sqrt (max 0 (ra.fEnergyDepositDet2 * ra.fEnergyDepositDet2 -
            ra.fEnergyDepositDet2 * ra.fEnergyDepositDet2 / (ra.fEventCountDet2 : ℚ))))) ∧
    (nofEvents ≠ 0 → ∃ r, ra.EndOfRunAction sqrt nofEvents mass1 mass2 = some r) := by
  constructor
  · intro r hr
    unfold RunAction.EndOfRunAction at hr
    by_cases hev : nofEvents = 0
    · rw [if_pos hev] at hr
      cases hr
    · rw [if_neg hev] at hr
      simp only [Option.some.injEq] at hr
      subst hr
      refine ⟨RunAction.rmsDet1_nonneg sqrt ra hsqrt, RunAction.rmsDet2_nonneg sqrt ra hsqrt,
        ?_, ?_, ?_, ?_⟩
      · intro h0
        simp [RunAction.rmsDet1, h0]
      · intro h0
        simp [RunAction.rmsDet2, h0]
      · intro h0 hn
        exact RunAction.rmsDet1_eq_sqrt_max sqrt ra h0 hn
      · intro h0 hn
        exact RunAction.rmsDet2_eq_sqrt_max sqrt ra h0 hn
  · intro hev
    unfold RunAction.EndOfRunAction
    rw [if_neg hev]
    exact ⟨_, rfl⟩

/-- C19 at the accumulables of the ten event totals 15, 5, 10, ..., 10 and the
integer square root: a summary is reported and its rms is ≥ 0. -/
theorem C19_rms_nonneg_witness :
    ∃ r, (tenTotals.foldl RunAction.AddEnergyDepositDet1 RunAction.new).EndOfRunAction
        floorSqrt 10 2 2 = some r ∧ 0 ≤ r.rmsDet1 := by
  obtain ⟨hall, hex⟩ :=
    C19_rms_nonneg floorSqrt (tenTotals.foldl RunAction.AddEnergyDepositDet1 RunAction.new)
      10 2 2 (fun x _ => floorSqrt_nonneg x)
  obtain ⟨r, hr⟩ := hex (by decide)
  exact ⟨r, hr, (hall r hr).1⟩

/-- C20: dose derivation at run end.  For a run with events and positive
scoring-volume masses, for each detector with merged energy sum S, event count n
and mass m, the reported dose is S / m when n > 0 (so dose times m is S) and
exactly 0 when n ≤ 0, and the reported dose rms is rms / m when n > 0 and 0
when n ≤ 0. -/
theorem C20_dose_derivation (sqrt : ℚ → ℚ) (ra : RunAction) (nofEvents : Int)
    (mass1 mass2 : ℚ) (hev : nofEvents ≠ 0) (hm1 : 0 < mass1) (hm2 : 0 < mass2) :
    ∃ r, ra.EndOfRunAction sqrt nofEvents mass1 mass2 = some r ∧
      r.rmsDet1 = ra.rmsDet1 sqrt ∧ r.rmsDet2 = ra.rmsDet2 sqrt ∧
      (0 < ra.fEventCountDet1 →
        r.doseDet1 = ra.fEnergyDepositDet1 / mass1 ∧ r.doseDet1 * mass1 = ra.fEnergyDepositDet1 ∧
        r.rmsDoseDet1 = r.rmsDet1 / mass1) ∧
      (ra.fEventCountDet1 ≤ 0 → r.doseDet1 = 0 ∧ r.rmsDoseDet1 = 0) ∧
      (0 < ra.fEventCountDet2 →
        r.doseDet2 = ra.fEnergyDepositDet2 / mass2 ∧ r.doseDet2 * mass2 = ra.fEnergyDepositDet2 ∧
        r.rmsDoseDet2 = r.rmsDet2 / mass2) ∧
      (ra.fEventCountDet2 ≤ 0 → r.doseDet2 = 0 ∧ r.rmsDoseDet2 = 0) := by
  unfold RunAction.EndOfRunAction
  rw [if_neg hev]
  refine ⟨_, rfl, rfl, rfl, ?_, ?_, ?_, ?_⟩
  · intro hn
    dsimp only
    rw [if_pos (show ra.fEventCountDet1 > 0 from hn), if_pos (show ra.fEventCountDet1 > 0 from hn)]
    exact ⟨rfl, div_mul_cancel₀ _ (ne_of_gt hm1), rfl⟩
  · intro hn
    dsimp only
    rw [if_neg (not_lt.2 hn), if_neg (not_lt.2 hn)]
    exact ⟨rfl, rfl⟩
  · intro hn
    dsimp only
    rw [if_pos (show ra.fEventCountDet2 > 0 from hn), if_pos (show ra.fEventCountDet2 > 0 from hn)]
    exact ⟨rfl, div_mul_cancel₀ _ (ne_of_gt hm2), rfl⟩
  · intro hn
    dsimp only
    rw [if_neg (not_lt.2 hn), if_neg (not_lt.2 hn)]
    exact ⟨rfl, rfl⟩

/-- C20 at the accumulables of the ten event totals 15, 5, 10, ..., 10 (S = 100,
n = 10) and a mass of 2: the reported dose of detector 1 is 50, and that of
detector 2, which has no event, is 0. -/
theorem C20_dose_derivation_witness :
    ∃ r, (tenTotals.foldl RunAction.AddEnergyDepositDet1 RunAction.new).EndOfRunAction
        floorSqrt 10 2 2 = some r ∧ r.doseDet1 = 50 ∧ r.doseDet2 = 0 := by
  have hfold : tenTotals.foldl RunAction.AddEnergyDepositDet1 RunAction.new =
      { fEnergyDepositDet1 := 100, fEnergyDepositDet2 := 0,
        fEventCountDet1 := 10, fEventCountDet2 := 0 } := by
    norm_num [tenTotals, List.foldl, RunAction.AddEnergyDepositDet1, RunAction.new]
  obtain ⟨r, hr, -, -, h1, -, -, h2⟩ :=
    C20_dose_derivation floorSqrt (tenTotals.foldl RunAction.AddEnergyDepositDet1 RunAction.new)
      10 2 2 (by decide) (by norm_num) (by norm_num)
  rw [hfold] at h1 h2
  refine ⟨r, hr, ?_, ?_⟩
  · rw [(h1 (by decide)).1]
    norm_num
  · exact (h2 (le_refl 0)).1

/-- C21: unit direction.  Over the reals, for draws `u₁` in [0, 1] and `u₂`,
`SampleDirection` returns (s cos φ, s sin φ, c) with c = 2 u₁ - 1,
s = sqrt(1 - c²) and φ = 2π u₂; c lies in [-1, 1], so the square root is of a
non-negative number, and the vector has Euclidean norm exactly 1.  The last part
states that the embedded `SampleDirection` is this function of its two draws. -/
theorem C21_unit_direction (u₁ u₂ : ℝ) (h0 : 0 ≤ u₁) (h1 : u₁ ≤ 1) :
    PrimaryGeneratorAction.directionFrom Real.sqrt Real.cos Real.sin (2 * Real.pi) u₁ u₂ =
      (Real.sqrt (1 - (2 * u₁ - 1) * (2 * u₁ - 1)) * Real.cos (2 * Real.pi * u₂),
        Real.sqrt (1 - (2 * u₁ - 1) * (2 * u₁ - 1)) * Real.sin (2 * Real.pi * u₂),
        2 * u₁ - 1) ∧
    -1 ≤ 2 * u₁ - 1 ∧ 2 * u₁ - 1 ≤ 1 ∧ 0 ≤ 1 - (2 * u₁ - 1) * (2 * u₁ - 1) ∧
    (PrimaryGeneratorAction.directionFrom Real.sqrt Real.cos Real.sin (2 * Real.pi) u₁ u₂).1 ^ 2 +
      (PrimaryGeneratorAction.directionFrom Real.sqrt Real.cos Real.sin (2 * Real.pi) u₁ u₂).2.1 ^ 2 +
      (PrimaryGeneratorAction.directionFrom Real.sqrt Real.cos Real.sin (2 * Real.pi) u₁ u₂).2.2 ^ 2
      = 1 ∧
    Real.sqrt
      ((PrimaryGeneratorAction.directionFrom Real.sqrt Real.cos Real.sin (2 * Real.pi) u₁ u₂).1 ^ 2 +
        (PrimaryGeneratorAction.directionFrom Real.sqrt Real.cos Real.sin (2 * Real.pi) u₁ u₂).2.1 ^ 2 +
        (PrimaryGeneratorAction.directionFrom Real.sqrt Real.cos Real.sin (2 * Real.pi) u₁ u₂).2.2 ^ 2)
      = 1 ∧
    (∀ (env : Toolkit) (w : Session),
      (PrimaryGeneratorAction.SampleDirection env w).1 =
        PrimaryGeneratorAction.directionFrom env.sqrt env.cos env.sin env.twopi
          (env.G4UniformRand w.randomDraws) (env.G4UniformRand (w.randomDraws + 1))) := by
  have hrad : 0 ≤ 1 - (2 * u₁ - 1) * (2 * u₁ - 1) := by nlinarith
  have hnorm :
      (PrimaryGeneratorAction.directionFrom Real.sqrt Real.cos Real.sin (2 * Real.pi) u₁ u₂).1 ^ 2 +
        (PrimaryGeneratorAction.directionFrom Real.sqrt Real.cos Real.sin (2 * Real.pi) u₁ u₂).2.1 ^ 2 +
        (PrimaryGeneratorAction.directionFrom Real.sqrt Real.cos Real.sin (2 * Real.pi) u₁ u₂).2.2 ^ 2
        = 1 := by
    simp only [PrimaryGeneratorAction.directionFrom]
    have hs := Real.sq_sqrt hrad
    have hcs := Real.cos_sq_add_sin_sq (2 * Real.pi * u₂)
    calc (Real.sqrt (1 - (2 * u₁ - 1) * (2 * u₁ - 1)) * Real.cos (2 * Real.pi * u₂)) ^ 2 +
          (Real.sqrt (1 - (2 * u₁ - 1) * (2 * u₁ - 1)) * Real.sin (2 * Real.pi * u₂)) ^ 2 +
          (2 * u₁ - 1) ^ 2
        = Real.sqrt (1 - (2 * u₁ - 1) * (2 * u₁ - 1)) ^ 2 *
            (Real.cos (2 * Real.pi * u₂) ^ 2 + Real.sin (2 * Real.pi * u₂) ^ 2) +
          (2 * u₁ - 1) ^ 2 := by ring
      _ = (1 - (2 * u₁ - 1) * (2 * u₁ - 1)) * 1 + (2 * u₁ - 1) ^ 2 := by rw [hs, hcs]
      _ = 1 := by ring
  refine ⟨rfl, by linarith, by linarith, hrad, hnorm, ?_,
    PrimaryGeneratorAction.SampleDirection_eq_directionFrom⟩
  rw [hnorm, Real.sqrt_one]

/-- C21 at the draws 1/2 and 1/4: the direction has squared norm 1. -/
theorem C21_unit_direction_witness :
    (PrimaryGeneratorAction.directionFrom Real.sqrt Real.cos Real.sin (2 * Real.pi)
        (1 / 2) (1 / 4)).1 ^ 2 +
      (PrimaryGeneratorAction.directionFrom Real.sqrt Real.cos Real.sin (2 * Real.pi)
        (1 / 2) (1 / 4)).2.1 ^ 2 +
      (PrimaryGeneratorAction.directionFrom Real.sqrt Real.cos Real.sin (2 * Real.pi)
        (1 / 2) (1 / 4)).2.2 ^ 2 = 1 :=
  (C21_unit_direction (1 / 2) (1 / 4) (by norm_num) (by norm_num)).2.2.2.2.1

/-- C22: source-mode transition.  `SetSourceMode(m)` leaves the whole state
unchanged when `m` is already the current mode and otherwise changes only the
mode field; afterwards the current mode is `m`; applying it twice equals applying
it once; and the next `GeneratePrimaries` dispatches on `m`. -/
theorem C22_set_source_mode (env : Toolkit) (gen : PrimaryGeneratorAction) (w : Session)
    (m : SourceMode) :
    (gen.fSourceMode = m → gen.SetSourceMode m = gen) ∧
    gen.SetSourceMode m = { gen with fSourceMode := m } ∧
    (gen.SetSourceMode m).fSourceMode = m ∧
    (gen.SetSourceMode m).SetSourceMode m = gen.SetSourceMode m ∧
    (gen.SetSourceMode SourceMode.CO60_CASCADE).GeneratePrimaries env w =
      (gen.SetSourceMode SourceMode.CO60_CASCADE).GenerateCo60Cascade env w ∧
    (gen.SetSourceMode SourceMode.SINGLE_GAMMA).GeneratePrimaries env w =
      (gen.SetSourceMode SourceMode.SINGLE_GAMMA).GenerateSingleGammaEvent env w ∧
    (gen.SetSourceMode SourceMode.NUDEX_CAPTURE).GeneratePrimaries env w =
      (gen.SetSourceMode SourceMode.NUDEX_CAPTURE).GenerateNuDEXCascade env w := by
  have hwith : ∀ m' : SourceMode, gen.SetSourceMode m' = { gen with fSourceMode := m' } := by
    intro m'
    unfold PrimaryGeneratorAction.SetSourceMode
    by_cases h : gen.fSourceMode = m'
    · rw [if_pos h]
      cases gen
      simp only [PrimaryGeneratorAction.mk.injEq, true_and, and_true] at h ⊢
      exact h
    · rw [if_neg h]
  have hmode : ∀ m' : SourceMode, (gen.SetSourceMode m').fSourceMode = m' := by
    intro m'
    rw [hwith m']
  have hdisp : ∀ g : PrimaryGeneratorAction, ∀ m' : SourceMode, g.fSourceMode = m' →
      g.GeneratePrimaries env w =
        (match m' with
        | SourceMode.CO60_CASCADE => g.GenerateCo60Cascade env w
        | SourceMode.SINGLE_GAMMA => g.GenerateSingleGammaEvent env w
        | SourceMode.NUDEX_CAPTURE => g.GenerateNuDEXCascade env w) := by
    intro g m' hg
    unfold PrimaryGeneratorAction.GeneratePrimaries
    rw [hg]
  have hnoop : ∀ g : PrimaryGeneratorAction, ∀ m' : SourceMode, g.fSourceMode = m' →
      g.SetSourceMode m' = g := by
    intro g m' hg
    unfold PrimaryGeneratorAction.SetSourceMode
    rw [if_pos hg]
  exact ⟨hnoop gen m, hwith m, hmode m, hnoop _ m (hmode m), hdisp _ _ (hmode _),
    hdisp _ _ (hmode _), hdisp _ _ (hmode _)⟩

/-- C23 fails as stated: for `-nudex 3000000 1` (Z = 3000000 > 0, A = 1) both
arguments parse fully and fit an `int`, but the `int` expression `z * 1000 + a`
overflows: the stored ZA is -1294967295, and it decodes to -1294967 and -295, not
to Z and A. -/
theorem C23_int_overflow_counterexample :
    parseInt CRuntime.sample "3000000" = some 3000000 ∧
    parseInt CRuntime.sample "1" = some 1 ∧
    optionStep CRuntime.sample "-nudex" ["3000000", "1"] Options.initial =
      Except.ok (2, { Options.initial with
        sourceMode := SourceMode.NUDEX_CAPTURE, nudexZA := -1294967295 }) ∧
    Int.tdiv (-1294967295) 1000 = -1294967 ∧ Int.tmod (-1294967295) 1000 = -295 ∧
    Int.tdiv (-1294967295) 1000 ≠ 3000000 ∧ Int.tmod (-1294967295) 1000 ≠ 1 := by
  have h₁ : parseInt CRuntime.sample "3000000" = some 3000000 := by decide
  have h₂ : parseInt CRuntime.sample "1" = some 1 := by decide
  refine ⟨h₁, h₂, ?_, by decide, by decide, by decide, by decide⟩
  rw [optionStep_nudex_eq_ruleInt]
  simp only [nudexRuleInt, List.head?, List.tail, positiveIntArg, h₁, h₂]
  rfl

/-- C23 (amended): ZA encoding round trip within the range of `int`.  For
`-nudex Z A` with Z > 0, 0 < A < 1000 and 1000 Z + A ≤ 2147483647, `main` stores
ZA = 1000 Z + A, and decoding it as ZA / 1000 and ZA mod 1000 gives back Z and A;
a generator configured with any ZA > 0 constructs the nucleus
(ZA / 1000, ZA mod 1000), and 1000 (ZA / 1000) + (ZA mod 1000) = ZA. -/
theorem C23_za_round_trip (lib : CRuntime) (a₁ a₂ : String) (rest : List String)
    (o : Options) (Z A : Int)
    (h₁ : parseInt lib a₁ = some Z) (h₂ : parseInt lib a₂ = some A)
    (hZ : 0 < Z) (hA : 0 < A) (hA' : A < 1000) (hfit : 1000 * Z + A ≤ 2147483647) :
    (∃ o₁ : Options, optionStep lib "-nudex" (a₁ :: a₂ :: rest) o = Except.ok (2, o₁) ∧
      o₁.nudexZA = 1000 * Z + A ∧
      Int.tdiv o₁.nudexZA 1000 = Z ∧ Int.tmod o₁.nudexZA 1000 = A) ∧
    (∀ (env : Toolkit) (gen : PrimaryGeneratorAction) (w : Session),
      gen.fSourceMode = SourceMode.NUDEX_CAPTURE → gen.fNuDEX = none →
      0 < gen.fNuDEX_ZA → gen.fNuDEXLibDir ≠ "" →
      ∃ Z' A' : Int,
        (w.nudexConstructed ++ [(Z', A')]) <+:
          (gen.GeneratePrimaries env w).2.nudexConstructed ∧
        Z' = Int.tdiv gen.fNuDEX_ZA 1000 ∧ A' = Int.tmod gen.fNuDEX_ZA 1000 ∧
        1000 * Z' + A' = gen.fNuDEX_ZA) := by
  have hw : toInt32 (1000 * Z + A) = 1000 * Z + A :=
    toInt32_of_fits _ ⟨by omega, hfit⟩
  constructor
  · refine ⟨(nudexRuleInt lib (a₁ :: a₂ :: rest) o).2, ?_, ?_⟩
    · rw [optionStep_nudex_eq_ruleInt]
      simp only [nudexRuleInt, List.head?, List.tail, positiveIntArg, h₁, h₂, if_pos hZ,
        if_pos hA]
    · have hrule : (nudexRuleInt lib (a₁ :: a₂ :: rest) o).2.nudexZA = 1000 * Z + A := by
        simp only [nudexRuleInt, List.head?, List.tail, positiveIntArg, h₁, h₂, if_pos hZ,
          if_pos hA, hw]
      rw [hrule]
      exact ⟨rfl, decode_encode_ZA Z A hZ hA hA'⟩
  · intro env gen w hmode hnone hza hdir
    exact ⟨_, _,
      (PrimaryGeneratorAction.GeneratePrimaries_constructs env gen w hmode hnone hza hdir).1,
      rfl, rfl, Int.tdiv_add_tmod _ _⟩

/-- C23 (amended) at `-nudex 24 53` (Cr-53): the stored ZA is 24053 and decodes to
24 and 53. -/
theorem C23_za_round_trip_witness :
    ∃ o₁ : Options,
      optionStep CRuntime.sample "-nudex" ["24", "53"] Options.initial = Except.ok (2, o₁) ∧
      o₁.nudexZA = 24053 ∧ Int.tdiv o₁.nudexZA 1000 = 24 ∧ Int.tmod o₁.nudexZA 1000 = 53 := by
  obtain ⟨⟨o₁, h1, h2, h3, h4⟩, -⟩ :=
    C23_za_round_trip CRuntime.sample "24" "53" [] Options.initial 24 53
      (by decide) (by decide) (by decide) (by decide) (by decide) (by decide)
  exact ⟨o₁, h1, by rw [h2]; rfl, h3, h4⟩

/-- C24: library-directory resolution.  For the configured directory `d`, the
resolved directory is the first element of the ordered candidate list (d, three
relative paths, the absolute path) under which the file
GeneralStatNuclParameters.dat can be opened, and `d` itself when there is none; in
particular it is `d` whenever the file can be opened under `d`; and it is the
directory `Init` is invoked with. -/
theorem C24_libdir_resolution (env : Toolkit) (d : String) :
    libDirCandidates d =
      [d, "NuDEX/NuDEXlib/", "./NuDEX/NuDEXlib/", "../NuDEX/NuDEXlib/",
        "/Users/namtran/Project/DualHPGe_NuDEX/NuDEX/NuDEXlib/"] ∧
    (∀ (pre post : List String) (c : String),
      libDirCandidates d = pre ++ c :: post →
      (∀ x ∈ pre, env.fileGood (x ++ "GeneralStatNuclParameters.dat") = false) →
      env.fileGood (c ++ "GeneralStatNuclParameters.dat") = true →
      PrimaryGeneratorAction.resolveLibDir env d = c) ∧
    ((∀ x ∈ libDirCandidates d, env.fileGood (x ++ "GeneralStatNuclParameters.dat") = false) →
      PrimaryGeneratorAction.resolveLibDir env d = d) ∧
    (env.fileGood (d ++ "GeneralStatNuclParameters.dat") = true →
      PrimaryGeneratorAction.resolveLibDir env d = d) ∧
    (∀ (gen : PrimaryGeneratorAction) (w : Session),
      gen.fSourceMode = SourceMode.NUDEX_CAPTURE → gen.fNuDEX = none →
      0 < gen.fNuDEX_ZA → gen.fNuDEXLibDir ≠ "" →
      (w.nudexInitCalls ++ [PrimaryGeneratorAction.resolveLibDir env gen.fNuDEXLibDir]) <+:
        (gen.GeneratePrimaries env w).2.nudexInitCalls) := by
  have hfirst : ∀ (pre post : List String) (c : String),
      libDirCandidates d = pre ++ c :: post →
      (∀ x ∈ pre, env.fileGood (x ++ "GeneralStatNuclParameters.dat") = false) →
      env.fileGood (c ++ "GeneralStatNuclParameters.dat") = true →
      PrimaryGeneratorAction.resolveLibDir env d = c := by
    intro pre post c hL hpre hc
    have hf : (libDirCandidates d).find?
        (fun c => env.fileGood (c ++ "GeneralStatNuclParameters.dat")) = some c :=
      List.find?_eq_some.2 ⟨hc, pre, post, hL, fun a ha => by rw [hpre a ha]; rfl⟩
    rw [PrimaryGeneratorAction.resolveLibDir_eq, hf]
  refine ⟨rfl, hfirst, ?_, ?_, ?_⟩
  · intro hnone
    have hf : (libDirCandidates d).find?
        (fun c => env.fileGood (c ++ "GeneralStatNuclParameters.dat")) = none :=
      List.find?_eq_none.2 (fun x hx => by rw [hnone x hx]; decide)
    rw [PrimaryGeneratorAction.resolveLibDir_eq, hf]
  · intro hd
    exact hfirst [] _ d rfl (fun x hx => absurd hx (List.not_mem_nil x)) hd
  · intro gen w hmode hnone hza hdir
    exact (PrimaryGeneratorAction.GeneratePrimaries_constructs env gen w hmode hnone hza hdir).2

/-- C25 fails as stated: the argument of `-nudex 4294967297` parses fully as the
integer 4294967297 > 0, for which the rule of the specification stores
ZA = 4294967297, yet `main` stores ZA = 1, the value of the conversion to `int`;
and the argument of `-nudex 2147483648` parses fully as a positive integer, yet
no argument is consumed and ZA keeps its value. -/
theorem C25_int_conversion_counterexample :
    positiveArg CRuntime.sample (some "4294967297") = some 4294967297 ∧
    nudexRule CRuntime.sample ["4294967297"] Options.initial =
      (1, { Options.initial with
        sourceMode := SourceMode.NUDEX_CAPTURE, nudexZA := 4294967297 }) ∧
    optionStep CRuntime.sample "-nudex" ["4294967297"] Options.initial =
      Except.ok (1, { Options.initial with
        sourceMode := SourceMode.NUDEX_CAPTURE, nudexZA := 1 }) ∧
    positiveArg CRuntime.sample (some "2147483648") = some 2147483648 ∧
    optionStep CRuntime.sample "-nudex" ["2147483648"] Options.initial =
      Except.ok (0, { Options.initial with sourceMode := SourceMode.NUDEX_CAPTURE }) := by
  have h₁ : positiveArg CRuntime.sample (some "4294967297") = some 4294967297 := by decide
  have h₂ : positiveArg CRuntime.sample (some "2147483648") = some 2147483648 := by decide
  have p₁ : positiveIntArg CRuntime.sample (some "4294967297") = some 1 := by decide
  have p₂ : positiveIntArg CRuntime.sample (some "2147483648") = none := by decide
  have hn : positiveArg CRuntime.sample none = none := rfl
  have pn : positiveIntArg CRuntime.sample none = none := rfl
  refine ⟨h₁, ?_, ?_, h₂, ?_⟩
  · simp only [nudexRule, List.head?, List.tail, h₁, hn]
  · rw [optionStep_nudex_eq_ruleInt]
    simp only [nudexRuleInt, List.head?, List.tail, p₁, pn]
  · rw [optionStep_nudex_eq_ruleInt]
    simp only [nudexRuleInt, List.head?, List.tail, p₂]

/-- C25 (amended): nuclide argument parsing of `-nudex`, every number being held
in an `int`.  The option step for `-nudex` is the rule `nudexRuleInt`: the mode
becomes NUDEX_CAPTURE in every case; an argument that parses fully is converted
to `int`; two arguments with positive `int` values z and a give the `int` value
of 1000 z + a as ZA and consume two arguments; otherwise one argument with a
positive `int` value is the combined ZA and consumes one argument; otherwise
nothing is consumed and ZA keeps its value, the default being 17035
(Z = 17, A = 35).  When the integers given and 1000 z + a fit an `int`, this is
the rule of the specification (`nudexRule`). -/
theorem C25_nudex_argument_parsing (lib : CRuntime) (rest : List String) (o : Options) :
    optionStep lib "-nudex" rest o = Except.ok (nudexRuleInt lib rest o) ∧
    parseArgs lib ("-nudex" :: rest) o =
      parseArgs lib (rest.drop (nudexRuleInt lib rest o).1) (nudexRuleInt lib rest o).2 ∧
    (nudexRuleInt lib rest o).2.sourceMode = SourceMode.NUDEX_CAPTURE ∧
    (∀ str : String, parseInt lib str =
      if str = "" then none else (lib.strtol str).map toInt32) ∧
    (∀ v : Int, -2147483648 ≤ toInt32 v ∧ toInt32 v ≤ 2147483647 ∧
      (toInt32 v - v) % 4294967296 = 0) ∧
    (∀ (a₁ a₂ : String) (t : List String) (z a : Int),
      rest = a₁ :: a₂ :: t → parseInt lib a₁ = some z → parseInt lib a₂ = some a →
      0 < z → 0 < a →
      (nudexRuleInt lib rest o).1 = 2 ∧
      (nudexRuleInt lib rest o).2.nudexZA = toInt32 (1000 * z + a)) ∧
    (∀ (a₁ : String) (t : List String) (z : Int),
      rest = a₁ :: t → parseInt lib a₁ = some z → 0 < z →
      positiveIntArg lib t.head? = none →
      (nudexRuleInt lib rest o).1 = 1 ∧ (nudexRuleInt lib rest o).2.nudexZA = z) ∧
    (positiveIntArg lib rest.head? = none →
      (nudexRuleInt lib rest o).1 = 0 ∧ (nudexRuleInt lib rest o).2.nudexZA = o.nudexZA) ∧
    ((∀ str v, str ∈ rest.take 2 → lib.strtol str = some v →
        -2147483648 ≤ v ∧ v ≤ 2147483647) →
      (∀ z a, positiveArg lib rest.head? = some z →
        positiveArg lib rest.tail.head? = some a → 1000 * z + a ≤ 2147483647) →
      optionStep lib "-nudex" rest o = Except.ok (nudexRule lib rest o)) ∧
    Options.initial.nudexZA = 17035 ∧
    Int.tdiv Options.initial.nudexZA 1000 = 17 ∧ Int.tmod Options.initial.nudexZA 1000 = 35 := by
  refine ⟨optionStep_nudex_eq_ruleInt lib rest o,
    parseArgs_step_ok lib _ rest o _ _ (optionStep_nudex_eq_ruleInt lib rest o), ?_,
    fun _ => rfl, ?_, ?_, ?_, ?_, ?_, rfl, by decide, by decide⟩
  · unfold nudexRuleInt
    cases positiveIntArg lib rest.head? with
    | none => rfl
    | some z =>
      cases positiveIntArg lib rest.tail.head? with
      | none => rfl
      | some a => rfl
  · intro v
    unfold toInt32
    omega
  · intro a₁ a₂ t z a hrest h₁ h₂ hz ha
    subst hrest
    simp only [nudexRuleInt, List.head?, List.tail, positiveIntArg, h₁, h₂, if_pos hz,
      if_pos ha, and_self]
  · intro a₁ t z hrest h₁ hz hnone
    subst hrest
    have hp₁ : positiveIntArg lib (a₁ :: t).head? = some z := by
      simp only [List.head?, positiveIntArg, h₁, if_pos hz]
    have hp₂ : positiveIntArg lib (a₁ :: t).tail.head? = none := hnone
    simp only [nudexRuleInt, hp₁, hp₂, and_self]
  · intro hnone
    simp only [nudexRuleInt, hnone, and_self]
  · intro hfit hza
    rw [optionStep_nudex_eq_ruleInt, nudexRuleInt_eq_nudexRule lib rest o hfit hza]

/-- C26: malformed numeric options fall back to their defaults.  A `-threads`
value other than auto or 0 that does not parse as an integer, or parses to an
integer < 1, gives `nThreads = 1`; an `-angle` value that does not parse as a
number gives the angle 180.0, whatever the angle was before; in both cases the
option loop goes on with the next argument. -/
theorem C26_malformed_numeric_options (lib : CRuntime) (o : Options) (value : String)
    (rest : List String) :
    (value ≠ "auto" → value ≠ "0" →
      (lib.readInt value = none ∨ ∃ v, lib.readInt value = some v ∧ v < 1) →
      optionStep lib "-threads" (value :: rest) o = Except.ok (1, { o with nThreads := 1 }) ∧
      parseArgs lib ("-threads" :: value :: rest) o =
        parseArgs lib rest { o with nThreads := 1 }) ∧
    (lib.readDouble value = none →
      optionStep lib "-angle" (value :: rest) o =
        Except.ok (1, { o with detector2Angle := 180.0 }) ∧
      parseArgs lib ("-angle" :: value :: rest) o =
        parseArgs lib rest { o with detector2Angle := 180.0 }) := by
  constructor
  · intro hauto hzero hbad
    have hval : threadsValue lib value = 1 := by
      unfold threadsValue
      rw [if_neg (fun h : value = "auto" ∨ value = "0" => h.elim hauto hzero)]
      rcases hbad with h | ⟨v, h, hv⟩
      · rw [h]
      · rw [h]
        simp only [if_pos hv]
    have hstep : optionStep lib "-threads" (value :: rest) o =
        Except.ok (1, { o with nThreads := 1 }) := by
      rw [optionStep_threads_value, hval]
    exact ⟨hstep, parseArgs_step_ok lib _ _ o _ _ hstep⟩
  · intro hbad
    have hstep : optionStep lib "-angle" (value :: rest) o =
        Except.ok (1, { o with detector2Angle := 180.0 }) := by
      unfold optionStep
      rw [if_neg (by decide), if_neg (by decide), if_neg (by decide), if_neg (by decide),
        if_neg (by decide), if_neg (by decide), if_pos rfl]
      simp only [hbad]
    exact ⟨hstep, parseArgs_step_ok lib _ _ o _ _ hstep⟩

/-- C26 at the command line `-angle 45 -angle abc -threads x8`: the loop ends
normally with the angle back at 180.0 and one thread. -/
theorem C26_malformed_numeric_options_witness :
    parseArgs CRuntime.sample ["-angle", "abc", "-threads", "x8"]
        { Options.initial with detector2Angle := 45, nThreads := 4 } =
      Except.ok { Options.initial with detector2Angle := 180.0, nThreads := 1 } := by
  rw [((C26_malformed_numeric_options CRuntime.sample
      { Options.initial with detector2Angle := 45, nThreads := 4 } "abc"
      ["-threads", "x8"]).2 (by decide)).2,
    ((C26_malformed_numeric_options CRuntime.sample
      { Options.initial with detector2Angle := 180.0, nThreads := 4 } "x8" []).1
      (by decide) (by decide) (Or.inl (by decide))).2,
    parseArgs_nil]

/-- C27: the run-level event count counts events with positive deposit.
`RunAction::AddEnergyDepositDet1` (resp. `Det2`) always adds `edep` to the
detector's cumulative energy and adds 1 to its event count if `edep > 0` and 0
otherwise; after any sequence of calls the count has grown by the number of calls
with `edep > 0` and the cumulative energy by the sum of all `edep` values. -/
theorem C27_event_count_positive_deposits (ra : RunAction) (edep : ℚ) (calls : List ℚ) :
    (ra.AddEnergyDepositDet1 edep).fEnergyDepositDet1 = ra.fEnergyDepositDet1 + edep ∧
    (ra.AddEnergyDepositDet1 edep).fEventCountDet1 =
      ra.fEventCountDet1 + (if edep > 0 then 1 else 0) ∧
    (ra.AddEnergyDepositDet2 edep).fEnergyDepositDet2 = ra.fEnergyDepositDet2 + edep ∧
    (ra.AddEnergyDepositDet2 edep).fEventCountDet2 =
      ra.fEventCountDet2 + (if edep > 0 then 1 else 0) ∧
    (calls.foldl RunAction.AddEnergyDepositDet1 ra).fEnergyDepositDet1 =
      ra.fEnergyDepositDet1 + calls.sum ∧
    (calls.foldl RunAction.AddEnergyDepositDet1 ra).fEventCountDet1 =
      ra.fEventCountDet1 + ((calls.filter (fun e => decide (e > 0))).length : Int) ∧
    (calls.foldl RunAction.AddEnergyDepositDet2 ra).fEnergyDepositDet2 =
      ra.fEnergyDepositDet2 + calls.sum ∧
    (calls.foldl RunAction.AddEnergyDepositDet2 ra).fEventCountDet2 =
      ra.fEventCountDet2 + ((calls.filter (fun e => decide (e > 0))).length : Int) ∧
    (calls.foldl RunAction.AddEnergyDepositDet1 RunAction.new).fEnergyDepositDet1 = calls.sum ∧
    (calls.foldl RunAction.AddEnergyDepositDet1 RunAction.new).fEventCountDet1 =
      ((calls.filter (fun e => decide (e > 0))).length : Int) := by
  obtain ⟨a1, a2, -, -⟩ := RunAction.fields_AddEnergyDepositDet1 ra edep
  obtain ⟨b1, b2, -, -⟩ := RunAction.fields_AddEnergyDepositDet2 ra edep
  obtain ⟨c1, c2, -, -⟩ := RunAction.totals_foldl_AddEnergyDepositDet1 calls ra
  obtain ⟨d1, d2, -, -⟩ := RunAction.totals_foldl_AddEnergyDepositDet2 calls ra
  obtain ⟨e1, e2, -, -⟩ := RunAction.totals_foldl_AddEnergyDepositDet1 calls RunAction.new
  refine ⟨a1, a2, b1, b2, c1, c2, d1, d2, ?_, ?_⟩
  · rw [e1]; simp [RunAction.new]
  · rw [e2]; simp [RunAction.new]

/-- C28: histogram range invariant.  In every run reachable from a freshly
constructed `Run` by `AddEnergySpectrumDet1`, `AddEnergySpectrumDet2` and `Merge`
with other reachable runs, every bin index present in either histogram lies in
[0, 10000) and every stored count is non-negative; so every bin reads a
non-negative count, and a non-zero count only at an index in [0, 10000). -/
theorem C28_histogram_range_invariant (r : Run) (es₁ es₂ : List ℚ)
    (h : Run.Reachable r es₁ es₂) :
    (∀ x ∈ r.fEnergyHistogramDet1.bins, 0 ≤ x.1 ∧ x.1 < 10000 ∧ 0 ≤ x.2) ∧
    (∀ x ∈ r.fEnergyHistogramDet2.bins, 0 ≤ x.1 ∧ x.1 < 10000 ∧ 0 ≤ x.2) ∧
    (∀ b : Int, 0 ≤ r.fEnergyHistogramDet1.count b ∧
      (r.fEnergyHistogramDet1.count b ≠ 0 → 0 ≤ b ∧ b < 10000)) ∧
    (∀ b : Int, 0 ≤ r.fEnergyHistogramDet2.count b ∧
      (r.fEnergyHistogramDet2.count b ≠ 0 → 0 ≤ b ∧ b < 10000)) := by
  obtain ⟨i1, i2, -⟩ := Run.Reachable.invariants r es₁ es₂ h
  refine ⟨?_, ?_, ?_, ?_⟩
  · intro x hx
    exact ⟨(i1 x hx).1, (i1 x hx).2.1, le_of_lt (i1 x hx).2.2⟩
  · intro x hx
    exact ⟨(i2 x hx).1, (i2 x hx).2.1, le_of_lt (i2 x hx).2.2⟩
  · exact EnergyHistogram.count_of_inRange _ i1
  · exact EnergyHistogram.count_of_inRange _ i2

/-- C28 at the run obtained from the fresh run by recording 0.0105 MeV and then
10 MeV for detector 1: bin 10 of detector 1 reads a non-negative count, and bin
10000 can only read 0. -/
theorem C28_histogram_range_invariant_witness :
    0 ≤ ((Run.new.AddEnergySpectrumDet1 (0.0105 * MeV)).AddEnergySpectrumDet1
        (10.0 * MeV)).fEnergyHistogramDet1.count 10 ∧
    ((Run.new.AddEnergySpectrumDet1 (0.0105 * MeV)).AddEnergySpectrumDet1
        (10.0 * MeV)).fEnergyHistogramDet1.count 10000 = 0 := by
  have h := (C28_histogram_range_invariant _ _ _
    (Run.Reachable.addDet1 _ _ _ (10.0 * MeV)
      (Run.Reachable.addDet1 _ _ _ (0.0105 * MeV) Run.Reachable.fresh))).2.2.1
  refine ⟨(h 10).1, ?_⟩
  by_contra hne
  exact absurd ((h 10000).2 hne).2 (by decide)

/-- C29: histogram total versus hit counter.  In every reachable run, for each
detector the sum of all bin counts is the number of in-range energies recorded
for it and the event counter is the number of energies recorded for it (in this
run or in any run merged into it); so the sum is ≤ the counter, with equality
exactly when every recorded energy was in range, its keV value as the program
computes it lying in [0, 10000).  Equality implies that every recorded energy has
its exact keV value in [0, 10000), and for recorded energies that are doubles
equality holds exactly when every one has its exact keV value in [0, 10000). -/
theorem C29_histogram_total_le_counter (r : Run) (es₁ es₂ : List ℚ)
    (h : Run.Reachable r es₁ es₂) :
    r.fEnergyHistogramDet1.total = ((es₁.filter Run.energyInRange).length : Int) ∧
    r.fTotalEventsDet1 = (es₁.length : Int) ∧
    r.fEnergyHistogramDet1.total ≤ r.fTotalEventsDet1 ∧
    (r.fEnergyHistogramDet1.total = r.fTotalEventsDet1 ↔
      ∀ e ∈ es₁, 0 ≤ Run.energy_keV e ∧ Run.energy_keV e < 10000) ∧
    (r.fEnergyHistogramDet1.total = r.fTotalEventsDet1 →
      ∀ e ∈ es₁, 0 ≤ e / keV ∧ e / keV < 10000) ∧
    ((∀ e ∈ es₁, G4double.nearest e = e) →
      (r.fEnergyHistogramDet1.total = r.fTotalEventsDet1 ↔
        ∀ e ∈ es₁, 0 ≤ e / keV ∧ e / keV < 10000)) ∧
    r.fEnergyHistogramDet2.total = ((es₂.filter Run.energyInRange).length : Int) ∧
    r.fTotalEventsDet2 = (es₂.length : Int) ∧
    r.fEnergyHistogramDet2.total ≤ r.fTotalEventsDet2 ∧
    (r.fEnergyHistogramDet2.total = r.fTotalEventsDet2 ↔
      ∀ e ∈ es₂, 0 ≤ Run.energy_keV e ∧ Run.energy_keV e < 10000) ∧
    (r.fEnergyHistogramDet2.total = r.fTotalEventsDet2 →
      ∀ e ∈ es₂, 0 ≤ e / keV ∧ e / keV < 10000) ∧
    ((∀ e ∈ es₂, G4double.nearest e = e) →
      (r.fEnergyHistogramDet2.total = r.fTotalEventsDet2 ↔
        ∀ e ∈ es₂, 0 ≤ e / keV ∧ e / keV < 10000)) := by
  obtain ⟨-, -, i3, i4, i5, i6⟩ := Run.Reachable.invariants r es₁ es₂ h
  have hiff : ∀ es : List ℚ,
      (((es.filter Run.energyInRange).length : Int) = (es.length : Int) ↔
        ∀ e ∈ es, 0 ≤ Run.energy_keV e ∧ Run.energy_keV e < 10000) := by
    intro es
    rw [Int.ofNat_inj, List.filter_length_eq_length]
    constructor
    · intro hall e he
      have := hall e he
      unfold Run.energyInRange at this
      rw [Bool.and_eq_true, decide_eq_true_iff, decide_eq_true_iff] at this
      exact this
    · intro hall e he
      unfold Run.energyInRange
      rw [Bool.and_eq_true, decide_eq_true_iff, decide_eq_true_iff]
      exact hall e he
  have hexact : ∀ es : List ℚ,
      (((es.filter Run.energyInRange).length : Int) = (es.length : Int) →
        ∀ e ∈ es, 0 ≤ e / keV ∧ e / keV < 10000) :=
    fun es heq e he => Run.exact_of_energy_keV e ((hiff es).1 heq e he)
  have hdouble : ∀ es : List ℚ, (∀ e ∈ es, G4double.nearest e = e) →
      (((es.filter Run.energyInRange).length : Int) = (es.length : Int) ↔
        ∀ e ∈ es, 0 ≤ e / keV ∧ e / keV < 10000) :=
    fun es hrep => ⟨hexact es, fun hall => (hiff es).2 (fun e he =>
      Run.energy_keV_inRange e (hrep e he) (hall e he).1 (hall e he).2)⟩
  refine ⟨i3, i5, ?_, ?_, ?_, ?_, i4, i6, ?_, ?_, ?_, ?_⟩
  · rw [i3, i5]
    exact_mod_cast List.length_filter_le _ _
  · rw [i3, i5]
    exact hiff es₁
  · rw [i3, i5]
    exact hexact es₁
  · rw [i3, i5]
    exact hdouble es₁
  · rw [i4, i6]
    exact_mod_cast List.length_filter_le _ _
  · rw [i4, i6]
    exact hiff es₂
  · rw [i4, i6]
    exact hexact es₂
  · rw [i4, i6]
    exact hdouble es₂

/-- C29 at the run obtained from the fresh run by recording 0.0105 MeV and then
10 MeV for detector 1: the bin counts sum to at most the event counter. -/
theorem C29_histogram_total_le_counter_witness :
    ((Run.new.AddEnergySpectrumDet1 (0.0105 * MeV)).AddEnergySpectrumDet1
        (10.0 * MeV)).fEnergyHistogramDet1.total ≤
      ((Run.new.AddEnergySpectrumDet1 (0.0105 * MeV)).AddEnergySpectrumDet1
        (10.0 * MeV)).fTotalEventsDet1 :=
  (C29_histogram_total_le_counter _ _ _
    (Run.Reachable.addDet1 _ _ _ (10.0 * MeV)
      (Run.Reachable.addDet1 _ _ _ (0.0105 * MeV) Run.Reachable.fresh))).2.2.1

/-- C30: consistency of the two run-level counters.  For every sequence of events
processed by one worker with the threshold 0.010 MeV and a current run, for each
detector the RunAction event count grows by the number of events with total > 0,
the Run counter `fTotalEventsDetN` by the number of events with total ≥ 10 keV,
and the first growth exceeds the second by exactly the number of events whose
total lies strictly between 0 and 10 keV; so starting from equal counters the
RunAction count is ≥ the Run counter. -/
theorem C30_counters_consistent (ea : EventAction) (ctx : Context) (run : Run)
    (events : List (List (ℚ × Int)))
    (hthr : ea.fMinimumEnergy = 0.010 * MeV) (hrun : ctx.currentRun = some run) :
    ∃ run', (ea.processEvents ctx events).2.currentRun = some run' ∧
      (ea.processEvents ctx events).2.runAction.fEventCountDet1 =
        ctx.runAction.fEventCountDet1 + countEvents 1 (fun t => decide (t > 0)) events ∧
      run'.fTotalEventsDet1 =
        run.fTotalEventsDet1 + countEvents 1 (fun t => decide (t ≥ 0.010 * MeV)) events ∧
      ((ea.processEvents ctx events).2.runAction.fEventCountDet1 - ctx.runAction.fEventCountDet1) -
          (run'.fTotalEventsDet1 - run.fTotalEventsDet1) =
        countEvents 1 (fun t => decide (0 < t) && decide (t < 0.010 * MeV)) events ∧
      (ctx.runAction.fEventCountDet1 = run.fTotalEventsDet1 →
        run'.fTotalEventsDet1 ≤ (ea.processEvents ctx events).2.runAction.fEventCountDet1) ∧
      (ea.processEvents ctx events).2.runAction.fEventCountDet2 =
        ctx.runAction.fEventCountDet2 + countEvents 2 (fun t => decide (t > 0)) events ∧
      run'.fTotalEventsDet2 =
        run.fTotalEventsDet2 + countEvents 2 (fun t => decide (t ≥ 0.010 * MeV)) events ∧
      ((ea.processEvents ctx events).2.runAction.fEventCountDet2 - ctx.runAction.fEventCountDet2) -
          (run'.fTotalEventsDet2 - run.fTotalEventsDet2) =
        countEvents 2 (fun t => decide (0 < t) && decide (t < 0.010 * MeV)) events ∧
      (ctx.runAction.fEventCountDet2 = run.fTotalEventsDet2 →
        run'.fTotalEventsDet2 ≤ (ea.processEvents ctx events).2.runAction.fEventCountDet2) := by
  obtain ⟨run', hcur, f1, f2, d1, d2⟩ :=
    EventAction.counters_processEvents events ea ctx run hrun
  rw [hthr] at f1 f2
  have hpos : (0 : ℚ) < 0.010 * MeV := by norm_num [MeV]
  have s1 := countEvents_split 1 (0.010 * MeV) hpos events
  have s2 := countEvents_split 2 (0.010 * MeV) hpos events
  have n1 := countEvents_nonneg 1 (fun t => decide (0 < t) && decide (t < 0.010 * MeV)) events
  have n2 := countEvents_nonneg 2 (fun t => decide (0 < t) && decide (t < 0.010 * MeV)) events
  refine ⟨run', hcur, d1, f1, ?_, ?_, d2, f2, ?_, ?_⟩
  · rw [d1, f1, s1]; ring
  · intro h0
    rw [d1, f1, s1, h0]
    linarith
  · rw [d2, f2, s2]; ring
  · intro h0
    rw [d2, f2, s2, h0]
    linarith

/-- C30 at a worker processing three events with detector-1 totals 5 keV, 10 keV
and 0: the RunAction count of detector 1 is 2, the Run counter is 1. -/
theorem C30_counters_consistent_witness :
    ∃ run', (EventAction.new.processEvents
        { ntuple := [], currentRun := some Run.new, runAction := RunAction.new,
          eventCounter := 0 }
        [[(5 * keV, 1)], [(4 * keV, 1), (6 * keV, 1)], []]).2.currentRun = some run' ∧
      (EventAction.new.processEvents
        { ntuple := [], currentRun := some Run.new, runAction := RunAction.new,
          eventCounter := 0 }
        [[(5 * keV, 1)], [(4 * keV, 1), (6 * keV, 1)], []]).2.runAction.fEventCountDet1 = 2 ∧
      run'.fTotalEventsDet1 = 1 := by
  obtain ⟨run', hcur, h1, h2, -⟩ :=
    C30_counters_consistent EventAction.new
      { ntuple := [], currentRun := some Run.new, runAction := RunAction.new,
        eventCounter := 0 }
      Run.new [[(5 * keV, 1)], [(4 * keV, 1), (6 * keV, 1)], []] rfl rfl
  refine ⟨run', hcur, ?_, ?_⟩
  · rw [h1]
    norm_num [countEvents, List.filter, amountFor, RunAction.new, keV, MeV]
  · rw [h2]
    norm_num [countEvents, List.filter, amountFor, Run.new, keV, MeV]

end DualHPGe
